import Mathlib

/-!
# Install queue and touch calibration of the yuzu Qt front end

A shallow embedding of the cancellable bulk install task of `src/yuzu/main.cpp`
(`GMainWindow::OnMenuInstallToNAND`, `InstallNSPXCI`, `InstallNCA` and their chunked
copy lambda `qt_raw_copy`) and of the calibration dialog of
`src/yuzu/configuration/configure_motion_touch.cpp`.

Conventions of the embedding:
* stateful C++ code is a function from a state to a result and a new state;
* the collaborators that live outside the two source files (virtual files, the content
  registry, Qt dialogs, the calibration job) are parameters;
* every call the chunked copy makes on a collaborator is appended to a trace, so that
  "what the routine did" can be stated;
* machine integers are `Nat` or `Int`, with explicit wrapping where the C++ type is narrower.
-/

namespace Yuzu

/-! ## The chunked copy routine `qt_raw_copy` -/

/-- Calls made by the chunked copy routine on its collaborators, in program order. -/
inductive CopyEvent where
  /-- The call `dest->Resize(size)` and what it returned. -/
  | resize (size : Nat) (ok : Bool)
  /-- The call `install_progress->wasCanceled()` and what it returned. -/
  | poll (canceled : Bool)
  /-- One emission of the signal `UpdateInstallProgress`. -/
  | emit
  /-- The call `src->Read(buffer, length, offset)` and the number of bytes it returned. -/
  | read (length offset got : Nat)
  /-- The call `dest->Write(buffer, data.size, offset)` and the number of bytes it stored. -/
  | write (data : List Nat) (offset stored : Nat)
  deriving DecidableEq, Repr

/-- A source `FileSys::VirtualFile` as the copy sees it: its size and the bytes that
`Read(length, offset)` puts into the buffer (their number is the return value of `Read`).
The source is not modified while it is copied. -/
structure SrcFile where
  GetSize : Nat
  Read : Nat → Nat → List Nat

/-- A destination `FileSys::VirtualFile`: its two mutating methods over the state `σ` of the
external collaborators. `Resize` returns whether it succeeded, `Write` the number of bytes
stored. -/
structure DestFile (σ : Type) where
  Resize : Nat → σ → Bool × σ
  Write : List Nat → Nat → σ → Nat × σ

/-- The state threaded through the install code: the state of the external collaborators,
the number of times the cancellation flag has been read, and the trace of the copy. -/
structure World (σ : Type) where
  ext : σ
  polls : Nat
  trace : List CopyEvent

/-- Number of `UpdateInstallProgress` emissions recorded in a trace. -/
def signals (t : List CopyEvent) : Nat :=
  t.count CopyEvent.emit

/-- The writes recorded in a trace, as pairs of offset and data. -/
def writes : List CopyEvent → List (Nat × List Nat)
  | [] => []
  | CopyEvent.write data offset _ :: t => (offset, data) :: writes t
  | _ :: t => writes t

/-- The cancellation branch of the loop body of `qt_raw_copy` (main.cpp 1908-1911): the flag
was read as set, `dest->Resize(0)` is called and its result dropped. -/
def copyCancel {σ : Type} (dest : DestFile σ) (w : World σ) : World σ :=
  let r := dest.Resize 0 w.ext
  ⟨r.2, w.polls + 1, w.trace ++ [CopyEvent.poll true, CopyEvent.resize 0 r.1]⟩

/-- The rest of the loop body of `qt_raw_copy` (main.cpp 1913-1916) at index `i`, after the
flag was read as clear: emit `UpdateInstallProgress`, read up to `0x1000` bytes at `i`, write
the bytes read at `i`. The count read is the length handed to `Write`; the count written is
dropped. -/
def copyChunk {σ : Type} (src : SrcFile) (dest : DestFile σ) (i : Nat) (w : World σ) :
    World σ :=
  let data := src.Read 0x1000 i
  let r := dest.Write data i w.ext
  ⟨r.2, w.polls + 1,
    w.trace ++ [CopyEvent.poll false, CopyEvent.emit,
      CopyEvent.read 0x1000 i data.length, CopyEvent.write data i r.1]⟩

/-- The loop `for (std::size_t i = 0; i < src->GetSize(); i += buffer.size())` of
`qt_raw_copy` (main.cpp 1907-1918 and 1961-1972), entered at index `i`. The buffer has
`0x1000` bytes. `wasCanceled n` is the answer of the `n`-th reading of
`install_progress->wasCanceled()`. Sizes are far below `2^64`, so the `size_t` index does
not wrap. -/
def qt_raw_copy_loop {σ : Type} (wasCanceled : Nat → Bool) (src : SrcFile) (dest : DestFile σ)
    (i : Nat) (w : World σ) : Bool × World σ :=
  if i < src.GetSize then
    if wasCanceled w.polls then
      (false, copyCancel dest w)
    else
      qt_raw_copy_loop wasCanceled src dest (i + 0x1000) (copyChunk src dest i w)
  else
    (true, w)
termination_by src.GetSize - i
decreasing_by omega

/-- The lambda `qt_raw_copy` of `InstallNSPXCI` (main.cpp 1896-1919) and of `InstallNCA`
(main.cpp 1950-1973); the two texts are identical. A null pointer is `none`. The argument
`block_size` is not used by the body. -/
def qt_raw_copy {σ : Type} (wasCanceled : Nat → Bool) (src : Option SrcFile)
    (dest : Option (DestFile σ)) (_block_size : Nat) (w : World σ) : Bool × World σ :=
  match src, dest with
  | some s, some d =>
    let r := d.Resize s.GetSize w.ext
    if !r.1 then
      (false, ⟨r.2, w.polls, w.trace ++ [CopyEvent.resize s.GetSize false]⟩)
    else
      qt_raw_copy_loop wasCanceled s d 0
        ⟨r.2, w.polls, w.trace ++ [CopyEvent.resize s.GetSize true]⟩
  | _, _ => (false, w)

/-- A destination held in memory, its state being its bytes: `Resize` truncates or pads
with zeros, `Write` stores all the bytes given (growing the file when needed). -/
def memDest : DestFile (List Nat) where
  Resize := fun n bytes => (true, bytes.take n ++ List.replicate (n - bytes.length) 0)
  Write := fun data off bytes =>
    (data.length,
      bytes.take off ++ List.replicate (off - bytes.length) 0 ++ data
        ++ bytes.drop (off + data.length))

/-- A source held in memory: `Read` returns the bytes present in the requested window. -/
def memSrc (bytes : List Nat) : SrcFile where
  GetSize := bytes.length
  Read := fun len off => (bytes.drop off).take len

/-! ## The install routines `InstallNSPXCI` and `InstallNCA` -/

/-- Modelled from the spec: `Loader::ResultStatus`, the install status that the
package-metadata collaborator reports ("`Success` or a specific structural error"). Its
declaration is outside the two source files; the two values the code names are kept apart and
every other value is an `Error` with its numeric code. -/
inductive ResultStatus where
  | Success
  | ErrorMissingBKTRBaseRomFS
  | Error (code : Nat)
  deriving DecidableEq, Repr

/-- Modelled from the spec: `FileSys::InstallResult`, the result of the content registry's
`InstallEntry`, "`{Success, OverwriteExisting, Error}`". Its declaration is outside the
two source files. -/
inductive FileSys.InstallResult where
  | Success
  | OverwriteExisting
  | Error
  deriving DecidableEq, Repr

/-- The front end's `InstallResult`, with the three values of the `switch` of
`OnMenuInstallToNAND` (main.cpp 1862-1872). -/
inductive InstallResult where
  | Success
  | Overwrite
  | Failure
  deriving DecidableEq, Repr

/-- What the code asks of a `FileSys::NSP` it has opened. -/
structure NSP where
  path : String
  IsExtractedType : Bool
  GetStatus : ResultStatus
  deriving DecidableEq, Repr

/-- What the code asks of a `FileSys::NCA` it has opened. -/
structure NCA where
  path : String
  GetStatus : ResultStatus
  deriving DecidableEq, Repr

/-- The type of the copy callback handed to `InstallEntry`: source, destination and block
size, acting on the world. -/
abbrev CopyFn (σ : Type) : Type :=
  Option SrcFile → Option (DestFile σ) → Nat → World σ → Bool × World σ

/-- The collaborators of the install code that live outside the two source files, over
their own state `σ`. -/
structure Env (σ : Type) where
  /-- Answer of the `n`-th call of `install_progress->wasCanceled()`. -/
  wasCanceled : Nat → Bool
  /-- The value of `QFile(file).size()`. -/
  fileSize : String → Nat
  /-- Result of `std::make_shared<FileSys::NSP>(vfs->OpenFile(filename, Read))`. -/
  OpenNSP : String → σ → NSP
  /-- Result of `FileSys::XCI(vfs->OpenFile(filename, Read)).GetSecurePartitionNSP()`, a
  `std::shared_ptr<FileSys::NSP>`; `none` is the null pointer. -/
  OpenXCISecurePartitionNSP : String → σ → Option NSP
  /-- Result of `std::make_shared<FileSys::NCA>(vfs->OpenFile(filename, Read))`. -/
  OpenNCA : String → σ → NCA
  /-- The modal `QInputDialog::getItem(.., items, current, false, &ok)`: the item returned
  and the value of `ok`. -/
  getItem : List String → Nat → σ → (String × Bool) × σ
  /-- The call `GetUserNANDContents()->InstallEntry(nsp, overwrite, copy)`. -/
  InstallEntryNSP : NSP → Bool → CopyFn σ → World σ → FileSys.InstallResult × World σ
  /-- The call `InstallEntry(nca, type, overwrite, copy)` on the user NAND contents (first
  argument `true`) or on the system NAND contents (`false`); the title type is passed as
  its `u8` value. -/
  InstallEntryNCA : Bool → NCA → Nat → Bool → CopyFn σ → World σ →
    FileSys.InstallResult × World σ
  /-- The numeric value of `FileSys::TitleType::Application`. -/
  TitleType_Application : Nat
  /-- The numeric value of `FileSys::TitleType::FirmwarePackageB`. -/
  TitleType_FirmwarePackageB : Nat

/-- What the install code does on the user interface and on the content registry, in
program order. -/
inductive GuiEvent where
  /-- `LOG_CRITICAL(Frontend, "Attempting to install too many files, aborting.")`. -/
  | logCritical
  /-- The call `nsp->GetStatus()` on a null pointer (main.cpp 1934): the behaviour is
  undefined and the run of the program is not followed any further. -/
  | nullDereference
  /-- `new QProgressDialog(.., 0, total_size, this)` with its maximum. -/
  | newProgressDialog (maximum : Int)
  /-- `install_progress->setWindowTitle(tr(.., remaining))`. -/
  | setWindowTitle (remaining : Int)
  /-- `install_progress->setLabelText(..)` with the file name shown. -/
  | setLabelText (name : String)
  /-- The call `InstallNSPXCI(file)`. -/
  | callInstallNSPXCI (file : String)
  /-- The call `InstallNCA(file)`. -/
  | callInstallNCA (file : String)
  /-- The prompt `QInputDialog::getItem` for the title type. -/
  | promptTitleType
  /-- The box `QMessageBox::warning` of `InstallNCA`. -/
  | warnInvalidTitleType
  /-- A call of `InstallEntry` for an NSP on the user NAND contents. -/
  | installEntryNSP (path : String) (overwrite : Bool)
  /-- A call of `InstallEntry` for an NCA, on the user NAND contents when `user` is set. -/
  | installEntryNCA (user : Bool) (path : String) (titleType : Nat) (overwrite : Bool)
  /-- The `append` of the file name to the list that the `switch` on the result selects. -/
  | recordOutcome (result : InstallResult) (name : String)
  /-- `install_progress->close()`. -/
  | closeProgress
  /-- The box `QMessageBox::information` with the three counts. -/
  | information (installed overwritten failed : Nat)
  deriving DecidableEq, Repr

/-- The conversion of a value to the 32-bit `int`: two's complement wrapping. -/
def toInt32 (v : Int) : Int :=
  (v + 2 ^ 31) % 2 ^ 32 - 2 ^ 31

/-- `QString::endsWith(suffix, Qt::CaseInsensitive)`, on the characters of the strings,
compared after lowering the case of the ASCII letters. -/
def endsWithCaseInsensitive (s suffix : String) : Bool :=
  (suffix.toList.map Char.toLower).isSuffixOf (s.toList.map Char.toLower)

/-- `QFileInfo(file).fileName()`: the name of the file without its path, that is what
follows the last `/`. -/
def fileName (path : String) : String :=
  String.mk (path.toList.reverse.takeWhile (fun c => c != '/')).reverse

/-- The mapping of the registry's result to the front end's result, which ends both
`InstallNSPXCI` (main.cpp 1940-1946) and `InstallNCA` (main.cpp 2027-2033). -/
def toInstallResult (res : FileSys.InstallResult) : InstallResult :=
  if res = FileSys.InstallResult.Success then InstallResult.Success
  else if res = FileSys.InstallResult.OverwriteExisting then InstallResult.Overwrite
  else InstallResult.Failure

/-- What an install routine hands back: its return value, what it did on the user interface
and registry, and the new world. -/
structure InstallReturn (σ : Type) where
  result : InstallResult
  events : List GuiEvent
  world : World σ

/-- The end of `InstallNSPXCI` (main.cpp 1934-1946), from the test of the status on, for an
NSP that is not null. -/
def InstallNSPXCI.install {σ : Type} (env : Env σ) (nsp : NSP) (w : World σ) :
    InstallReturn σ :=
  if nsp.GetStatus ≠ ResultStatus.Success then
    ⟨InstallResult.Failure, [], w⟩
  else
    let res := env.InstallEntryNSP nsp true (qt_raw_copy env.wasCanceled) w
    ⟨toInstallResult res.1, [GuiEvent.installEntryNSP nsp.path true], res.2⟩

/-- `GMainWindow::InstallNSPXCI` (main.cpp 1895-1947). The NSP made from a file whose name
ends in `nsp` is never null; the NSP taken from the secure partition of an XCI may be null,
and `nsp->GetStatus()` is called on it without a test: for a null pointer the call does not
return, which is `none`. -/
def InstallNSPXCI {σ : Type} (env : Env σ) (filename : String) (w : World σ) :
    Option (InstallReturn σ) :=
  if endsWithCaseInsensitive filename "nsp" then
    let nsp := env.OpenNSP filename w.ext
    if nsp.IsExtractedType then some ⟨InstallResult.Failure, [], w⟩
    else some (InstallNSPXCI.install env nsp w)
  else
    match env.OpenXCISecurePartitionNSP filename w.ext with
    | none => none
    | some nsp => some (InstallNSPXCI.install env nsp w)

/-- The list `tt_options` of `InstallNCA` (main.cpp 1985-1993), in the source language of the
strings. -/
def tt_options : List String :=
  ["系统中的应用", "系统存档", "系统应用程序更新", "固件包（A型）", "固件包（B型）",
    "游戏", "游戏更新", "游戏  DLC", "Delta 游戏"]

/-- `QStringList::indexOf`: the index of the first occurrence, or `-1`. -/
def indexOf (items : List String) (item : String) : Int :=
  if item ∈ items then (items.indexOf item : Nat) else -1

/-- `GMainWindow::InstallNCA` (main.cpp 1949-2034). The index is an `int`; the jump added to
it is computed in `size_t` and converted back. -/
def InstallNCA {σ : Type} (env : Env σ) (filename : String) (w : World σ) :
    InstallReturn σ :=
  let nca := env.OpenNCA filename w.ext
  let id := nca.GetStatus
  if id ≠ ResultStatus.Success ∧ id ≠ ResultStatus.ErrorMissingBKTRBaseRomFS then
    ⟨InstallResult.Failure, [], w⟩
  else
    let answer := env.getItem tt_options 5 w.ext
    let item := answer.1.1
    let ok := answer.1.2
    let w1 : World σ := ⟨answer.2, w.polls, w.trace⟩
    let index := indexOf tt_options item
    if !ok || index == -1 then
      ⟨InstallResult.Failure, [GuiEvent.promptTitleType, GuiEvent.warnInvalidTitleType], w1⟩
    else
      let index := if index ≥ 5 then
          toInt32 (index + ((env.TitleType_Application : Int) - env.TitleType_FirmwarePackageB))
        else index
      let user := decide (index ≥ (env.TitleType_Application : Int))
      let titleType := (index % 256).toNat
      let res := env.InstallEntryNCA user nca titleType true (qt_raw_copy env.wasCanceled) w1
      ⟨toInstallResult res.1,
        [GuiEvent.promptTitleType, GuiEvent.installEntryNCA user nca.path titleType true],
        res.2⟩

/-! ## The batch `OnMenuInstallToNAND` -/

/-- The answers of the two dialogs that `OnMenuInstallToNAND` opens before the batch. -/
structure Selection where
  /-- The list returned by `QFileDialog::getOpenFileNames`. -/
  filenames : List String
  /-- Whether `installDialog.exec()` was not `QDialog::Rejected`. -/
  accepted : Bool
  /-- The list returned by `installDialog.GetFiles()`. -/
  files : List String

/-- The pre-scan (main.cpp 1815-1818): `total_size` starts at zero and receives, for each
file, `static_cast<int>(QFile(file).size() / 0x1000)`. Both the cast and the addition on
`int` wrap in two's complement. -/
def preScan (fileSize : String → Nat) (files : List String) : Int :=
  files.foldl
    (fun total_size file => toInt32 (total_size + toInt32 ((fileSize file / 0x1000 : Nat) : Int)))
    0

/-- The local variables of the loop of `OnMenuInstallToNAND`, with what was done so far. -/
structure Batch (σ : Type) where
  remaining : Int
  new_files : List String
  overwritten_files : List String
  failed_files : List String
  events : List GuiEvent
  world : World σ

/-- Whether the run has ended at the null dereference of `InstallNSPXCI`: that is then the
last thing that happened. -/
def Batch.crashed {σ : Type} (b : Batch σ) : Bool :=
  b.events.getLast? == some GuiEvent.nullDereference

/-- The rest of the loop body once the install routine has returned (main.cpp 1860-1874):
the `switch` on the result and the decrement of `remaining`. -/
def installFile.record {σ : Type} (b : Batch σ) (file : String) (call : GuiEvent)
    (r : InstallReturn σ) : Batch σ :=
  let shown := [GuiEvent.setWindowTitle b.remaining, GuiEvent.setLabelText (fileName file)]
  let events := b.events ++ shown ++ [call] ++ r.events
    ++ [GuiEvent.recordOutcome r.result (fileName file)]
  match r.result with
  | InstallResult.Success =>
    ⟨b.remaining - 1, b.new_files ++ [fileName file], b.overwritten_files, b.failed_files,
      events, r.world⟩
  | InstallResult.Overwrite =>
    ⟨b.remaining - 1, b.new_files, b.overwritten_files ++ [fileName file], b.failed_files,
      events, r.world⟩
  | InstallResult.Failure =>
    ⟨b.remaining - 1, b.new_files, b.overwritten_files, b.failed_files ++ [fileName file],
      events, r.world⟩

/-- The body of the loop `for (const QString& file : files)` (main.cpp 1837-1875). The
routine `InstallNSPXCI` runs on a worker while the caller processes events until it has
finished; the two are taken in sequence here. When `InstallNSPXCI` does not return, the run
ends with the null dereference, and nothing is done in a run that has ended. -/
def installFile {σ : Type} (env : Env σ) (b : Batch σ) (file : String) : Batch σ :=
  if b.crashed then b
  else if endsWithCaseInsensitive file "xci" || endsWithCaseInsensitive file "nsp" then
    match InstallNSPXCI env file b.world with
    | none =>
      ⟨b.remaining, b.new_files, b.overwritten_files, b.failed_files,
        b.events ++
          [GuiEvent.setWindowTitle b.remaining, GuiEvent.setLabelText (fileName file),
            GuiEvent.callInstallNSPXCI file, GuiEvent.nullDereference],
        b.world⟩
    | some r => installFile.record b file (GuiEvent.callInstallNSPXCI file) r
  else installFile.record b file (GuiEvent.callInstallNCA file) (InstallNCA env file b.world)

/-- How far `OnMenuInstallToNAND` went. -/
inductive BatchStatus where
  /-- One of the three returns before the pre-scan was taken. -/
  | notStarted
  /-- The pre-scan found a negative total and the function returned. -/
  | aborted
  /-- The loop over the files ran to its end. -/
  | processed
  /-- The loop over the files was entered and the run ended inside it, at the null
  dereference of `InstallNSPXCI`. -/
  | crashed
  deriving DecidableEq, Repr

/-- What `OnMenuInstallToNAND` leaves behind. -/
structure BatchResult (σ : Type) where
  status : BatchStatus
  new_files : List String
  overwritten_files : List String
  failed_files : List String
  events : List GuiEvent
  world : World σ

/-- `GMainWindow::OnMenuInstallToNAND` (main.cpp 1788-1893). The calls that do not bear on
the batch are left out: the enabling of the menu action, the geometry of the progress dialog,
the short sleep after each file and the refresh of the game list. -/
def OnMenuInstallToNAND {σ : Type} (env : Env σ) (sel : Selection) (w : World σ) :
    BatchResult σ :=
  if sel.filenames.isEmpty then ⟨BatchStatus.notStarted, [], [], [], [], w⟩
  else if !sel.accepted then ⟨BatchStatus.notStarted, [], [], [], [], w⟩
  else if sel.files.isEmpty then ⟨BatchStatus.notStarted, [], [], [], [], w⟩
  else
    let remaining : Int := sel.filenames.length
    let total_size := preScan env.fileSize sel.files
    if total_size < 0 then ⟨BatchStatus.aborted, [], [], [], [GuiEvent.logCritical], w⟩
    else
      let b := sel.files.foldl (installFile env)
        ⟨remaining, [], [], [], [GuiEvent.newProgressDialog total_size], w⟩
      if b.crashed then
        ⟨BatchStatus.crashed, b.new_files, b.overwritten_files, b.failed_files, b.events,
          b.world⟩
      else
        ⟨BatchStatus.processed, b.new_files, b.overwritten_files, b.failed_files,
          b.events ++ [GuiEvent.closeProgress,
            GuiEvent.information b.new_files.length b.overwritten_files.length
              b.failed_files.length],
          b.world⟩

/-- The files for which an install routine was called, in the order of the calls. -/
def installCalls : List GuiEvent → List String
  | [] => []
  | GuiEvent.callInstallNSPXCI file :: t => file :: installCalls t
  | GuiEvent.callInstallNCA file :: t => file :: installCalls t
  | _ :: t => installCalls t

/-- The results recorded by the `switch`, in the order in which they were recorded. -/
def outcomes : List GuiEvent → List InstallResult
  | [] => []
  | GuiEvent.recordOutcome result _ :: t => result :: outcomes t
  | _ :: t => outcomes t

/-- The progress dialogs created, by their maximum. -/
def progressDialogs : List GuiEvent → List Int
  | [] => []
  | GuiEvent.newProgressDialog maximum :: t => maximum :: progressDialogs t
  | _ :: t => progressDialogs t

/-- The state of the world after `k` iterations of the copy loop that found the flag
clear, the first of them at index `i`. -/
def copyChunks {σ : Type} (src : SrcFile) (dest : DestFile σ) : Nat → Nat → World σ → World σ
  | 0, _, w => w
  | k + 1, i, w => copyChunks src dest k (i + 0x1000) (copyChunk src dest i w)

/-! ## Sample collaborators

Concrete collaborators on which the definitions above can be evaluated: files given by a
table, a registry that copies the content of a package once through the callback, and a user
who always gives the same answer to the title-type prompt. -/

/-- A file of the sample collaborators: its path, its size in bytes (which is also the size
of the content that the sample registry copies for it) and the status with which it opens. -/
structure SampleFile where
  path : String
  size : Nat
  status : ResultStatus

/-- The entry of a path in the table; a path that is not in the table has no bytes and
cannot be opened. -/
def sampleLookup (files : List SampleFile) (path : String) : SampleFile :=
  match files.find? (fun f => f.path == path) with
  | some f => f
  | none => ⟨path, 0, ResultStatus.Error 1⟩

/-- A source of the given size, all of whose bytes are zero, that reads without fault. -/
def sampleSrc (size : Nat) : SrcFile :=
  ⟨size, fun len off => List.replicate (min len (size - off)) 0⟩

/-- A destination that keeps its length as its state and stores every byte given. -/
def sampleDest : DestFile Nat :=
  ⟨fun n _ => (true, n), fun data off len => (data.length, max len (off + data.length))⟩

/-- The sample registry: copy the content once through the callback; `Success` when the
copy succeeded, `Error` otherwise. -/
def sampleInstall (size : Nat) (copy : CopyFn Nat) (w : World Nat) :
    FileSys.InstallResult × World Nat :=
  let r := copy (some (sampleSrc size)) (some sampleDest) 0x400000 w
  (if r.1 then FileSys.InstallResult.Success else FileSys.InstallResult.Error, r.2)

/-- The sample collaborators for a table of files, a cancellation oracle and the item that
the user picks at every title-type prompt. -/
def sampleEnv (files : List SampleFile) (wasCanceled : Nat → Bool) (item : String) :
    Env Nat where
  wasCanceled := wasCanceled
  fileSize := fun path => (sampleLookup files path).size
  OpenNSP := fun path _ => ⟨path, false, (sampleLookup files path).status⟩
  OpenXCISecurePartitionNSP := fun path _ =>
    some ⟨path, false, (sampleLookup files path).status⟩
  OpenNCA := fun path _ => ⟨path, (sampleLookup files path).status⟩
  getItem := fun _ _ s => ((item, true), s)
  InstallEntryNSP := fun nsp _ copy w => sampleInstall (sampleLookup files nsp.path).size copy w
  InstallEntryNCA := fun _ nca _ _ copy w =>
    sampleInstall (sampleLookup files nca.path).size copy w
  TitleType_Application := 0x80
  TitleType_FirmwarePackageB := 0x05

/-- The world before anything was done, for the sample collaborators. -/
def sampleWorld : World Nat :=
  ⟨0, 0, []⟩

/-- A source of `0x1800` bytes whose reads fail: every `Read` returns no byte. -/
def failingSrc : SrcFile :=
  ⟨0x1800, fun _ _ => []⟩

/-- A destination whose writes fail: `Write` stores nothing and returns zero. -/
def failingDest : DestFile Nat :=
  ⟨fun n _ => (true, n), fun _ _ len => (0, len)⟩

/-- A destination of fixed length held in memory: `Resize` to another length is refused and
leaves the bytes as they are, `Write` stores all the bytes given in place. -/
def fixedDest : DestFile (List Nat) where
  Resize := fun n bytes => (n == bytes.length, bytes)
  Write := fun data off bytes =>
    (data.length, bytes.take off ++ data ++ bytes.drop (off + data.length))

/-- A table of two files of the sample collaborators that open without error. -/
def sampleTable : List SampleFile :=
  [⟨"/roms/a.nca", 0x2000, ResultStatus.Success⟩, ⟨"/roms/c.nca", 0x1800, ResultStatus.Success⟩]

/-- A choice of three files, all accepted; the second is not in `sampleTable`, so that it
cannot be opened. -/
def sampleSelection : Selection :=
  ⟨["/roms/a.nca", "/roms/b.nca", "/roms/c.nca"], true,
    ["/roms/a.nca", "/roms/b.nca", "/roms/c.nca"]⟩

/-- The sample collaborators over `sampleTable`, with a user who never cancels and picks
the game entry at the title-type prompt. -/
def sampleQuietEnv : Env Nat :=
  sampleEnv sampleTable (fun _ => false) "游戏"

/-- The sample collaborators for one file of `2^44` bytes. -/
def hugeFileEnv : Env Nat :=
  sampleEnv [⟨"/roms/huge.xci", 2 ^ 44, ResultStatus.Success⟩] (fun _ => false) "游戏"

/-- The choice of the one file of `hugeFileEnv`. -/
def hugeFileSelection : Selection :=
  ⟨["/roms/huge.xci"], true, ["/roms/huge.xci"]⟩

/-- The sample collaborators for one file of `0x1200` bytes, with a user who never cancels
and picks the game entry at the title-type prompt. -/
def oddSizeEnv : Env Nat :=
  sampleEnv [⟨"/roms/game.nca", 0x1200, ResultStatus.Success⟩] (fun _ => false) "游戏"

/-- The choice of the one file of `oddSizeEnv`. -/
def oddSizeSelection : Selection :=
  ⟨["/roms/game.nca"], true, ["/roms/game.nca"]⟩

/-- The sample collaborators over `sampleTable`, except that the XCI file `/roms/bad.xci`
has no secure partition: `GetSecurePartitionNSP()` returns a null pointer for it. -/
def malformedXciEnv : Env Nat :=
  { sampleQuietEnv with
    OpenXCISecurePartitionNSP := fun path s =>
      if path = "/roms/bad.xci" then none
      else sampleQuietEnv.OpenXCISecurePartitionNSP path s }

/-- The choice of two files, the first of which is `/roms/bad.xci`. -/
def malformedXciSelection : Selection :=
  ⟨["/roms/bad.xci", "/roms/a.nca"], true, ["/roms/bad.xci", "/roms/a.nca"]⟩

/-- A cancellation flag that is read clear twice and set from the third reading on. -/
def cancelAfterTwo (n : Nat) : Bool :=
  decide (2 ≤ n)

/-- The sample collaborators for two files of three and of two chunks, with a user who
presses the cancel button while the first file is copied: the flag is read clear twice and
set from then on. -/
def cancelEnv : Env Nat :=
  sampleEnv [⟨"/roms/a.nca", 0x3000, ResultStatus.Success⟩,
    ⟨"/roms/b.nca", 0x2000, ResultStatus.Success⟩] cancelAfterTwo "游戏"

/-- The choice of the two files of `cancelEnv`. -/
def cancelSelection : Selection :=
  ⟨["/roms/a.nca", "/roms/b.nca"], true, ["/roms/a.nca", "/roms/b.nca"]⟩

/-! ## The calibration dialog of `configure_motion_touch.cpp` -/

/-- The values of `CalibrationConfigurationJob::Status` that the status callback of the
dialog handles (configure_motion_touch.cpp 46-56). -/
inductive Status where
  | Ready
  | Stage1Completed
  | Completed
  deriving DecidableEq, Repr

/-- A call queued on the dialog with `QMetaObject::invokeMethod`. -/
inductive Invocation where
  | UpdateLabelText (text : String)
  | UpdateButtonText (text : String)
  deriving DecidableEq, Repr

/-- The members of `CalibrationConfigurationDialog` that the code reads or writes: the flag
and the four `u16` bounds, the texts of the label and of the button, whether the dialog has
called `job->Stop()`, and how the dialog was closed (`some true` by `accept()`, `some false`
by `reject()`). -/
structure CalibrationConfigurationDialog where
  completed : Bool
  min_x : Nat
  min_y : Nat
  max_x : Nat
  max_y : Nat
  status_label : String
  cancel_button : String
  job_stopped : Bool
  closed : Option Bool
  deriving DecidableEq, Repr

/-- The state built by the constructor (configure_motion_touch.cpp 24-69): the label and the
button with their first texts, the job not stopped, the dialog open. The flag and the bounds
are declared in the header, outside the two source files, and start as `false` and zero. -/
def CalibrationConfigurationDialog.new : CalibrationConfigurationDialog :=
  ⟨false, 0, 0, 0, 0, "与服务器通讯...", "取消", false, none⟩

/-- The status callback given to the job (configure_motion_touch.cpp 44-61): it picks a text
and queues `UpdateLabelText`, and `UpdateButtonText` as well when the status is
`Completed`. It returns the dialog as it leaves it and the calls it has queued. -/
def CalibrationConfigurationDialog.statusCallback (status : Status)
    (dialog : CalibrationConfigurationDialog) :
    CalibrationConfigurationDialog × List Invocation :=
  let text := match status with
    | Status.Ready => "触摸左上角 <br>您的触摸板。"
    | Status.Stage1Completed => "现在触摸右下角 <br>您的触摸板。"
    | Status.Completed => "配置完成！"
  (dialog, [Invocation.UpdateLabelText text] ++
    (if status = Status.Completed then [Invocation.UpdateButtonText "OK"] else []))

/-- The completion callback given to the job (configure_motion_touch.cpp 62-68); its four
parameters are `u16`. It returns the dialog as it leaves it and the calls it has queued. -/
def CalibrationConfigurationDialog.dataCallback (min_x_ min_y_ max_x_ max_y_ : Nat)
    (dialog : CalibrationConfigurationDialog) :
    CalibrationConfigurationDialog × List Invocation :=
  ({ dialog with
      completed := true
      min_x := min_x_ % 2 ^ 16
      min_y := min_y_ % 2 ^ 16
      max_x := max_x_ % 2 ^ 16
      max_y := max_y_ % 2 ^ 16 }, [])

/-- The slots `UpdateLabelText` and `UpdateButtonText` (configure_motion_touch.cpp 73-79),
run when a queued call is delivered. -/
def CalibrationConfigurationDialog.deliver (dialog : CalibrationConfigurationDialog) :
    Invocation → CalibrationConfigurationDialog
  | Invocation.UpdateLabelText text => { dialog with status_label := text }
  | Invocation.UpdateButtonText text => { dialog with cancel_button := text }

/-- The handler of `cancel_button` (configure_motion_touch.cpp 31-36): stop the job unless
the session has completed, then `accept()`. -/
def CalibrationConfigurationDialog.onCancelClicked (dialog : CalibrationConfigurationDialog) :
    CalibrationConfigurationDialog :=
  let stopped := if !dialog.completed then { dialog with job_stopped := true } else dialog
  { stopped with closed := some true }

/-- What happens to the dialog while `exec()` runs. -/
inductive DialogEvent where
  /-- The job calls the status callback. -/
  | status (s : Status)
  /-- The job calls the completion callback. -/
  | data (min_x min_y max_x max_y : Nat)
  /-- The user clicks `cancel_button`. -/
  | cancelClicked
  /-- The user closes the window, which is `QDialog::reject()`. -/
  | rejected
  deriving DecidableEq, Repr

/-- The run of `dialog.exec()` over what happens while the dialog is open: callbacks of the
job run, the calls they queue are delivered by the event loop, and the first click or
rejection closes the dialog. When nothing more happens the dialog counts as rejected. -/
def CalibrationConfigurationDialog.exec :
    List DialogEvent → CalibrationConfigurationDialog → CalibrationConfigurationDialog
  | [], dialog => { dialog with closed := some false }
  | DialogEvent.status s :: rest, dialog =>
    let r := dialog.statusCallback s
    exec rest (r.2.foldl CalibrationConfigurationDialog.deliver r.1)
  | DialogEvent.data a b c d :: rest, dialog =>
    let r := dialog.dataCallback a b c d
    exec rest (r.2.foldl CalibrationConfigurationDialog.deliver r.1)
  | DialogEvent.cancelClicked :: _, dialog => dialog.onCancelClicked
  | DialogEvent.rejected :: _, dialog => { dialog with closed := some false }

/-- The members of `ConfigureMotionTouch` that `OnConfigureTouchCalibration` reads or
writes: the four `int` bounds and the state of the button `touch_calibration_config`. -/
structure ConfigureMotionTouch where
  min_x : Int
  min_y : Int
  max_x : Int
  max_y : Int
  touch_calibration_config_enabled : Bool
  touch_calibration_config_text : String
  deriving DecidableEq, Repr

/-- `ConfigureMotionTouch::OnConfigureTouchCalibration` (configure_motion_touch.cpp 211-232),
given what happens while the calibration dialog is open. `UpdateUiDisplay` only shows the
bounds and is left out. -/
def ConfigureMotionTouch.OnConfigureTouchCalibration (events : List DialogEvent)
    (self : ConfigureMotionTouch) : ConfigureMotionTouch :=
  let busy := { self with
    touch_calibration_config_enabled := false
    touch_calibration_config_text := "设置中" }
  let dialog := CalibrationConfigurationDialog.new.exec events
  let updated :=
    if dialog.completed then
      { busy with
        min_x := dialog.min_x
        min_y := dialog.min_y
        max_x := dialog.max_x
        max_y := dialog.max_y }
    else busy
  { updated with
    touch_calibration_config_enabled := true
    touch_calibration_config_text := "设置" }

/-- Modelled from the spec: the stages of a calibration session, "`Ready → Stage1Completed →
Completed`, with a parallel `Stopped` terminal"; the first stage keeps the recorded
`(min_x, min_y)`. The job lives in `input_common/udp/client.cpp`, outside the two
source files. -/
inductive JobStage where
  | Ready
  | Stage1Completed (min_x min_y : Nat)
  | Completed
  | Stopped
  deriving DecidableEq, Repr

/-- Modelled from the spec: the reaction of `CalibrationConfigurationJob` to one reported
point. The first point is recorded as `(min_x, min_y)` and the status callback is called
with `Stage1Completed`; "a second, distinct" point is recorded as `(max_x, max_y)`, the
status callback is called with `Completed` and then the completion callback with the four
bounds. The completion callback "fires exactly once with min_x ≤ max_x and min_y ≤ max_y
whenever the two reported points differ appropriately", and "min_x ≤ max_x and
min_y ≤ max_y once completed": a point differs appropriately from the first when it is
another point that lies neither left of nor above it, and any other point is passed over.
Nothing is delivered once the session is completed or stopped. -/
def CalibrationConfigurationJob.onReport : JobStage → Nat × Nat → JobStage × List DialogEvent
  | JobStage.Ready, (x, y) =>
    (JobStage.Stage1Completed x y, [DialogEvent.status Status.Stage1Completed])
  | JobStage.Stage1Completed min_x min_y, (x, y) =>
    if (x, y) = (min_x, min_y) then (JobStage.Stage1Completed min_x min_y, [])
    else if min_x ≤ x ∧ min_y ≤ y then
      (JobStage.Completed,
        [DialogEvent.status Status.Completed, DialogEvent.data min_x min_y x y])
    else (JobStage.Stage1Completed min_x min_y, [])
  | JobStage.Completed, _ => (JobStage.Completed, [])
  | JobStage.Stopped, _ => (JobStage.Stopped, [])

/-- Modelled from the spec: the callbacks that the job delivers for a sequence of reported
points, from a given stage. -/
def CalibrationConfigurationJob.run : JobStage → List (Nat × Nat) → List DialogEvent
  | _, [] => []
  | stage, p :: rest =>
    let r := CalibrationConfigurationJob.onReport stage p
    r.2 ++ run r.1 rest

/-- Modelled from the spec: `CalibrationConfigurationJob::Stop()`, which "may be called at
any time before `Completed`; terminates the background listener, suppresses any further
callback delivery, and is idempotent". A completed session stays completed. -/
def CalibrationConfigurationJob.Stop : JobStage → JobStage
  | JobStage.Completed => JobStage.Completed
  | _ => JobStage.Stopped

/-- What a callback of the job does to the dialog once the calls it has queued are
delivered; a click or a rejection is no callback and changes nothing here. -/
def CalibrationConfigurationDialog.receive (dialog : CalibrationConfigurationDialog) :
    DialogEvent → CalibrationConfigurationDialog
  | DialogEvent.status s =>
    (dialog.statusCallback s).2.foldl CalibrationConfigurationDialog.deliver
      (dialog.statusCallback s).1
  | DialogEvent.data a b c d =>
    (dialog.dataCallback a b c d).2.foldl CalibrationConfigurationDialog.deliver
      (dialog.dataCallback a b c d).1
  | DialogEvent.cancelClicked => dialog
  | DialogEvent.rejected => dialog

/-- A calibration dialog together with the job it owns. -/
structure CalibrationSession where
  dialog : CalibrationConfigurationDialog
  job : JobStage
  deriving DecidableEq, Repr

/-- The device reports a point: the job reacts and its callbacks reach the dialog. -/
def CalibrationSession.report (session : CalibrationSession) (p : Nat × Nat) :
    CalibrationSession :=
  ⟨(CalibrationConfigurationJob.onReport session.job p).2.foldl
      CalibrationConfigurationDialog.receive session.dialog,
    (CalibrationConfigurationJob.onReport session.job p).1⟩

/-- The user clicks `cancel_button`: the handler of the dialog runs, and the job is stopped
when the handler calls `job->Stop()`, that is when the dialog is not completed. -/
def CalibrationSession.cancelClicked (session : CalibrationSession) : CalibrationSession :=
  ⟨session.dialog.onCancelClicked,
    if !session.dialog.completed then CalibrationConfigurationJob.Stop session.job
    else session.job⟩

/-! ## The UDP test of `configure_motion_touch.cpp` -/

/-- What the UDP test does besides changing members, in program order. -/
inductive UdpTestEvent where
  /-- The call `InputCommon::CemuhookUDP::TestCommunication(host, port, pad_index,
  client_id, ..)`. -/
  | testCommunication (host : String) (port pad_index client_id : Nat)
  /-- The box `QMessageBox::information` of a successful test. -/
  | information
  /-- The box `QMessageBox::warning` of a failed test. -/
  | warning
  deriving DecidableEq, Repr

/-- A call queued on `ConfigureMotionTouch` with `QMetaObject::invokeMethod`. -/
inductive UdpInvocation where
  | ShowUDPTestResult (result : Bool)
  deriving DecidableEq, Repr

/-- The members of `ConfigureMotionTouch` that the UDP test reads or writes: the flag
`udp_test_in_progress`, the state of the button `udp_test`, the text of `udp_server`, the
value of `udp_port->text().toInt()` and the index of `udp_pad_index`; with them what the
test has done so far. -/
structure ConfigureMotionTouchUdp where
  udp_test_in_progress : Bool
  udp_test_enabled : Bool
  udp_test_text : String
  udp_server : String
  udp_port : Int
  udp_pad_index : Int
  done : List UdpTestEvent
  deriving DecidableEq, Repr

/-- `ConfigureMotionTouch::OnCemuhookUDPTest` (configure_motion_touch.cpp 194-209), up to
the start of the probe; the port is cast to `u16`, the pad index to `u32`. -/
def ConfigureMotionTouchUdp.OnCemuhookUDPTest (self : ConfigureMotionTouchUdp) :
    ConfigureMotionTouchUdp :=
  { self with
    udp_test_enabled := false
    udp_test_text := "测试中"
    udp_test_in_progress := true
    done := self.done ++
      [UdpTestEvent.testCommunication self.udp_server (self.udp_port % 2 ^ 16).toNat
        (self.udp_pad_index % 2 ^ 32).toNat 24872] }

/-- The success callback given to `TestCommunication` (configure_motion_touch.cpp 201-204):
the calls it queues. -/
def ConfigureMotionTouchUdp.successCallback : List UdpInvocation :=
  [UdpInvocation.ShowUDPTestResult true]

/-- The failure callback given to `TestCommunication` (configure_motion_touch.cpp 205-208):
the calls it queues. -/
def ConfigureMotionTouchUdp.failureCallback : List UdpInvocation :=
  [UdpInvocation.ShowUDPTestResult false]

/-- `ConfigureMotionTouch::ShowUDPTestResult` (configure_motion_touch.cpp 242-255). -/
def ConfigureMotionTouchUdp.ShowUDPTestResult (result : Bool)
    (self : ConfigureMotionTouchUdp) : ConfigureMotionTouchUdp :=
  { self with
    udp_test_in_progress := false
    done := self.done ++ [if result then UdpTestEvent.information else UdpTestEvent.warning]
    udp_test_enabled := true
    udp_test_text := "测试" }

/-- The delivery of a queued call to its slot. -/
def ConfigureMotionTouchUdp.deliver (self : ConfigureMotionTouchUdp) :
    UdpInvocation → ConfigureMotionTouchUdp
  | UdpInvocation.ShowUDPTestResult result => self.ShowUDPTestResult result

/-- Number of title-type prompts among the events of an install routine. -/
def prompts (events : List GuiEvent) : Nat :=
  events.count GuiEvent.promptTitleType

/-- The calls of `InstallEntry` among the events of an install routine. -/
def installEntries : List GuiEvent → List GuiEvent
  | [] => []
  | GuiEvent.installEntryNSP path overwrite :: t =>
    GuiEvent.installEntryNSP path overwrite :: installEntries t
  | GuiEvent.installEntryNCA user path titleType overwrite :: t =>
    GuiEvent.installEntryNCA user path titleType overwrite :: installEntries t
  | _ :: t => installEntries t

/-- Sample collaborators for which every NSP, whether opened from an NSP file or taken from
the secure partition of an XCI, is of extracted type and reports no error. -/
def extractedEnv : Env Nat :=
  { sampleQuietEnv with
    OpenNSP := fun path _ => ⟨path, true, ResultStatus.Success⟩
    OpenXCISecurePartitionNSP := fun path _ => some ⟨path, true, ResultStatus.Success⟩ }

/-- The sample collaborators over `sampleTable` with a user who leaves the title-type prompt
with an item that is not among the options. -/
def undecidedEnv : Env Nat :=
  sampleEnv sampleTable (fun _ => false) ""

/-! ## The RomFS dump: `CalculateRomFSEntrySize` and `RomFSRawCopy` -/

/-- A source directory of the dump, as far as the two routines look at it: its name, the
answer of `IsReadable()`, the names of its files and its subdirectories. -/
inductive VfsDir where
  | mk (name : String) (readable : Bool) (files : List String) (subdirs : List VfsDir)

/-- The call `dir->GetName()`. -/
def VfsDir.GetName : VfsDir → String
  | VfsDir.mk name _ _ _ => name

mutual
/-- `CalculateRomFSEntrySize` (main.cpp 1361-1369). The count is a `std::size_t`; a tree
held in memory has fewer than `2^64` entries, so the sum does not wrap. -/
def CalculateRomFSEntrySize : VfsDir → Bool → Nat
  | VfsDir.mk _ _ files subdirs, full =>
    CalculateRomFSEntrySize.subdirs subdirs full + (if full then files.length else 0)
/-- The loop `for (const auto& subdir : dir->GetSubdirectories())` of
`CalculateRomFSEntrySize`, adding `1 + CalculateRomFSEntrySize(subdir, full)` for each. -/
def CalculateRomFSEntrySize.subdirs : List VfsDir → Bool → Nat
  | [], _ => 0
  | subdir :: rest, full =>
    (1 + CalculateRomFSEntrySize subdir full) + CalculateRomFSEntrySize.subdirs rest full
end

mutual
/-- The number of subdirectories below a directory, at every depth. -/
def VfsDir.descendants : VfsDir → Nat
  | VfsDir.mk _ _ _ subdirs => VfsDir.descendants.list subdirs
/-- The number of directories in a list of trees, the roots included. -/
def VfsDir.descendants.list : List VfsDir → Nat
  | [] => 0
  | subdir :: rest => (1 + VfsDir.descendants subdir) + VfsDir.descendants.list rest
end

mutual
/-- The number of files in a directory and in all directories below it. -/
def VfsDir.allFiles : VfsDir → Nat
  | VfsDir.mk _ _ files subdirs => files.length + VfsDir.allFiles.list subdirs
/-- The number of files in a list of trees. -/
def VfsDir.allFiles.list : List VfsDir → Nat
  | [] => 0
  | subdir :: rest => VfsDir.allFiles subdir + VfsDir.allFiles.list rest
end

/-- The progress units of a dump as the specification counts them: one per descendant
subdirectory, plus one per file in every directory when the dump is full. -/
def progressUnits (dir : VfsDir) (full : Bool) : Nat :=
  dir.descendants + (if full then dir.allFiles else 0)

/-- The collaborators of `RomFSRawCopy` that live outside the two source files, over the
state `σ` of the file system, with `D` the destination directories and `F` the destination
files. -/
structure DumpEnv (σ D F : Type) where
  /-- Answer of the `n`-th call of `dialog.wasCanceled()`. -/
  wasCanceled : Nat → Bool
  /-- The call `dest->IsWritable()`. -/
  IsWritable : D → σ → Bool
  /-- The call `dest->CreateSubdirectory(name)`; a null result is `none`. -/
  CreateSubdirectory : D → String → σ → Option D × σ
  /-- The call `VfsDirectoryCreateFileWrapper(dest, name)`; a null result is `none`. -/
  VfsDirectoryCreateFileWrapper : D → String → σ → Option F × σ
  /-- The call `FileSys::VfsRawCopy(file, out, block_size)`, the source file given by its
  name. -/
  VfsRawCopy : String → Option F → Nat → σ → Bool × σ

/-- The state that `RomFSRawCopy` acts on: the file system, the number of readings of
`dialog.wasCanceled()` so far and the number of calls `dialog.setValue(dialog.value() + 1)`
so far. -/
structure DumpWorld (σ : Type) where
  fs : σ
  polls : Nat
  advances : Nat

/-- The loop `for (const auto& file : src->GetFiles())` of `RomFSRawCopy` (main.cpp
1378-1386), which runs when `full` is set. -/
def RomFSRawCopy.files {σ D F : Type} (env : DumpEnv σ D F) (dest : D) (block_size : Nat) :
    List String → DumpWorld σ → Bool × DumpWorld σ
  | [], w => (true, w)
  | file :: rest, w =>
    let out := env.VfsDirectoryCreateFileWrapper dest file w.fs
    let r := env.VfsRawCopy file out.1 block_size out.2
    if !r.1 then (false, ⟨r.2, w.polls, w.advances⟩)
    else if env.wasCanceled w.polls then (false, ⟨r.2, w.polls + 1, w.advances + 1⟩)
    else RomFSRawCopy.files env dest block_size rest ⟨r.2, w.polls + 1, w.advances + 1⟩

mutual
/-- The body of `RomFSRawCopy` (main.cpp 1371-1399) for a source that is not null. -/
def RomFSRawCopy.dir {σ D F : Type} (env : DumpEnv σ D F) (block_size : Nat) (full : Bool) :
    VfsDir → Option D → DumpWorld σ → Bool × DumpWorld σ
  | _, none, w => (false, w)
  | VfsDir.mk _ readable files subdirs, some dest, w =>
    if !readable || !env.IsWritable dest w.fs then (false, w)
    else if env.wasCanceled w.polls then (false, ⟨w.fs, w.polls + 1, w.advances⟩)
    else
      let r := if full then RomFSRawCopy.files env dest block_size files
          ⟨w.fs, w.polls + 1, w.advances⟩
        else (true, ⟨w.fs, w.polls + 1, w.advances⟩)
      if !r.1 then (false, r.2)
      else RomFSRawCopy.subdirs env block_size full dest subdirs r.2
/-- The loop `for (const auto& dir : src->GetSubdirectories())` of `RomFSRawCopy` (main.cpp
1389-1396). -/
def RomFSRawCopy.subdirs {σ D F : Type} (env : DumpEnv σ D F) (block_size : Nat) (full : Bool)
    (dest : D) : List VfsDir → DumpWorld σ → Bool × DumpWorld σ
  | [], w => (true, w)
  | dir :: rest, w =>
    let out := env.CreateSubdirectory dest dir.GetName w.fs
    let r := RomFSRawCopy.dir env block_size full dir out.1 ⟨out.2, w.polls, w.advances⟩
    if !r.1 then (false, r.2)
    else if env.wasCanceled r.2.polls then
      (false, ⟨r.2.fs, r.2.polls + 1, r.2.advances + 1⟩)
    else RomFSRawCopy.subdirs env block_size full dest rest
      ⟨r.2.fs, r.2.polls + 1, r.2.advances + 1⟩
end

/-- `RomFSRawCopy` (main.cpp 1371-1399); a null pointer is `none`. -/
def RomFSRawCopy {σ D F : Type} (env : DumpEnv σ D F) (src : Option VfsDir) (dest : Option D)
    (block_size : Nat) (full : Bool) (w : DumpWorld σ) : Bool × DumpWorld σ :=
  match src with
  | none => (false, w)
  | some dir => RomFSRawCopy.dir env block_size full dir dest w

/-- Collaborators of a dump that never fail: every directory is writable, every creation
and every copy succeeds, and the state counts the files copied. -/
def sampleDumpEnv (wasCanceled : Nat → Bool) : DumpEnv Nat Unit Unit where
  wasCanceled := wasCanceled
  IsWritable := fun _ _ => true
  CreateSubdirectory := fun _ _ s => (some (), s)
  VfsDirectoryCreateFileWrapper := fun _ _ s => (some (), s)
  VfsRawCopy := fun _ _ _ s => (true, s + 1)

/-- A tree of three directories and three files: two files at the root, a subdirectory with
one file and an empty subdirectory. -/
def sampleTree : VfsDir :=
  VfsDir.mk "romfs" true ["a.bin", "b.bin"]
    [VfsDir.mk "data" true ["c.bin"] [], VfsDir.mk "empty" true [] []]

/-! ## The settings of `ConfigureMotionTouch`: `SetConfiguration` and `ApplyConfiguration` -/

/-- Modelled from the spec: a value held by a `Common::ParamPackage`, whose declaration is
outside the two source files: a string, an `int`, or a `float` given by its bit pattern. -/
inductive ParamValue where
  | str (s : String)
  | int (v : Int)
  | float (bits : Nat)
  deriving DecidableEq, Repr

/-- Modelled from the spec: `Common::ParamPackage`, a map from keys to values, kept as a
list of pairs with one pair per key. Its `Serialize()` and its constructor from a string are
taken as inverse to each other, so that a device string of the settings is identified with
the package it denotes. -/
abbrev ParamPackage : Type :=
  List (String × ParamValue)

/-- The call `Set(key, value)`: the value of the key is inserted or replaced. -/
def ParamPackage.Set (p : ParamPackage) (key : String) (value : ParamValue) : ParamPackage :=
  p.filter (fun kv => kv.1 != key) ++ [(key, value)]

/-- The call `Get(key, default_value)` for a string. -/
def ParamPackage.GetString (p : ParamPackage) (key : String) (default_value : String) :
    String :=
  match p.lookup key with
  | some (ParamValue.str s) => s
  | _ => default_value

/-- The call `Get(key, default_value)` for an `int`. -/
def ParamPackage.GetInt (p : ParamPackage) (key : String) (default_value : Int) : Int :=
  match p.lookup key with
  | some (ParamValue.int v) => v
  | _ => default_value

/-- The call `Get(key, default_value)` for a `float`. -/
def ParamPackage.GetFloat (p : ParamPackage) (key : String) (default_value : Nat) : Nat :=
  match p.lookup key with
  | some (ParamValue.float bits) => bits
  | _ => default_value

/-- The fields of `Settings::values` that `SetConfiguration` reads and `ApplyConfiguration`
writes. -/
structure SettingsValues where
  motion_device : ParamPackage
  touch_device : ParamPackage
  use_touch_from_button : Bool
  touch_from_button_map_index : Int
  touch_from_button_maps : List String
  udp_input_address : String
  udp_input_port : Nat
  udp_pad_index : Nat
  deriving DecidableEq, Repr

/-- The provider names of `MotionProviders` (configure_motion_touch.cpp 80-83), in the order
in which the constructor adds them to the combo box. -/
def MotionProviders : List String :=
  ["motion_emu", "cemuhookudp"]

/-- The provider names of `TouchProviders` (configure_motion_touch.cpp 85-88). -/
def TouchProviders : List String :=
  ["emu_window", "cemuhookudp"]

/-- `QComboBox::findData`: the index of the first item with the given data, or `-1`. -/
def findData (items : List String) (data : String) : Int :=
  if data ∈ items then (items.indexOf data : Nat) else -1

/-- `QComboBox::currentData().toString().toStdString()`: the data of the current item, or
the empty string when there is no current item. -/
def currentData (items : List String) (index : Int) : String :=
  if 0 ≤ index then (items.get? index.toNat).getD "" else ""

/-- The members and widgets of `ConfigureMotionTouch` that `SetConfiguration` and
`ApplyConfiguration` read and write. The combo boxes are given by their current index, the
sensitivity by the bit pattern of its value as a `float`, and the port by the value of
`ui->udp_port->text().toInt()`. The items of the pad box come from the form file, outside
the two source files; `udp_pad_index_count` is their number. -/
structure ConfigureMotionTouchForm where
  motion_provider : Int
  touch_provider : Int
  touch_from_button_checkbox : Bool
  touch_from_button_map : Int
  touch_from_button_maps : List String
  motion_sensitivity : Nat
  min_x : Int
  min_y : Int
  max_x : Int
  max_y : Int
  udp_server : String
  udp_port : Int
  udp_pad_index : Int
  udp_test_in_progress : Bool
  udp_pad_index_count : Nat
  deriving DecidableEq, Repr

/-- What `ApplyConfiguration` does besides writing the settings. -/
inductive FormEvent where
  /-- The box `QMessageBox::warning` of `CanCloseDialog`. -/
  | warning
  /-- `input_subsystem->ReloadInputDevices()`. -/
  | ReloadInputDevices
  /-- `accept()`. -/
  | accept
  deriving DecidableEq, Repr

/-- `QComboBox::setCurrentIndex` on a box of `count` items: an index out of range leaves the
box without a current item. -/
def setCurrentIndex (count : Nat) (index : Int) : Int :=
  if 0 ≤ index ∧ index < count then index else -1

/-- `ConfigureMotionTouch::SetConfiguration` (configure_motion_touch.cpp 117-143). The
default sensitivity `0.01f` has the bit pattern `0x3C23D70A`. The pad index is an `u8` that
is handed to `setCurrentIndex` of the pad box. -/
def ConfigureMotionTouchForm.SetConfiguration (self : ConfigureMotionTouchForm)
    (values : SettingsValues) : ConfigureMotionTouchForm :=
  let motion_param := values.motion_device
  let touch_param := values.touch_device
  let motion_engine := motion_param.GetString "engine" "motion_emu"
  let touch_engine := touch_param.GetString "engine" "emu_window"
  { self with
    motion_provider :=
      setCurrentIndex MotionProviders.length (findData MotionProviders motion_engine)
    touch_provider :=
      setCurrentIndex TouchProviders.length (findData TouchProviders touch_engine)
    touch_from_button_checkbox := values.use_touch_from_button
    touch_from_button_maps := values.touch_from_button_maps
    touch_from_button_map :=
      setCurrentIndex values.touch_from_button_maps.length values.touch_from_button_map_index
    motion_sensitivity := motion_param.GetFloat "sensitivity" 0x3C23D70A
    min_x := touch_param.GetInt "min_x" 100
    min_y := touch_param.GetInt "min_y" 50
    max_x := touch_param.GetInt "max_x" 1800
    max_y := touch_param.GetInt "max_y" 850
    udp_server := values.udp_input_address
    udp_port := values.udp_input_port
    udp_pad_index := setCurrentIndex self.udp_pad_index_count values.udp_pad_index }

/-- `ConfigureMotionTouch::CanCloseDialog` (configure_motion_touch.cpp 274-282): the value
returned and the warning shown. -/
def ConfigureMotionTouchForm.CanCloseDialog (self : ConfigureMotionTouchForm) :
    Bool × List FormEvent :=
  if self.udp_test_in_progress then (false, [FormEvent.warning]) else (true, [])

/-- `ConfigureMotionTouch::ApplyConfiguration` (configure_motion_touch.cpp 284-318): the
settings it leaves and what it does besides. Each engine name is handed to
`ParamPackage::Set` with `std::move` and compared afterwards; `moved` gives the content that
the move leaves in the string. `ParamPackage::Set` takes the value by value, so the string is
moved from, and the standard libraries in use leave a moved-from string empty, that is
`moved = fun _ => ""`. -/
def ConfigureMotionTouchForm.ApplyConfiguration (moved : String → String)
    (self : ConfigureMotionTouchForm) (values : SettingsValues) :
    SettingsValues × List FormEvent :=
  let can := self.CanCloseDialog
  if !can.1 then (values, can.2)
  else
    let motion_engine := currentData MotionProviders self.motion_provider
    let touch_engine := currentData TouchProviders self.touch_provider
    let motion_param := ParamPackage.Set [] "engine" (ParamValue.str motion_engine)
    let motion_engine := moved motion_engine
    let touch_param := ParamPackage.Set [] "engine" (ParamValue.str touch_engine)
    let touch_engine := moved touch_engine
    let motion_param :=
      if motion_engine = "motion_emu" then
        motion_param.Set "sensitivity" (ParamValue.float self.motion_sensitivity)
      else motion_param
    let touch_param :=
      if touch_engine = "cemuhookudp" then
        (((touch_param.Set "min_x" (ParamValue.int self.min_x)).Set "min_y"
          (ParamValue.int self.min_y)).Set "max_x" (ParamValue.int self.max_x)).Set "max_y"
          (ParamValue.int self.max_y)
      else touch_param
    (⟨motion_param, touch_param, self.touch_from_button_checkbox, self.touch_from_button_map,
        self.touch_from_button_maps, self.udp_server, (self.udp_port % 65536).toNat,
        (self.udp_pad_index % 256).toNat⟩,
      can.2 ++ [FormEvent.ReloadInputDevices, FormEvent.accept])

/-- A dialog whose touch provider is `cemuhookudp` and whose motion provider is
`motion_emu`, with calibration bounds `(10, 20, 30, 40)`, no UDP test in progress and a pad
box of four items. -/
def sampleForm : ConfigureMotionTouchForm :=
  ⟨0, 1, false, -1, [], 0x3D4CCCCD, 10, 20, 30, 40, "127.0.0.1", 26760, 0, false, 4⟩

/-- Settings as they are before the dialog is applied for the first time. -/
def sampleValues : SettingsValues :=
  ⟨[("engine", ParamValue.str "motion_emu")], [("engine", ParamValue.str "emu_window")],
    false, -1, [], "127.0.0.1", 26760, 0⟩

/-! ## Removal of installed entries -/

/-- The values of `InstalledEntryType` that the `switch` of `OnGameListRemoveInstalledEntry`
names (main.cpp 1421-1434). -/
inductive InstalledEntryType where
  | Game
  | Update
  | AddOnContent
  deriving DecidableEq, Repr

/-- The two registries that a removal tries, in this order: the user NAND contents and the
SDMC contents. -/
inductive Registry where
  | UserNAND
  | SDMC
  deriving DecidableEq, Repr

/-- The collaborators of the removal that live outside the two source files, over their own
state `σ`. -/
structure RemoveEnv (σ : Type) where
  /-- Whether the box `QMessageBox::question` is answered with `Yes`. -/
  question : σ → Bool
  /-- The call `RemoveExistingEntry(title_id)` on a registry. -/
  RemoveExistingEntry : Registry → Nat → σ → Bool × σ
  /-- The title ids of the entries that
  `ListEntriesFilter(TitleType::AOC, ContentRecordType::Data)` returns. -/
  ListEntriesFilter : σ → List Nat

/-- What the removal does on the registries and on the user interface, in program order. -/
inductive RemoveEvent where
  /-- A call `RemoveExistingEntry(title_id)` on a registry, with its result. -/
  | RemoveExistingEntry (registry : Registry) (title_id : Nat) (result : Bool)
  /-- The box `QMessageBox::information` of `RemoveBaseContent` or `RemoveUpdateContent`. -/
  | information
  /-- The box `QMessageBox::warning` of one of the three removals. -/
  | warning
  /-- The box `QMessageBox::information` of `RemoveAddOnContent`, with the count shown. -/
  | informationCount (count : Nat)
  /-- `FileUtil::DeleteDirRecursively` on the cache of the game list. -/
  | DeleteDirRecursively
  /-- `game_list->PopulateAsync(..)`. -/
  | PopulateAsync
  deriving DecidableEq, Repr

/-- `DLC_BASE_TITLE_ID_MASK` (main.cpp 149). -/
def DLC_BASE_TITLE_ID_MASK : Nat :=
  0xFFFFFFFFFFFFE000

/-- The expression `GetUserNANDContents()->RemoveExistingEntry(id) ||
GetSDMCContents()->RemoveExistingEntry(id)`: the SDMC contents are tried only when the user
NAND contents had no such entry. -/
def removeFromRegistries {σ : Type} (env : RemoveEnv σ) (title_id : Nat) (s : σ) :
    Bool × σ × List RemoveEvent :=
  let r1 := env.RemoveExistingEntry Registry.UserNAND title_id s
  if r1.1 then (true, r1.2, [RemoveEvent.RemoveExistingEntry Registry.UserNAND title_id true])
  else
    let r2 := env.RemoveExistingEntry Registry.SDMC title_id r1.2
    (r2.1, r2.2,
      [RemoveEvent.RemoveExistingEntry Registry.UserNAND title_id false,
        RemoveEvent.RemoveExistingEntry Registry.SDMC title_id r2.1])

/-- `GMainWindow::RemoveBaseContent` (main.cpp 1440-1453). -/
def RemoveBaseContent {σ : Type} (env : RemoveEnv σ) (program_id : Nat) (s : σ) :
    σ × List RemoveEvent :=
  let res := removeFromRegistries env program_id s
  (res.2.1, res.2.2 ++ [if res.1 then RemoveEvent.information else RemoveEvent.warning])

/-- `GMainWindow::RemoveUpdateContent` (main.cpp 1455-1468). The `u64` value
`program_id | 0x800` does not wrap. -/
def RemoveUpdateContent {σ : Type} (env : RemoveEnv σ) (program_id : Nat) (s : σ) :
    σ × List RemoveEvent :=
  let update_id := program_id ||| 0x800
  let res := removeFromRegistries env update_id s
  (res.2.1, res.2.2 ++ [if res.1 then RemoveEvent.information else RemoveEvent.warning])

/-- The loop `for (const auto& entry : dlc_entries)` of `RemoveAddOnContent` (main.cpp
1476-1485): the count, an `u32`, the state and the calls made. -/
def RemoveAddOnContent.loop {σ : Type} (env : RemoveEnv σ) (program_id : Nat) :
    List Nat → Nat × σ × List RemoveEvent → Nat × σ × List RemoveEvent
  | [], acc => acc
  | title_id :: rest, (count, s, events) =>
    if title_id &&& DLC_BASE_TITLE_ID_MASK = program_id then
      let res := removeFromRegistries env title_id s
      RemoveAddOnContent.loop env program_id rest
        (if res.1 then (count + 1) % 2 ^ 32 else count, res.2.1, events ++ res.2.2)
    else RemoveAddOnContent.loop env program_id rest (count, s, events)

/-- `GMainWindow::RemoveAddOnContent` (main.cpp 1470-1495). -/
def RemoveAddOnContent {σ : Type} (env : RemoveEnv σ) (program_id : Nat) (s : σ) :
    σ × List RemoveEvent :=
  let dlc_entries := env.ListEntriesFilter s
  let r := RemoveAddOnContent.loop env program_id dlc_entries (0, s, [])
  if r.1 = 0 then (r.2.1, r.2.2 ++ [RemoveEvent.warning])
  else (r.2.1, r.2.2 ++ [RemoveEvent.informationCount r.1])

/-- `GMainWindow::OnGameListRemoveInstalledEntry` (main.cpp 1401-1438). -/
def OnGameListRemoveInstalledEntry {σ : Type} (env : RemoveEnv σ) (program_id : Nat)
    (type : InstalledEntryType) (s : σ) : σ × List RemoveEvent :=
  if !env.question s then (s, [])
  else
    let r :=
      match type with
      | InstalledEntryType.Game =>
        let r1 := RemoveBaseContent env program_id s
        let r2 := RemoveUpdateContent env program_id r1.1
        let r3 := RemoveAddOnContent env program_id r2.1
        (r3.1, r1.2 ++ r2.2 ++ r3.2)
      | InstalledEntryType.Update => RemoveUpdateContent env program_id s
      | InstalledEntryType.AddOnContent => RemoveAddOnContent env program_id s
    (r.1, r.2 ++ [RemoveEvent.DeleteDirRecursively, RemoveEvent.PopulateAsync])

/-- The title ids for which a removal was tried, in program order: every removal starts with
the user NAND contents. -/
def removalTargets : List RemoveEvent → List Nat
  | [] => []
  | RemoveEvent.RemoveExistingEntry Registry.UserNAND title_id _ :: t =>
    title_id :: removalTargets t
  | _ :: t => removalTargets t

/-- The title ids that a removal found and removed, in program order. -/
def removed : List RemoveEvent → List Nat
  | [] => []
  | RemoveEvent.RemoveExistingEntry _ title_id true :: t => title_id :: removed t
  | _ :: t => removed t

/-- Registries held as two lists of title ids; the add-on entries are the title ids with
bit 12 set, and the question is always answered with `Yes`. -/
def sampleRemoveEnv : RemoveEnv (List Nat × List Nat) where
  question := fun _ => true
  RemoveExistingEntry := fun registry title_id s =>
    match registry with
    | Registry.UserNAND => (decide (title_id ∈ s.1), (s.1.filter (fun t => t != title_id), s.2))
    | Registry.SDMC => (decide (title_id ∈ s.2), (s.1, s.2.filter (fun t => t != title_id)))
  ListEntriesFilter := fun s => (s.1 ++ s.2).filter (fun t => t &&& 0x1000 != 0)

/-! ## The list of recent files -/

/-- The loop of `QStringList::removeDuplicates`: the strings already met are in `seen`; a
string met again is dropped, the others keep their order. -/
def removeDuplicates.loop (seen : List String) : List String → List String
  | [] => []
  | s :: rest =>
    if s ∈ seen then removeDuplicates.loop seen rest
    else s :: removeDuplicates.loop (s :: seen) rest

/-- `QStringList::removeDuplicates`: every string is kept at its first occurrence only. -/
def removeDuplicates (list : List String) : List String :=
  removeDuplicates.loop [] list

/-- The loop `while (recent_files.size() > max_recent_files_item) recent_files.removeLast()`
of `StoreRecentFile` (main.cpp 1214-1216). -/
def StoreRecentFile.truncate (max_recent_files_item : Nat) (recent_files : List String) :
    List String :=
  if max_recent_files_item < recent_files.length then
    StoreRecentFile.truncate max_recent_files_item recent_files.dropLast
  else recent_files
termination_by recent_files.length
decreasing_by
  simp only [List.length_dropLast]
  omega

/-- `GMainWindow::StoreRecentFile` (main.cpp 1211-1219), as it acts on
`UISettings::values.recent_files`; the constant `max_recent_files_item`, a non-negative `int`
declared outside the two source files, is a parameter. The refresh of the menu that follows
is left out. -/
def StoreRecentFile (max_recent_files_item : Nat) (recent_files : List String)
    (filename : String) : List String :=
  StoreRecentFile.truncate max_recent_files_item (removeDuplicates (filename :: recent_files))

/-! ## The target of a RomFS dump -/

/-- The collaborators of `SelectRomFSDumpTarget` that live outside the two source files. -/
structure DumpTargetEnv where
  /-- The title ids of the entries that
  `installed.ListEntriesFilter(TitleType::AOC, ContentRecordType::Data)` returns. -/
  ListEntriesFilter : List Nat
  /-- The value of `installed.GetEntry(entry)->GetStatus()` for the entry of a title id. -/
  GetStatus : Nat → ResultStatus
  /-- The modal `QInputDialog::getItem(.., list, 0, false, &ok)`: the item returned and the
  value of `ok`. -/
  getItem : List String → String × Bool

/-- What `SelectRomFSDumpTarget` hands back. -/
inductive DumpTarget where
  /-- A title id. -/
  | title (title_id : Nat)
  /-- No value (`return {}`). -/
  | nothing
  /-- The index computed by `list.indexOf(res)` is not an index of `romfs_tids`, so that the
  subscript has no defined value. -/
  | undefined
  deriving DecidableEq, Repr

/-- The label `QStringLiteral("DLC %1").arg(title_id & 0x7FF)`. -/
def dlcLabel (title_id : Nat) : String :=
  "DLC " ++ toString (title_id &&& 0x7FF)

/-- The vector `romfs_tids` of `SelectRomFSDumpTarget` (main.cpp 2602-2615): the program
itself, followed by the add-on entries that belong to it and open without error. -/
def romfs_tids (env : DumpTargetEnv) (program_id : Nat) : List Nat :=
  program_id :: env.ListEntriesFilter.filter (fun title_id =>
    title_id &&& DLC_BASE_TITLE_ID_MASK == program_id &&
      env.GetStatus title_id == ResultStatus.Success)

/-- The list offered by the prompt of `SelectRomFSDumpTarget` (main.cpp 2618-2621). -/
def dumpTargetLabels (tids : List Nat) : List String :=
  "Base" :: tids.tail.map dlcLabel

/-- `GMainWindow::SelectRomFSDumpTarget` (main.cpp 2600-2636): the value returned and the
list offered when the user was prompted. -/
def SelectRomFSDumpTarget (env : DumpTargetEnv) (program_id : Nat) :
    DumpTarget × Option (List String) :=
  let tids := romfs_tids env program_id
  if tids.length > 1 then
    let list := dumpTargetLabels tids
    let answer := env.getItem list
    if !answer.2 then (DumpTarget.nothing, some list)
    else
      let index := indexOf list answer.1
      if 0 ≤ index then
        match tids.get? index.toNat with
        | some title_id => (DumpTarget.title title_id, some list)
        | none => (DumpTarget.undefined, some list)
      else (DumpTarget.undefined, some list)
  else (DumpTarget.title program_id, none)

/-- Two add-on entries of the program `0x0100000000010000`, the first and the `0x801`-th,
whose title ids differ in bit 11 only, both of which open without error, and a user who picks
the item at position `pick` of the list offered. -/
def sampleDumpTargetEnv (pick : Nat) : DumpTargetEnv where
  ListEntriesFilter := [0x0100000000011001, 0x0100000000011801]
  GetStatus := fun _ => ResultStatus.Success
  getItem := fun list => (list.getD pick "", true)

/-! ## Further collaborators and observations for the install batch -/

/-- The remaining-files counts shown in the title of the progress dialog, in the order in
which they were shown. -/
def windowTitles : List GuiEvent → List Int
  | [] => []
  | GuiEvent.setWindowTitle remaining :: t => remaining :: windowTitles t
  | _ :: t => windowTitles t

/-- Three files chosen in the file dialog, of which the user leaves only the last one
checked in the install dialog. -/
def uncheckedSelection : Selection :=
  ⟨["/roms/a.nca", "/roms/b.nca", "/roms/c.nca"], true, ["/roms/c.nca"]⟩

/-- The sample collaborators over `sampleTable` with a user who never cancels and picks
`item` at the title-type prompt, for given numeric values of `TitleType::Application` and
`TitleType::FirmwarePackageB`. -/
def titleTypeEnv (application firmwarePackageB : Nat) (item : String) : Env Nat :=
  { sampleEnv sampleTable (fun _ => false) item with
    TitleType_Application := application
    TitleType_FirmwarePackageB := firmwarePackageB }

/-- The sample registries: the program `0x0100000000010000` with its update and its first
add-on entry in the user NAND contents, its second add-on entry and an add-on entry of
another program in the SDMC contents. -/
def sampleRegistries : List Nat × List Nat :=
  ([0x0100000000010000, 0x0100000000010800, 0x0100000000011001],
    [0x0100000000011002, 0x0100000000021001])

/-- The first two add-on entries of the program `0x0100000000010000`, both of which open
without error, and a user who picks the item at position `pick` of the list offered. -/
def distinctDumpTargetEnv (pick : Nat) : DumpTargetEnv where
  ListEntriesFilter := [0x0100000000011001, 0x0100000000011002]
  GetStatus := fun _ => ResultStatus.Success
  getItem := fun list => (list.getD pick "", true)

/-! ## Lemmas on the chunked copy -/

theorem signals_append (t u : List CopyEvent) : signals (t ++ u) = signals t + signals u := by
  simp [signals]

theorem writes_append (t u : List CopyEvent) : writes (t ++ u) = writes t ++ writes u := by
  induction t with
  | nil => simp [writes]
  | cons e t ih => cases e <;> simp [writes, ih]

theorem qt_raw_copy_loop_done {σ : Type} (wasCanceled : Nat → Bool) (src : SrcFile)
    (dest : DestFile σ) (i : Nat) (w : World σ) (hi : ¬ i < src.GetSize) :
    qt_raw_copy_loop wasCanceled src dest i w = (true, w) := by
  rw [qt_raw_copy_loop, if_neg hi]

theorem qt_raw_copy_loop_cancel {σ : Type} (wasCanceled : Nat → Bool) (src : SrcFile)
    (dest : DestFile σ) (i : Nat) (w : World σ) (hi : i < src.GetSize)
    (hc : wasCanceled w.polls = true) :
    qt_raw_copy_loop wasCanceled src dest i w = (false, copyCancel dest w) := by
  rw [qt_raw_copy_loop, if_pos hi, if_pos hc]

theorem qt_raw_copy_loop_step {σ : Type} (wasCanceled : Nat → Bool) (src : SrcFile)
    (dest : DestFile σ) (i : Nat) (w : World σ) (hi : i < src.GetSize)
    (hc : wasCanceled w.polls = false) :
    qt_raw_copy_loop wasCanceled src dest i w =
      qt_raw_copy_loop wasCanceled src dest (i + 0x1000) (copyChunk src dest i w) := by
  rw [qt_raw_copy_loop, if_pos hi, if_neg (by simp [hc])]

/-- The loop returns `true` exactly when no reading of the cancellation flag made before a
chunk answers `true`; the counts returned by `Read` and `Write` play no part. -/
theorem qt_raw_copy_loop_true_iff {σ : Type} (wasCanceled : Nat → Bool) (src : SrcFile)
    (dest : DestFile σ) (i : Nat) (w : World σ) :
    (qt_raw_copy_loop wasCanceled src dest i w).1 = true ↔
      ∀ k, i + k * 0x1000 < src.GetSize → wasCanceled (w.polls + k) = false := by
  generalize h : src.GetSize - i = n
  induction n using Nat.strong_induction_on generalizing i w with
  | _ n ih =>
    by_cases hi : i < src.GetSize
    · cases hc : wasCanceled w.polls with
      | true =>
        rw [qt_raw_copy_loop_cancel _ _ _ _ _ hi hc]
        constructor
        · intro hf; simp at hf
        · intro hall
          have := hall 0 (by simpa using hi)
          simp [hc] at this
      | false =>
        rw [qt_raw_copy_loop_step _ _ _ _ _ hi hc,
          ih (src.GetSize - (i + 0x1000)) (by omega) (i + 0x1000) _ rfl]
        have hp : (copyChunk src dest i w).polls = w.polls + 1 := rfl
        rw [hp]
        constructor
        · intro hall k hk
          cases k with
          | zero => simpa using hc
          | succ k =>
            have := hall k (by omega)
            rw [show w.polls + (k + 1) = w.polls + 1 + k by omega]
            exact this
        · intro hall k hk
          have := hall (k + 1) (by omega)
          rw [show w.polls + 1 + k = w.polls + (k + 1) by omega]
          exact this
    · rw [qt_raw_copy_loop_done _ _ _ _ _ hi]
      constructor
      · intro _ k hk; omega
      · intro _; trivial

theorem copyChunks_polls {σ : Type} (src : SrcFile) (dest : DestFile σ) (k i : Nat)
    (w : World σ) : (copyChunks src dest k i w).polls = w.polls + k := by
  induction k generalizing i w with
  | zero => rfl
  | succ k ih =>
    rw [copyChunks, ih]
    show w.polls + 1 + k = w.polls + (k + 1)
    omega

theorem copyChunks_signals {σ : Type} (src : SrcFile) (dest : DestFile σ) (k i : Nat)
    (w : World σ) : signals (copyChunks src dest k i w).trace = signals w.trace + k := by
  induction k generalizing i w with
  | zero => rfl
  | succ k ih =>
    rw [copyChunks, ih]
    simp only [copyChunk, signals_append]
    simp [signals]
    omega

theorem copyChunks_writes {σ : Type} (src : SrcFile) (dest : DestFile σ) (k i : Nat)
    (w : World σ) :
    writes (copyChunks src dest k i w).trace =
      writes w.trace ++
        (List.range k).map (fun j => (i + j * 0x1000, src.Read 0x1000 (i + j * 0x1000))) := by
  induction k generalizing i w with
  | zero => simp [copyChunks]
  | succ k ih =>
    rw [copyChunks, ih, List.range_succ_eq_map]
    simp only [copyChunk, writes_append, writes, List.map_cons, List.map_map,
      List.append_assoc, List.singleton_append, Nat.zero_mul, Nat.add_zero]
    congr 2
    apply List.map_congr_left
    intro j _
    simp only [Function.comp, Nat.succ_eq_add_one]
    rw [show i + 4096 + j * 4096 = i + (j + 1) * 4096 by omega]

/-- When the flag is read clear `k` times and then set, with chunk `k` still to copy, the
loop copies `k` chunks, takes the cancellation branch and returns `false`. -/
theorem qt_raw_copy_loop_cancel_at {σ : Type} (wasCanceled : Nat → Bool) (src : SrcFile)
    (dest : DestFile σ) (k i : Nat) (w : World σ)
    (hclear : ∀ j, j < k → wasCanceled (w.polls + j) = false)
    (hset : wasCanceled (w.polls + k) = true) (hk : i + k * 0x1000 < src.GetSize) :
    qt_raw_copy_loop wasCanceled src dest i w =
      (false, copyCancel dest (copyChunks src dest k i w)) := by
  induction k generalizing i w with
  | zero =>
    rw [qt_raw_copy_loop_cancel _ _ _ _ _ (by omega) (by simpa using hset)]
    rfl
  | succ k ih =>
    have h0 : wasCanceled w.polls = false := by simpa using hclear 0 (by omega)
    rw [qt_raw_copy_loop_step _ _ _ _ _ (by omega) h0, copyChunks]
    apply ih
    · intro j hj
      have := hclear (j + 1) (by omega)
      rw [show (copyChunk src dest i w).polls = w.polls + 1 from rfl,
        show w.polls + 1 + j = w.polls + (j + 1) by omega]
      exact this
    · rw [show (copyChunk src dest i w).polls = w.polls + 1 from rfl,
        show w.polls + 1 + k = w.polls + (k + 1) by omega]
      exact hset
    · omega

/-- When the flag is read clear before every chunk, the loop copies every chunk, one for
each started block of `0x1000` bytes, and returns `true`. -/
theorem qt_raw_copy_loop_clear {σ : Type} (wasCanceled : Nat → Bool) (src : SrcFile)
    (dest : DestFile σ) (i : Nat) (w : World σ)
    (hclear : ∀ k, i + k * 0x1000 < src.GetSize → wasCanceled (w.polls + k) = false) :
    qt_raw_copy_loop wasCanceled src dest i w =
      (true, copyChunks src dest ((src.GetSize - i + 0xFFF) / 0x1000) i w) := by
  generalize hn : (src.GetSize - i + 0xFFF) / 0x1000 = n
  induction n generalizing i w with
  | zero =>
    rw [qt_raw_copy_loop_done _ _ _ _ _ (by omega)]
    rfl
  | succ n ih =>
    have hi : i < src.GetSize := by omega
    have h0 : wasCanceled w.polls = false := by simpa using hclear 0 (by omega)
    rw [qt_raw_copy_loop_step _ _ _ _ _ hi h0, copyChunks]
    apply ih
    · intro k hk
      have := hclear (k + 1) (by omega)
      rw [show (copyChunk src dest i w).polls = w.polls + 1 from rfl,
        show w.polls + 1 + k = w.polls + (k + 1) by omega]
      exact this
    · omega

/-- The copy with a successful first resize and a flag read clear before every chunk. -/
theorem qt_raw_copy_clear {σ : Type} (wasCanceled : Nat → Bool) (src : SrcFile)
    (dest : DestFile σ) (block_size : Nat) (w : World σ)
    (hres : (dest.Resize src.GetSize w.ext).1 = true)
    (hclear : ∀ k, k * 0x1000 < src.GetSize → wasCanceled (w.polls + k) = false) :
    qt_raw_copy wasCanceled (some src) (some dest) block_size w =
      (true, copyChunks src dest ((src.GetSize + 0xFFF) / 0x1000) 0
        ⟨(dest.Resize src.GetSize w.ext).2, w.polls,
          w.trace ++ [CopyEvent.resize src.GetSize true]⟩) := by
  unfold qt_raw_copy
  simp only [hres, Bool.not_true, Bool.false_eq_true, if_false]
  rw [qt_raw_copy_loop_clear]
  · rfl
  · intro k hk
    exact hclear k (by omega)

/-- The copy with a successful first resize and a flag first read set before chunk `k`. -/
theorem qt_raw_copy_cancel_at {σ : Type} (wasCanceled : Nat → Bool) (src : SrcFile)
    (dest : DestFile σ) (block_size k : Nat) (w : World σ)
    (hres : (dest.Resize src.GetSize w.ext).1 = true)
    (hclear : ∀ j, j < k → wasCanceled (w.polls + j) = false)
    (hset : wasCanceled (w.polls + k) = true) (hk : k * 0x1000 < src.GetSize) :
    qt_raw_copy wasCanceled (some src) (some dest) block_size w =
      (false, copyCancel dest (copyChunks src dest k 0
        ⟨(dest.Resize src.GetSize w.ext).2, w.polls,
          w.trace ++ [CopyEvent.resize src.GetSize true]⟩)) := by
  unfold qt_raw_copy
  simp only [hres, Bool.not_true, Bool.false_eq_true, if_false]
  exact qt_raw_copy_loop_cancel_at wasCanceled src dest k 0 _ hclear hset (by omega)

/-- A copy that is not cancelled emits one signal for every started block of `0x1000`
bytes of the source, that is `ceil(size / 0x1000)` signals. -/
theorem qt_raw_copy_signals_clear {σ : Type} (wasCanceled : Nat → Bool) (src : SrcFile)
    (dest : DestFile σ) (block_size : Nat) (w : World σ)
    (hres : (dest.Resize src.GetSize w.ext).1 = true)
    (hclear : ∀ k, k * 0x1000 < src.GetSize → wasCanceled (w.polls + k) = false) :
    signals (qt_raw_copy wasCanceled (some src) (some dest) block_size w).2.trace =
      signals w.trace + (src.GetSize + 0xFFF) / 0x1000 := by
  rw [qt_raw_copy_clear wasCanceled src dest block_size w hres hclear]
  simp only [copyChunks_signals, signals_append]
  simp [signals]

/-! ## Lemmas on the pre-scan -/

theorem toInt32_add (a b : Int) : toInt32 (toInt32 a + toInt32 b) = toInt32 (a + b) := by
  unfold toInt32
  omega

theorem toInt32_of_range (a : Int) (h0 : 0 ≤ a) (h1 : a ≤ 2 ^ 31 - 1) : toInt32 a = a := by
  unfold toInt32
  omega

theorem preScan_foldl (fileSize : String → Nat) (files : List String) (acc : Int) :
    files.foldl
        (fun total_size file =>
          toInt32 (total_size + toInt32 ((fileSize file / 0x1000 : Nat) : Int)))
        (toInt32 acc) =
      toInt32 (acc + ((files.map (fun file => fileSize file / 0x1000)).sum : Nat)) := by
  induction files generalizing acc with
  | nil => simp
  | cons f t ih =>
    rw [List.foldl_cons, toInt32_add, ih]
    simp only [List.map_cons, List.sum_cons, Nat.cast_add]
    rw [Int.add_assoc]

/-- The pre-scan computes the sum of the chunk counts reduced to the range of `int`. -/
theorem preScan_eq (fileSize : String → Nat) (files : List String) :
    preScan fileSize files =
      toInt32 ((files.map (fun file => fileSize file / 0x1000)).sum : Nat) := by
  have h := preScan_foldl fileSize files 0
  rw [show toInt32 0 = 0 by decide, Int.zero_add] at h
  exact h

/-! ## Lemmas on the batch -/

theorem installCalls_append (t u : List GuiEvent) :
    installCalls (t ++ u) = installCalls t ++ installCalls u := by
  induction t with
  | nil => simp [installCalls]
  | cons e t ih => cases e <;> simp [installCalls, ih]

theorem outcomes_append (t u : List GuiEvent) :
    outcomes (t ++ u) = outcomes t ++ outcomes u := by
  induction t with
  | nil => simp [outcomes]
  | cons e t ih => cases e <;> simp [outcomes, ih]

theorem progressDialogs_append (t u : List GuiEvent) :
    progressDialogs (t ++ u) = progressDialogs t ++ progressDialogs u := by
  induction t with
  | nil => simp [progressDialogs]
  | cons e t ih => cases e <;> simp [progressDialogs, ih]

/-- The events of `InstallNSPXCI`, when it returns, hold no call of an install routine, no
recorded outcome and no progress dialog. -/
theorem InstallNSPXCI_events {σ : Type} (env : Env σ) (file : String) (w : World σ)
    (r : InstallReturn σ) (hr : InstallNSPXCI env file w = some r) :
    installCalls r.events = [] ∧ outcomes r.events = [] ∧ progressDialogs r.events = [] := by
  have hinstall : ∀ nsp, installCalls (InstallNSPXCI.install env nsp w).events = [] ∧
      outcomes (InstallNSPXCI.install env nsp w).events = [] ∧
      progressDialogs (InstallNSPXCI.install env nsp w).events = [] := by
    intro nsp
    unfold InstallNSPXCI.install
    split_ifs <;> simp [installCalls, outcomes, progressDialogs]
  unfold InstallNSPXCI at hr
  by_cases h1 : endsWithCaseInsensitive file "nsp" = true
  · rw [if_pos h1] at hr
    by_cases h2 : (env.OpenNSP file w.ext).IsExtractedType = true
    · simp only [h2, if_true, Option.some.injEq] at hr
      rw [← hr]
      simp [installCalls, outcomes, progressDialogs]
    · simp only [h2, Bool.false_eq_true, if_false, Option.some.injEq] at hr
      rw [← hr]
      exact hinstall _
  · rw [if_neg h1] at hr
    cases hx : env.OpenXCISecurePartitionNSP file w.ext with
    | none =>
      rw [hx] at hr
      exact absurd hr (by simp)
    | some nsp =>
      rw [hx] at hr
      simp only [Option.some.injEq] at hr
      rw [← hr]
      exact hinstall _

/-- The events of `InstallNCA` hold no call of an install routine, no recorded outcome and
no progress dialog. -/
theorem InstallNCA_events {σ : Type} (env : Env σ) (file : String) (w : World σ) :
    installCalls (InstallNCA env file w).events = [] ∧
      outcomes (InstallNCA env file w).events = [] ∧
      progressDialogs (InstallNCA env file w).events = [] := by
  unfold InstallNCA
  simp only []
  split_ifs <;> simp [installCalls, outcomes, progressDialogs]

/-- The `switch` on the result written as three conditional appends. -/
theorem installFile_record_eq {σ : Type} (b : Batch σ) (file : String) (call : GuiEvent)
    (r : InstallReturn σ) :
    installFile.record b file call r =
      ⟨b.remaining - 1,
        b.new_files ++ (if r.result = InstallResult.Success then [fileName file] else []),
        b.overwritten_files ++
          (if r.result = InstallResult.Overwrite then [fileName file] else []),
        b.failed_files ++ (if r.result = InstallResult.Failure then [fileName file] else []),
        b.events ++
          [GuiEvent.setWindowTitle b.remaining, GuiEvent.setLabelText (fileName file), call] ++
          r.events ++ [GuiEvent.recordOutcome r.result (fileName file)],
        r.world⟩ := by
  unfold installFile.record
  obtain ⟨result, events, world⟩ := r
  cases result <;> simp

/-- A turn of the loop in which the install routine returned does not end the run. -/
theorem installFile_record_crashed {σ : Type} (b : Batch σ) (file : String) (call : GuiEvent)
    (r : InstallReturn σ) : (installFile.record b file call r).crashed = false := by
  rw [installFile_record_eq]
  simp only [Batch.crashed, List.getLast?_concat]
  simp

/-- Nothing is done in a run that has ended. -/
theorem installFile_of_crashed {σ : Type} (env : Env σ) (b : Batch σ) (file : String)
    (hb : b.crashed = true) : installFile env b file = b := by
  unfold installFile
  rw [if_pos hb]

/-- Nothing is done in a run that has ended, for any number of files. -/
theorem installLoop_of_crashed {σ : Type} (env : Env σ) (files : List String) (b : Batch σ)
    (hb : b.crashed = true) : files.foldl (installFile env) b = b := by
  induction files with
  | nil => rfl
  | cons file rest ih => rw [List.foldl_cons, installFile_of_crashed env b file hb, ih]

/-- The body of the loop when the install routine returns. -/
theorem installFile_eq_record {σ : Type} (env : Env σ) (b : Batch σ) (file : String)
    (r : InstallReturn σ)
    (hr : (if (endsWithCaseInsensitive file "xci" || endsWithCaseInsensitive file "nsp") = true
      then InstallNSPXCI env file b.world else some (InstallNCA env file b.world)) = some r)
    (hb : b.crashed = false) :
    installFile env b file =
      installFile.record b file
        (if (endsWithCaseInsensitive file "xci" || endsWithCaseInsensitive file "nsp") = true
          then GuiEvent.callInstallNSPXCI file else GuiEvent.callInstallNCA file) r := by
  unfold installFile
  rw [if_neg (by simp [hb])]
  by_cases hk : (endsWithCaseInsensitive file "xci" || endsWithCaseInsensitive file "nsp") = true
  · rw [if_pos hk] at hr
    rw [if_pos hk, if_pos hk]
    simp only [hr]
  · rw [if_neg hk] at hr
    cases hr
    rw [if_neg hk, if_neg hk]

/-- The body of the loop when the install routine returns, with the `switch` written as
three conditional appends. -/
theorem installFile_eq {σ : Type} (env : Env σ) (b : Batch σ) (file : String)
    (r : InstallReturn σ)
    (hr : (if (endsWithCaseInsensitive file "xci" || endsWithCaseInsensitive file "nsp") = true
      then InstallNSPXCI env file b.world else some (InstallNCA env file b.world)) = some r)
    (hb : b.crashed = false) :
    installFile env b file =
      ⟨b.remaining - 1,
        b.new_files ++ (if r.result = InstallResult.Success then [fileName file] else []),
        b.overwritten_files ++
          (if r.result = InstallResult.Overwrite then [fileName file] else []),
        b.failed_files ++ (if r.result = InstallResult.Failure then [fileName file] else []),
        b.events ++
          [GuiEvent.setWindowTitle b.remaining, GuiEvent.setLabelText (fileName file),
            (if (endsWithCaseInsensitive file "xci" || endsWithCaseInsensitive file "nsp") = true
              then GuiEvent.callInstallNSPXCI file else GuiEvent.callInstallNCA file)] ++
          r.events ++ [GuiEvent.recordOutcome r.result (fileName file)],
        r.world⟩ := by
  rw [installFile_eq_record env b file r hr hb]
  exact installFile_record_eq _ _ _ _

/-- The body of the loop when `InstallNSPXCI` does not return: the run ends with the null
dereference, before any outcome is recorded. -/
theorem installFile_crash {σ : Type} (env : Env σ) (b : Batch σ) (file : String)
    (hk : (endsWithCaseInsensitive file "xci" || endsWithCaseInsensitive file "nsp") = true)
    (hr : InstallNSPXCI env file b.world = none) (hb : b.crashed = false) :
    installFile env b file =
      ⟨b.remaining, b.new_files, b.overwritten_files, b.failed_files,
        b.events ++
          [GuiEvent.setWindowTitle b.remaining, GuiEvent.setLabelText (fileName file),
            GuiEvent.callInstallNSPXCI file, GuiEvent.nullDereference],
        b.world⟩ := by
  unfold installFile
  rw [if_neg (by simp [hb]), if_pos hk, hr]

/-- A turn of the loop after which the run has not ended started in a run that had not
ended, and its install routine returned. -/
theorem installFile_returned {σ : Type} (env : Env σ) (b : Batch σ) (file : String)
    (h : (installFile env b file).crashed = false) :
    b.crashed = false ∧
      ∃ r, (if (endsWithCaseInsensitive file "xci" || endsWithCaseInsensitive file "nsp") = true
        then InstallNSPXCI env file b.world else some (InstallNCA env file b.world)) =
          some r := by
  cases hb : b.crashed with
  | true =>
    rw [installFile_of_crashed env b file hb, hb] at h
    exact absurd h (by simp)
  | false =>
    refine ⟨rfl, ?_⟩
    by_cases hk : (endsWithCaseInsensitive file "xci" || endsWithCaseInsensitive file "nsp") =
        true
    · rw [if_pos hk]
      cases hr : InstallNSPXCI env file b.world with
      | none =>
        rw [installFile_crash env b file hk hr hb] at h
        simp [Batch.crashed] at h
      | some r => exact ⟨r, rfl⟩
    · rw [if_neg hk]
      exact ⟨_, rfl⟩

/-- One turn of the loop that does not end the run: the file name goes to exactly one of the
three lists, one install routine is called, for this file, and one outcome is recorded. -/
theorem installFile_spec {σ : Type} (env : Env σ) (b : Batch σ) (file : String)
    (h : (installFile env b file).crashed = false) :
    ∃ r : InstallResult,
      (installFile env b file).new_files =
          b.new_files ++ (if r = InstallResult.Success then [fileName file] else []) ∧
        (installFile env b file).overwritten_files =
          b.overwritten_files ++
            (if r = InstallResult.Overwrite then [fileName file] else []) ∧
        (installFile env b file).failed_files =
          b.failed_files ++ (if r = InstallResult.Failure then [fileName file] else []) ∧
        installCalls (installFile env b file).events = installCalls b.events ++ [file] ∧
        outcomes (installFile env b file).events = outcomes b.events ++ [r] ∧
        progressDialogs (installFile env b file).events = progressDialogs b.events ∧
        (installFile env b file).remaining = b.remaining - 1 := by
  obtain ⟨hb, r, hr⟩ := installFile_returned env b file h
  have hev : installCalls r.events = [] ∧ outcomes r.events = [] ∧
      progressDialogs r.events = [] := by
    by_cases hk : (endsWithCaseInsensitive file "xci" || endsWithCaseInsensitive file "nsp") =
        true
    · rw [if_pos hk] at hr
      exact InstallNSPXCI_events env file b.world r hr
    · rw [if_neg hk] at hr
      cases hr
      exact InstallNCA_events env file b.world
  obtain ⟨h1, h2, h3⟩ := hev
  refine ⟨r.result, ?_⟩
  rw [installFile_eq env b file r hr hb]
  by_cases hk : (endsWithCaseInsensitive file "xci" || endsWithCaseInsensitive file "nsp") =
      true
  · simp [installCalls_append, outcomes_append, progressDialogs_append, h1, h2, h3,
      installCalls, outcomes, progressDialogs, hk]
  · simp [installCalls_append, outcomes_append, progressDialogs_append, h1, h2, h3,
      installCalls, outcomes, progressDialogs, hk]

/-- When the loop over a list of files has not ended the run, neither has its first turn. -/
theorem installLoop_head {σ : Type} (env : Env σ) (file : String) (rest : List String)
    (b : Batch σ) (h : ((file :: rest).foldl (installFile env) b).crashed = false) :
    (installFile env b file).crashed = false := by
  cases hc : (installFile env b file).crashed with
  | false => rfl
  | true =>
    rw [List.foldl_cons, installLoop_of_crashed env rest _ hc, hc] at h
    exact absurd h (by simp)

/-- The loop over a list of files, when it runs to its end: what it adds to the three lists
and to the events. -/
theorem installLoop_spec {σ : Type} (env : Env σ) (files : List String) (b : Batch σ)
    (h : (files.foldl (installFile env) b).crashed = false) :
    ∃ n o f : List String,
      (files.foldl (installFile env) b).new_files = b.new_files ++ n ∧
        (files.foldl (installFile env) b).overwritten_files = b.overwritten_files ++ o ∧
        (files.foldl (installFile env) b).failed_files = b.failed_files ++ f ∧
        n.Sublist (files.map fileName) ∧ o.Sublist (files.map fileName) ∧
        f.Sublist (files.map fileName) ∧
        n.length + o.length + f.length = files.length ∧
        installCalls (files.foldl (installFile env) b).events =
          installCalls b.events ++ files ∧
        (outcomes (files.foldl (installFile env) b).events).length =
          (outcomes b.events).length + files.length ∧
        progressDialogs (files.foldl (installFile env) b).events = progressDialogs b.events := by
  induction files generalizing b with
  | nil =>
    exact ⟨[], [], [], by simp⟩
  | cons file t ih =>
    have hfirst := installLoop_head env file t b h
    obtain ⟨r, hn, ho, hf, hc, hr, hp, _⟩ := installFile_spec env b file hfirst
    rw [List.foldl_cons] at h
    obtain ⟨n, o, f, hn2, ho2, hf2, sn, so, sf, hlen, hc2, hr2, hp2⟩ :=
      ih (installFile env b file) h
    rw [List.foldl_cons]
    refine ⟨(if r = InstallResult.Success then [fileName file] else []) ++ n,
      (if r = InstallResult.Overwrite then [fileName file] else []) ++ o,
      (if r = InstallResult.Failure then [fileName file] else []) ++ f, ?_⟩
    refine ⟨by rw [hn2, hn, List.append_assoc], by rw [ho2, ho, List.append_assoc],
      by rw [hf2, hf, List.append_assoc], ?_, ?_, ?_, ?_, ?_, ?_, ?_⟩
    · rw [List.map_cons]
      split
      · exact List.Sublist.cons₂ _ sn
      · exact List.Sublist.cons _ sn
    · rw [List.map_cons]
      split
      · exact List.Sublist.cons₂ _ so
      · exact List.Sublist.cons _ so
    · rw [List.map_cons]
      split
      · exact List.Sublist.cons₂ _ sf
      · exact List.Sublist.cons _ sf
    · cases r <;> simp <;> omega
    · rw [hc2, hc]; simp
    · rw [hr2, hr]; simp; omega
    · rw [hp2, hp]

/-- The loop over a list of files, when it runs to its end: the names it adds to the three
lists are, taken together, the names of the files, each once. -/
theorem installLoop_perm {σ : Type} (env : Env σ) (files : List String) (b : Batch σ)
    (h : (files.foldl (installFile env) b).crashed = false) :
    ((files.foldl (installFile env) b).new_files ++
        (files.foldl (installFile env) b).overwritten_files ++
        (files.foldl (installFile env) b).failed_files).Perm
      (b.new_files ++ b.overwritten_files ++ b.failed_files ++ files.map fileName) := by
  induction files generalizing b with
  | nil => simp
  | cons file t ih =>
    have hfirst := installLoop_head env file t b h
    obtain ⟨r, hn, ho, hf, _⟩ := installFile_spec env b file hfirst
    rw [List.foldl_cons] at h ⊢
    refine (ih (installFile env b file) h).trans ?_
    rw [hn, ho, hf, List.map_cons]
    cases r
    · simp only [if_true, if_false, reduceCtorEq, List.append_nil, List.append_assoc,
        List.singleton_append]
      refine List.Perm.append_left _ ?_
      exact ((List.Perm.append_left _ List.perm_middle).trans List.perm_middle).symm
    · simp only [if_true, if_false, reduceCtorEq, List.append_nil, List.append_assoc,
        List.singleton_append]
      refine List.Perm.append_left _ (List.Perm.append_left _ ?_)
      exact List.perm_middle.symm
    · simp only [if_true, if_false, reduceCtorEq, List.append_nil, List.append_assoc,
        List.singleton_append]
      exact List.Perm.refl _

/-- With collaborators whose XCI files always have a secure partition, `InstallNSPXCI`
returns for every file. -/
theorem InstallNSPXCI_returns {σ : Type} (env : Env σ) (file : String) (w : World σ)
    (hx : ∀ f s, env.OpenXCISecurePartitionNSP f s ≠ none) :
    ∃ r, InstallNSPXCI env file w = some r := by
  unfold InstallNSPXCI
  by_cases h1 : endsWithCaseInsensitive file "nsp" = true
  · rw [if_pos h1]
    by_cases h2 : (env.OpenNSP file w.ext).IsExtractedType = true
    · simp only [h2, if_true]
      exact ⟨_, rfl⟩
    · simp only [h2, Bool.false_eq_true, if_false]
      exact ⟨_, rfl⟩
  · rw [if_neg h1]
    cases hp : env.OpenXCISecurePartitionNSP file w.ext with
    | none => exact absurd hp (hx _ _)
    | some nsp => exact ⟨_, rfl⟩

/-- With collaborators whose XCI files always have a secure partition, the loop runs to its
end. -/
theorem installLoop_runs {σ : Type} (env : Env σ) (files : List String) (b : Batch σ)
    (hx : ∀ f s, env.OpenXCISecurePartitionNSP f s ≠ none) (hb : b.crashed = false) :
    (files.foldl (installFile env) b).crashed = false := by
  induction files generalizing b with
  | nil => exact hb
  | cons file rest ih =>
    rw [List.foldl_cons]
    apply ih
    by_cases hk : (endsWithCaseInsensitive file "xci" || endsWithCaseInsensitive file "nsp") =
        true
    · obtain ⟨r, hr⟩ := InstallNSPXCI_returns env file b.world hx
      rw [installFile_eq_record env b file r (by rw [if_pos hk, hr]) hb]
      exact installFile_record_crashed _ _ _ _
    · rw [installFile_eq_record env b file (InstallNCA env file b.world) (by rw [if_neg hk])
        hb]
      exact installFile_record_crashed _ _ _ _

/-- The batch is processed exactly when a file list was chosen and accepted, the pre-scan
total is not negative and the loop over the files runs to its end. -/
theorem status_processed_iff {σ : Type} (env : Env σ) (sel : Selection) (w : World σ) :
    (OnMenuInstallToNAND env sel w).status = BatchStatus.processed ↔
      sel.filenames ≠ [] ∧ sel.accepted = true ∧ sel.files ≠ [] ∧
        0 ≤ preScan env.fileSize sel.files ∧
        (sel.files.foldl (installFile env)
          ⟨sel.filenames.length, [], [], [],
            [GuiEvent.newProgressDialog (preScan env.fileSize sel.files)], w⟩).crashed =
          false := by
  unfold OnMenuInstallToNAND
  by_cases h1 : sel.filenames = []
  · simp [h1]
  · by_cases h2 : sel.accepted = true
    · by_cases h3 : sel.files = []
      · simp [h1, h2, h3]
      · by_cases h4 : preScan env.fileSize sel.files < 0
        · simp [h1, h2, h3, h4]
        · cases h5 : (sel.files.foldl (installFile env)
            ⟨sel.filenames.length, [], [], [],
              [GuiEvent.newProgressDialog (preScan env.fileSize sel.files)], w⟩).crashed
          · simp [h1, h2, h3, h4, h5]
            omega
          · simp [h1, h2, h3, h4, h5]
    · simp [h1, h2]

/-- With collaborators whose XCI files always have a secure partition, a batch whose file
list was chosen and accepted and whose pre-scan total is not negative is processed. -/
theorem status_processed_of_partitions {σ : Type} (env : Env σ) (sel : Selection)
    (w : World σ) (hx : ∀ f s, env.OpenXCISecurePartitionNSP f s ≠ none)
    (h1 : sel.filenames ≠ []) (h2 : sel.accepted = true) (h3 : sel.files ≠ [])
    (h4 : 0 ≤ preScan env.fileSize sel.files) :
    (OnMenuInstallToNAND env sel w).status = BatchStatus.processed :=
  (status_processed_iff env sel w).mpr
    ⟨h1, h2, h3, h4, installLoop_runs env sel.files _ hx (by simp [Batch.crashed])⟩

/-- The result of a processed batch is the result of the loop. -/
theorem processed_eq {σ : Type} (env : Env σ) (sel : Selection) (w : World σ)
    (h : (OnMenuInstallToNAND env sel w).status = BatchStatus.processed) :
    ∃ b : Batch σ,
      b = sel.files.foldl (installFile env)
        ⟨sel.filenames.length, [], [], [],
          [GuiEvent.newProgressDialog (preScan env.fileSize sel.files)], w⟩ ∧
      (OnMenuInstallToNAND env sel w).new_files = b.new_files ∧
      (OnMenuInstallToNAND env sel w).overwritten_files = b.overwritten_files ∧
      (OnMenuInstallToNAND env sel w).failed_files = b.failed_files ∧
      (OnMenuInstallToNAND env sel w).events =
        b.events ++ [GuiEvent.closeProgress,
          GuiEvent.information b.new_files.length b.overwritten_files.length
            b.failed_files.length] ∧
      (OnMenuInstallToNAND env sel w).world = b.world := by
  obtain ⟨h1, h2, h3, h4, h5⟩ := (status_processed_iff env sel w).mp h
  refine ⟨_, rfl, ?_⟩
  unfold OnMenuInstallToNAND
  simp [h1, h2, h3, Int.not_lt.mpr h4, h5]

/-- In a processed batch the loop over the files has run to its end. -/
theorem processed_not_crashed {σ : Type} (env : Env σ) (sel : Selection) (w : World σ)
    (h : (OnMenuInstallToNAND env sel w).status = BatchStatus.processed) :
    (sel.files.foldl (installFile env)
      ⟨sel.filenames.length, [], [], [],
        [GuiEvent.newProgressDialog (preScan env.fileSize sel.files)], w⟩).crashed = false :=
  ((status_processed_iff env sel w).mp h).2.2.2.2

/-! ## Evaluation on the sample collaborators -/

/-- The XCI files of the sample collaborators always have a secure partition. -/
theorem sampleEnv_partitions (files : List SampleFile) (wasCanceled : Nat → Bool)
    (item : String) :
    ∀ f s, (sampleEnv files wasCanceled item).OpenXCISecurePartitionNSP f s ≠ none :=
  fun _ _ => Option.some_ne_none _

/-- The sample registry under a flag that is never set: the content is copied in full. -/
theorem sampleInstall_quiet (size : Nat) (w : World Nat) :
    sampleInstall size (qt_raw_copy (fun _ => false)) w =
      (FileSys.InstallResult.Success,
        copyChunks (sampleSrc size) sampleDest ((size + 0xFFF) / 0x1000) 0
          ⟨size, w.polls, w.trace ++ [CopyEvent.resize size true]⟩) := by
  unfold sampleInstall
  simp only []
  rw [qt_raw_copy_clear _ _ _ _ _ rfl (fun _ _ => rfl)]
  rfl

/-- The sample registry under a flag first read set before chunk `k`: the copy stops. -/
theorem sampleInstall_cancel_at (size : Nat) (wasCanceled : Nat → Bool) (k : Nat)
    (w : World Nat) (hclear : ∀ j, j < k → wasCanceled (w.polls + j) = false)
    (hset : wasCanceled (w.polls + k) = true) (hk : k * 0x1000 < size) :
    sampleInstall size (qt_raw_copy wasCanceled) w =
      (FileSys.InstallResult.Error,
        copyCancel sampleDest (copyChunks (sampleSrc size) sampleDest k 0
          ⟨size, w.polls, w.trace ++ [CopyEvent.resize size true]⟩)) := by
  unfold sampleInstall
  simp only []
  rw [qt_raw_copy_cancel_at wasCanceled (sampleSrc size) sampleDest _ k w rfl hclear hset hk]
  rfl

/-- `InstallNCA` on a file that the sample collaborators open without error. -/
theorem InstallNCA_sample (files : List SampleFile) (wasCanceled : Nat → Bool) (path : String)
    (w : World Nat) (hs : (sampleLookup files path).status = ResultStatus.Success) :
    InstallNCA (sampleEnv files wasCanceled "游戏") path w =
      ⟨toInstallResult
          (sampleInstall (sampleLookup files path).size (qt_raw_copy wasCanceled) w).1,
        [GuiEvent.promptTitleType, GuiEvent.installEntryNCA true path 0x80 true],
        (sampleInstall (sampleLookup files path).size (qt_raw_copy wasCanceled) w).2⟩ := by
  simp [InstallNCA, sampleEnv, hs, indexOf, tt_options, toInt32]

/-- `InstallNCA` on a file that the sample collaborators cannot open. -/
theorem InstallNCA_sample_unreadable (files : List SampleFile) (wasCanceled : Nat → Bool)
    (path : String) (w : World Nat) (code : Nat)
    (hs : (sampleLookup files path).status = ResultStatus.Error code) :
    InstallNCA (sampleEnv files wasCanceled "游戏") path w = ⟨InstallResult.Failure, [], w⟩ := by
  simp [InstallNCA, sampleEnv, hs]

/-- One turn of the loop on a file that is handled by `InstallNCA` and that the sample
collaborators open without error, when the sample registry reports `Success`. -/
theorem installFile_sample_ok (files : List SampleFile) (wasCanceled : Nat → Bool)
    (b : Batch Nat) (path name : String) (size : Nat) (w : World Nat)
    (hk : (endsWithCaseInsensitive path "xci" || endsWithCaseInsensitive path "nsp") = false)
    (hs : (sampleLookup files path).status = ResultStatus.Success)
    (hname : fileName path = name) (hsize : (sampleLookup files path).size = size)
    (hres : sampleInstall size (qt_raw_copy wasCanceled) b.world =
      (FileSys.InstallResult.Success, w))
    (hb : b.crashed = false) :
    installFile (sampleEnv files wasCanceled "游戏") b path =
      ⟨b.remaining - 1, b.new_files ++ [name], b.overwritten_files, b.failed_files,
        b.events ++
          [GuiEvent.setWindowTitle b.remaining, GuiEvent.setLabelText name,
            GuiEvent.callInstallNCA path, GuiEvent.promptTitleType,
            GuiEvent.installEntryNCA true path 0x80 true,
            GuiEvent.recordOutcome InstallResult.Success name],
        w⟩ := by
  rw [installFile_eq _ b path (InstallNCA (sampleEnv files wasCanceled "游戏") path b.world)
    (by rw [hk, if_neg Bool.false_ne_true]) hb]
  simp only [hk, Bool.false_eq_true, if_false, InstallNCA_sample _ _ _ _ hs, hsize, hres,
    hname]
  simp [toInstallResult]

/-- One turn of the loop on a file that is handled by `InstallNCA` and that the sample
collaborators open without error, when the sample registry reports `Error`. -/
theorem installFile_sample_failed (files : List SampleFile) (wasCanceled : Nat → Bool)
    (b : Batch Nat) (path name : String) (size : Nat) (w : World Nat)
    (hk : (endsWithCaseInsensitive path "xci" || endsWithCaseInsensitive path "nsp") = false)
    (hs : (sampleLookup files path).status = ResultStatus.Success)
    (hname : fileName path = name) (hsize : (sampleLookup files path).size = size)
    (hres : sampleInstall size (qt_raw_copy wasCanceled) b.world =
      (FileSys.InstallResult.Error, w))
    (hb : b.crashed = false) :
    installFile (sampleEnv files wasCanceled "游戏") b path =
      ⟨b.remaining - 1, b.new_files, b.overwritten_files, b.failed_files ++ [name],
        b.events ++
          [GuiEvent.setWindowTitle b.remaining, GuiEvent.setLabelText name,
            GuiEvent.callInstallNCA path, GuiEvent.promptTitleType,
            GuiEvent.installEntryNCA true path 0x80 true,
            GuiEvent.recordOutcome InstallResult.Failure name],
        w⟩ := by
  rw [installFile_eq _ b path (InstallNCA (sampleEnv files wasCanceled "游戏") path b.world)
    (by rw [hk, if_neg Bool.false_ne_true]) hb]
  simp only [hk, Bool.false_eq_true, if_false, InstallNCA_sample _ _ _ _ hs, hsize, hres,
    hname]
  simp [toInstallResult]

/-- One turn of the loop on a file that is handled by `InstallNCA` and that the sample
collaborators cannot open. -/
theorem installFile_sample_unreadable (files : List SampleFile) (wasCanceled : Nat → Bool)
    (b : Batch Nat) (path name : String) (code : Nat)
    (hk : (endsWithCaseInsensitive path "xci" || endsWithCaseInsensitive path "nsp") = false)
    (hs : (sampleLookup files path).status = ResultStatus.Error code)
    (hname : fileName path = name) (hb : b.crashed = false) :
    installFile (sampleEnv files wasCanceled "游戏") b path =
      ⟨b.remaining - 1, b.new_files, b.overwritten_files, b.failed_files ++ [name],
        b.events ++
          [GuiEvent.setWindowTitle b.remaining, GuiEvent.setLabelText name,
            GuiEvent.callInstallNCA path,
            GuiEvent.recordOutcome InstallResult.Failure name],
        b.world⟩ := by
  rw [installFile_eq _ b path (InstallNCA (sampleEnv files wasCanceled "游戏") path b.world)
    (by rw [hk, if_neg Bool.false_ne_true]) hb]
  simp only [hk, Bool.false_eq_true, if_false, InstallNCA_sample_unreadable _ _ _ _ code hs,
    hname]
  simp

theorem copyCancel_polls {σ : Type} (dest : DestFile σ) (w : World σ) :
    (copyCancel dest w).polls = w.polls + 1 :=
  rfl

theorem copyCancel_signals {σ : Type} (dest : DestFile σ) (w : World σ) :
    signals (copyCancel dest w).trace = signals w.trace := by
  simp [copyCancel, signals]

theorem world_polls_mk {σ : Type} (ext : σ) (polls : Nat) (trace : List CopyEvent) :
    (World.mk ext polls trace).polls = polls :=
  rfl

theorem world_trace_mk {σ : Type} (ext : σ) (polls : Nat) (trace : List CopyEvent) :
    (World.mk ext polls trace).trace = trace :=
  rfl

theorem batch_world_mk {σ : Type} (remaining : Int) (n o f : List String)
    (events : List GuiEvent) (w : World σ) :
    (Batch.mk remaining n o f events w).world = w :=
  rfl

theorem sample_names :
    fileName "/roms/a.nca" = "a.nca" ∧ fileName "/roms/b.nca" = "b.nca" ∧
      fileName "/roms/c.nca" = "c.nca" := by
  decide

theorem sample_kinds :
    (endsWithCaseInsensitive "/roms/a.nca" "xci" ||
        endsWithCaseInsensitive "/roms/a.nca" "nsp") = false ∧
      (endsWithCaseInsensitive "/roms/b.nca" "xci" ||
        endsWithCaseInsensitive "/roms/b.nca" "nsp") = false ∧
      (endsWithCaseInsensitive "/roms/c.nca" "xci" ||
        endsWithCaseInsensitive "/roms/c.nca" "nsp") = false := by
  decide

/-- The sample batch of three files, evaluated: the second file cannot be opened and is
recorded as failed, the two others are installed. -/
theorem sample_quiet_batch :
    (OnMenuInstallToNAND sampleQuietEnv sampleSelection sampleWorld).events =
        [GuiEvent.newProgressDialog 3,
          GuiEvent.setWindowTitle 3, GuiEvent.setLabelText "a.nca",
          GuiEvent.callInstallNCA "/roms/a.nca", GuiEvent.promptTitleType,
          GuiEvent.installEntryNCA true "/roms/a.nca" 0x80 true,
          GuiEvent.recordOutcome InstallResult.Success "a.nca",
          GuiEvent.setWindowTitle 2, GuiEvent.setLabelText "b.nca",
          GuiEvent.callInstallNCA "/roms/b.nca",
          GuiEvent.recordOutcome InstallResult.Failure "b.nca",
          GuiEvent.setWindowTitle 1, GuiEvent.setLabelText "c.nca",
          GuiEvent.callInstallNCA "/roms/c.nca", GuiEvent.promptTitleType,
          GuiEvent.installEntryNCA true "/roms/c.nca" 0x80 true,
          GuiEvent.recordOutcome InstallResult.Success "c.nca",
          GuiEvent.closeProgress, GuiEvent.information 2 0 1] ∧
      (OnMenuInstallToNAND sampleQuietEnv sampleSelection sampleWorld).new_files =
        ["a.nca", "c.nca"] ∧
      (OnMenuInstallToNAND sampleQuietEnv sampleSelection sampleWorld).overwritten_files =
        [] ∧
      (OnMenuInstallToNAND sampleQuietEnv sampleSelection sampleWorld).failed_files =
        ["b.nca"] := by
  have hs : (OnMenuInstallToNAND sampleQuietEnv sampleSelection sampleWorld).status =
      BatchStatus.processed :=
    status_processed_of_partitions _ _ _ (sampleEnv_partitions _ _ _) (by decide) (by decide)
      (by decide) (by decide)
  obtain ⟨b, hb, hn, ho, hf, he, _⟩ :=
    processed_eq sampleQuietEnv sampleSelection sampleWorld hs
  obtain ⟨hna, hnb, hnc⟩ := sample_names
  obtain ⟨hka, hkb, hkc⟩ := sample_kinds
  have hpre : preScan sampleQuietEnv.fileSize sampleSelection.files = 3 := by decide
  have hfiles : sampleSelection.files = ["/roms/a.nca", "/roms/b.nca", "/roms/c.nca"] := rfl
  have hlen : ((sampleSelection.filenames.length : Nat) : Int) = 3 := rfl
  have henv : sampleQuietEnv = sampleEnv sampleTable (fun _ => false) "游戏" := rfl
  have h1 := installFile_sample_ok sampleTable (fun _ => false)
    ⟨3, [], [], [], [GuiEvent.newProgressDialog 3], sampleWorld⟩
    "/roms/a.nca" "a.nca" 0x2000 _ hka rfl hna rfl (sampleInstall_quiet _ _) rfl
  rw [hpre, hfiles, hlen, henv, List.foldl_cons, h1, List.foldl_cons,
    installFile_sample_unreadable sampleTable (fun _ => false) _ "/roms/b.nca" "b.nca" 1 hkb
      rfl hnb,
    List.foldl_cons,
    installFile_sample_ok sampleTable (fun _ => false) _ "/roms/c.nca" "c.nca" 0x1800 _ hkc
      rfl hnc rfl (sampleInstall_quiet _ _),
    List.foldl_nil] at hb
  rotate_left
  · rfl
  · rfl
  have hbn : b.new_files = ["a.nca", "c.nca"] := by rw [hb]; rfl
  have hbo : b.overwritten_files = [] := by rw [hb]
  have hbf : b.failed_files = ["b.nca"] := by rw [hb]; rfl
  refine ⟨?_, ?_, ?_, ?_⟩
  · rw [he, hbn, hbo, hbf, hb]
    rfl
  · rw [hn, hbn]
  · rw [ho, hbo]
  · rw [hf, hbf]

/-! ## Properties of the install batch -/

/-- C1: for every batch that the pre-scan does not abort, once `OnMenuInstallToNAND` has
processed the file list, the numbers of files recorded as newly installed, as overwritten and
as failed add up to the number of input files, and the three lists taken together hold the
names of the input files, each as often as it was given: every file went to exactly one
list. -/
theorem install_outcome_counts {σ : Type} (env : Env σ) (sel : Selection) (w : World σ)
    (h : (OnMenuInstallToNAND env sel w).status = BatchStatus.processed) :
    (OnMenuInstallToNAND env sel w).new_files.length +
          (OnMenuInstallToNAND env sel w).overwritten_files.length +
          (OnMenuInstallToNAND env sel w).failed_files.length = sel.files.length ∧
      ((OnMenuInstallToNAND env sel w).new_files ++
          (OnMenuInstallToNAND env sel w).overwritten_files ++
          (OnMenuInstallToNAND env sel w).failed_files).Perm (sel.files.map fileName) := by
  obtain ⟨b, hb, hn, ho, hf, _, _⟩ := processed_eq env sel w h
  have hperm := installLoop_perm env sel.files
    ⟨sel.filenames.length, [], [], [],
      [GuiEvent.newProgressDialog (preScan env.fileSize sel.files)], w⟩
    (processed_not_crashed env sel w h)
  rw [← hb] at hperm
  rw [hn, ho, hf]
  have hperm2 : (b.new_files ++ b.overwritten_files ++ b.failed_files).Perm
      (sel.files.map fileName) := by simpa using hperm
  refine ⟨?_, hperm2⟩
  have hlen := hperm2.length_eq
  simpa [Nat.add_assoc] using hlen

/-- The sample batch of three files is processed. -/
theorem sample_processed :
    (OnMenuInstallToNAND sampleQuietEnv sampleSelection sampleWorld).status =
      BatchStatus.processed :=
  status_processed_of_partitions _ _ _ (sampleEnv_partitions _ _ _) (by decide) (by decide)
      (by decide) (by decide)

/-- C1 at the sample batch of three files: the three counts add up to three. -/
theorem install_outcome_counts_witness :
    (OnMenuInstallToNAND sampleQuietEnv sampleSelection sampleWorld).status =
        BatchStatus.processed ∧
      ((OnMenuInstallToNAND sampleQuietEnv sampleSelection sampleWorld).new_files.length +
          (OnMenuInstallToNAND sampleQuietEnv sampleSelection
            sampleWorld).overwritten_files.length +
          (OnMenuInstallToNAND sampleQuietEnv sampleSelection sampleWorld).failed_files.length =
          sampleSelection.files.length ∧
        ((OnMenuInstallToNAND sampleQuietEnv sampleSelection sampleWorld).new_files ++
          (OnMenuInstallToNAND sampleQuietEnv sampleSelection sampleWorld).overwritten_files ++
          (OnMenuInstallToNAND sampleQuietEnv sampleSelection sampleWorld).failed_files).Perm
          (sampleSelection.files.map fileName)) :=
  ⟨sample_processed,
    install_outcome_counts sampleQuietEnv sampleSelection sampleWorld sample_processed⟩

/-- C2, evaluated at one file of `2^44` bytes: its chunk count `2^32` exceeds `2^31 - 1`, yet
the pre-scan total is `0`, the batch is not aborted, a progress dialog with maximum `0` is
created and the install routine is called for the file. -/
theorem huge_file_not_aborted :
    2 ^ 31 - 1 <
        ((hugeFileSelection.files.map (fun file => hugeFileEnv.fileSize file / 0x1000)).sum) ∧
      preScan hugeFileEnv.fileSize hugeFileSelection.files = 0 ∧
      (OnMenuInstallToNAND hugeFileEnv hugeFileSelection sampleWorld).status =
        BatchStatus.processed ∧
      progressDialogs (OnMenuInstallToNAND hugeFileEnv hugeFileSelection sampleWorld).events =
        [0] ∧
      installCalls (OnMenuInstallToNAND hugeFileEnv hugeFileSelection sampleWorld).events =
        ["/roms/huge.xci"] := by
  have hs : (OnMenuInstallToNAND hugeFileEnv hugeFileSelection sampleWorld).status =
      BatchStatus.processed :=
    status_processed_of_partitions _ _ _ (sampleEnv_partitions _ _ _) (by decide) (by decide)
      (by decide) (by decide)
  obtain ⟨b, hb, _, _, _, he, _⟩ := processed_eq hugeFileEnv hugeFileSelection sampleWorld hs
  obtain ⟨n, o, f, _, _, _, _, _, _, _, hc, _, hp⟩ :=
    installLoop_spec hugeFileEnv hugeFileSelection.files
      ⟨hugeFileSelection.filenames.length, [], [], [],
        [GuiEvent.newProgressDialog (preScan hugeFileEnv.fileSize hugeFileSelection.files)],
        sampleWorld⟩
      (processed_not_crashed _ _ _ hs)
  rw [← hb] at hc hp
  have hpre : preScan hugeFileEnv.fileSize hugeFileSelection.files = 0 := by decide
  refine ⟨by decide, hpre, hs, ?_, ?_⟩
  · rw [he, progressDialogs_append, hp, hpre]
    simp [progressDialogs]
  · rw [he, installCalls_append, hc]
    simp [installCalls, hugeFileSelection]

/-- In every batch that runs to its end, an install routine is called once for every input
file, in the order of the list and whatever the earlier outcomes were, and one outcome is
recorded for each file. -/
theorem processed_calls_every_file {σ : Type} (env : Env σ) (sel : Selection) (w : World σ)
    (h : (OnMenuInstallToNAND env sel w).status = BatchStatus.processed) :
    installCalls (OnMenuInstallToNAND env sel w).events = sel.files ∧
      (outcomes (OnMenuInstallToNAND env sel w).events).length = sel.files.length := by
  obtain ⟨b, hb, _, _, _, he, _⟩ := processed_eq env sel w h
  obtain ⟨n, o, f, _, _, _, _, _, _, _, hc, ho, _⟩ :=
    installLoop_spec env sel.files
      ⟨sel.filenames.length, [], [], [],
        [GuiEvent.newProgressDialog (preScan env.fileSize sel.files)], w⟩
      (processed_not_crashed env sel w h)
  rw [← hb] at hc ho
  rw [he, installCalls_append, outcomes_append, hc, List.length_append, ho]
  simp [installCalls, outcomes]

/-- C5, evaluated at a batch of two files that passes the pre-scan and whose first file is
an XCI without a secure partition: `InstallNSPXCI` calls `GetStatus()` on the null pointer,
the run ends there, no outcome is recorded for the first file and no install routine is
called for the second file. In the same batch with a first file whose secure partition is
there and reports an error, an install routine is called for both files and two outcomes
are recorded. -/
theorem malformed_xci_ends_batch :
    (malformedXciEnv.OpenXCISecurePartitionNSP "/roms/bad.xci" sampleWorld.ext = none ∧
      preScan malformedXciEnv.fileSize malformedXciSelection.files = 2) ∧
    ((OnMenuInstallToNAND malformedXciEnv malformedXciSelection sampleWorld).status =
        BatchStatus.crashed ∧
      (OnMenuInstallToNAND malformedXciEnv malformedXciSelection sampleWorld).events =
        [GuiEvent.newProgressDialog 2, GuiEvent.setWindowTitle 2,
          GuiEvent.setLabelText "bad.xci", GuiEvent.callInstallNSPXCI "/roms/bad.xci",
          GuiEvent.nullDereference] ∧
      installCalls (OnMenuInstallToNAND malformedXciEnv malformedXciSelection
        sampleWorld).events = ["/roms/bad.xci"] ∧
      outcomes (OnMenuInstallToNAND malformedXciEnv malformedXciSelection
        sampleWorld).events = []) ∧
    (installCalls (OnMenuInstallToNAND sampleQuietEnv malformedXciSelection
        sampleWorld).events = ["/roms/bad.xci", "/roms/a.nca"] ∧
      (outcomes (OnMenuInstallToNAND sampleQuietEnv malformedXciSelection
        sampleWorld).events).length = 2) := by
  have hs : (OnMenuInstallToNAND sampleQuietEnv malformedXciSelection sampleWorld).status =
      BatchStatus.processed :=
    status_processed_of_partitions _ _ _ (sampleEnv_partitions _ _ _) (by decide) (by decide)
      (by decide) (by decide)
  have hpre : preScan malformedXciEnv.fileSize malformedXciSelection.files = 2 := by decide
  have hnull : InstallNSPXCI malformedXciEnv "/roms/bad.xci" sampleWorld = none := by
    have hk : endsWithCaseInsensitive "/roms/bad.xci" "nsp" = false := by decide
    have hx : malformedXciEnv.OpenXCISecurePartitionNSP "/roms/bad.xci" sampleWorld.ext =
        none := rfl
    unfold InstallNSPXCI
    simp only [hk, hx, Bool.false_eq_true, if_false]
  have h1 := installFile_crash malformedXciEnv
    ⟨2, [], [], [], [GuiEvent.newProgressDialog 2], sampleWorld⟩ "/roms/bad.xci" (by decide)
    hnull rfl
  have hloop : malformedXciSelection.files.foldl (installFile malformedXciEnv)
      ⟨malformedXciSelection.filenames.length, [], [], [],
        [GuiEvent.newProgressDialog
          (preScan malformedXciEnv.fileSize malformedXciSelection.files)], sampleWorld⟩ =
      ⟨2, [], [], [],
        [GuiEvent.newProgressDialog 2, GuiEvent.setWindowTitle 2,
          GuiEvent.setLabelText "bad.xci", GuiEvent.callInstallNSPXCI "/roms/bad.xci",
          GuiEvent.nullDereference], sampleWorld⟩ := by
    have hfiles : malformedXciSelection.files = ["/roms/bad.xci", "/roms/a.nca"] := rfl
    have hlen : ((malformedXciSelection.filenames.length : Nat) : Int) = 2 := rfl
    have hname : fileName "/roms/bad.xci" = "bad.xci" := by decide
    rw [hpre, hfiles, hlen, List.foldl_cons, h1, installLoop_of_crashed, hname]
    · rfl
    · rfl
  have hrun : OnMenuInstallToNAND malformedXciEnv malformedXciSelection sampleWorld =
      ⟨BatchStatus.crashed, [], [], [],
        [GuiEvent.newProgressDialog 2, GuiEvent.setWindowTitle 2,
          GuiEvent.setLabelText "bad.xci", GuiEvent.callInstallNSPXCI "/roms/bad.xci",
          GuiEvent.nullDereference], sampleWorld⟩ := by
    unfold OnMenuInstallToNAND
    simp only [hloop]
    rfl
  refine ⟨⟨rfl, hpre⟩, ⟨?_, ?_, ?_, ?_⟩, processed_calls_every_file _ _ _ hs⟩
  · rw [hrun]
  · rw [hrun]
  · rw [hrun]
    rfl
  · rw [hrun]
    rfl

/-- C6 refuted: in the sample batch where the user cancels while the first file is copied
(the flag reads clear before its first two chunks and set before the third), the first file
is recorded as failed after two progress signals, and `InstallNCA` is still called for the
second file, which prompts for its title type and calls `InstallEntry`. -/
theorem cancelled_batch_goes_on :
    (OnMenuInstallToNAND cancelEnv cancelSelection sampleWorld).events =
        [GuiEvent.newProgressDialog 5,
          GuiEvent.setWindowTitle 2, GuiEvent.setLabelText "a.nca",
          GuiEvent.callInstallNCA "/roms/a.nca", GuiEvent.promptTitleType,
          GuiEvent.installEntryNCA true "/roms/a.nca" 0x80 true,
          GuiEvent.recordOutcome InstallResult.Failure "a.nca",
          GuiEvent.setWindowTitle 1, GuiEvent.setLabelText "b.nca",
          GuiEvent.callInstallNCA "/roms/b.nca", GuiEvent.promptTitleType,
          GuiEvent.installEntryNCA true "/roms/b.nca" 0x80 true,
          GuiEvent.recordOutcome InstallResult.Failure "b.nca",
          GuiEvent.closeProgress, GuiEvent.information 0 0 2] ∧
      signals (OnMenuInstallToNAND cancelEnv cancelSelection sampleWorld).world.trace = 2 ∧
      (OnMenuInstallToNAND cancelEnv cancelSelection sampleWorld).world.polls = 4 := by
  have hs : (OnMenuInstallToNAND cancelEnv cancelSelection sampleWorld).status =
      BatchStatus.processed :=
    status_processed_of_partitions _ _ _ (sampleEnv_partitions _ _ _) (by decide) (by decide)
      (by decide) (by decide)
  obtain ⟨b, hb, _, _, _, he, hw⟩ := processed_eq cancelEnv cancelSelection sampleWorld hs
  obtain ⟨hna, hnb, _⟩ := sample_names
  obtain ⟨hka, hkb, _⟩ := sample_kinds
  have hpre : preScan cancelEnv.fileSize cancelSelection.files = 5 := by decide
  have hfiles : cancelSelection.files = ["/roms/a.nca", "/roms/b.nca"] := rfl
  have hlen : ((cancelSelection.filenames.length : Nat) : Int) = 2 := rfl
  have henv : cancelEnv = sampleEnv [⟨"/roms/a.nca", 0x3000, ResultStatus.Success⟩,
    ⟨"/roms/b.nca", 0x2000, ResultStatus.Success⟩] cancelAfterTwo "游戏" := rfl
  have h1 := installFile_sample_failed [⟨"/roms/a.nca", 0x3000, ResultStatus.Success⟩,
      ⟨"/roms/b.nca", 0x2000, ResultStatus.Success⟩] cancelAfterTwo
    ⟨2, [], [], [], [GuiEvent.newProgressDialog 5], sampleWorld⟩
    "/roms/a.nca" "a.nca" 0x3000 _ hka rfl hna rfl
    (sampleInstall_cancel_at 0x3000 cancelAfterTwo 2 _ (by decide) (by decide) (by decide))
    rfl
  have hp1 : (installFile (sampleEnv [⟨"/roms/a.nca", 0x3000, ResultStatus.Success⟩,
      ⟨"/roms/b.nca", 0x2000, ResultStatus.Success⟩] cancelAfterTwo "游戏")
      ⟨2, [], [], [], [GuiEvent.newProgressDialog 5], sampleWorld⟩
      "/roms/a.nca").world.polls = 3 := by
    rw [h1, batch_world_mk, copyCancel_polls, copyChunks_polls, world_polls_mk,
      batch_world_mk]
    rfl
  have h2 := installFile_sample_failed [⟨"/roms/a.nca", 0x3000, ResultStatus.Success⟩,
      ⟨"/roms/b.nca", 0x2000, ResultStatus.Success⟩] cancelAfterTwo
    (installFile (sampleEnv [⟨"/roms/a.nca", 0x3000, ResultStatus.Success⟩,
      ⟨"/roms/b.nca", 0x2000, ResultStatus.Success⟩] cancelAfterTwo "游戏")
      ⟨2, [], [], [], [GuiEvent.newProgressDialog 5], sampleWorld⟩ "/roms/a.nca")
    "/roms/b.nca" "b.nca" 0x2000 _ hkb rfl hnb rfl
    (sampleInstall_cancel_at 0x2000 cancelAfterTwo 0 _ (by intro j hj; omega)
      (by rw [hp1]; rfl) (by decide))
    (by rw [h1]; rfl)
  rw [hpre, hfiles, hlen, henv, List.foldl_cons, List.foldl_cons, List.foldl_nil, h2] at hb
  have hbn : b.new_files = [] := by rw [hb, h1]
  have hbo : b.overwritten_files = [] := by rw [hb, h1]
  have hbf : b.failed_files = ["a.nca", "b.nca"] := by rw [hb, h1]; rfl
  have hbe : b.events = [GuiEvent.newProgressDialog 5,
      GuiEvent.setWindowTitle 2, GuiEvent.setLabelText "a.nca",
      GuiEvent.callInstallNCA "/roms/a.nca", GuiEvent.promptTitleType,
      GuiEvent.installEntryNCA true "/roms/a.nca" 0x80 true,
      GuiEvent.recordOutcome InstallResult.Failure "a.nca",
      GuiEvent.setWindowTitle 1, GuiEvent.setLabelText "b.nca",
      GuiEvent.callInstallNCA "/roms/b.nca", GuiEvent.promptTitleType,
      GuiEvent.installEntryNCA true "/roms/b.nca" 0x80 true,
      GuiEvent.recordOutcome InstallResult.Failure "b.nca"] := by
    rw [hb, h1]
    rfl
  refine ⟨?_, ?_, ?_⟩
  · rw [he, hbn, hbo, hbf, hbe]
    rfl
  · rw [hw, hb, batch_world_mk, copyCancel_signals, copyChunks_signals, world_trace_mk,
      signals_append, h1, batch_world_mk, copyCancel_signals, copyChunks_signals,
      world_trace_mk, batch_world_mk]
    rfl
  · rw [hw, hb, batch_world_mk, copyCancel_polls, copyChunks_polls, world_polls_mk, hp1]

/-- C6 as amended: cancellation is not checked before starting the next file. In every
batch that passes the pre-scan and runs to its end, whatever the cancellation flag answers
and whenever it is set, an install routine is called for every file of the list, in the
order of the list: the files after a file during whose installation the cancellation was
requested are started like the others. -/
theorem cancel_checked_per_chunk_only {σ : Type} (env : Env σ) (flag : Nat → Bool)
    (sel : Selection) (w : World σ)
    (h : (OnMenuInstallToNAND { env with wasCanceled := flag } sel w).status =
      BatchStatus.processed) :
    installCalls (OnMenuInstallToNAND { env with wasCanceled := flag } sel w).events =
      sel.files :=
  (processed_calls_every_file { env with wasCanceled := flag } sel w h).1

/-- No turn of the loop creates a progress dialog, whether it ends the run or not. -/
theorem installFile_progressDialogs {σ : Type} (env : Env σ) (b : Batch σ) (file : String) :
    progressDialogs (installFile env b file).events = progressDialogs b.events := by
  cases hc : (installFile env b file).crashed with
  | false =>
    obtain ⟨_, _, _, _, _, _, hp, _⟩ := installFile_spec env b file hc
    exact hp
  | true =>
    cases hb : b.crashed with
    | true => rw [installFile_of_crashed env b file hb]
    | false =>
      by_cases hk : (endsWithCaseInsensitive file "xci" ||
          endsWithCaseInsensitive file "nsp") = true
      · cases hr : InstallNSPXCI env file b.world with
        | none =>
          rw [installFile_crash env b file hk hr hb]
          simp [progressDialogs_append, progressDialogs]
        | some r =>
          rw [installFile_eq_record env b file r (by rw [if_pos hk, hr]) hb,
            installFile_record_crashed] at hc
          exact absurd hc (by simp)
      · rw [installFile_eq_record env b file (InstallNCA env file b.world)
          (by rw [if_neg hk]) hb, installFile_record_crashed] at hc
        exact absurd hc (by simp)

/-- The loop over the files creates no progress dialog, whether it runs to its end or not. -/
theorem installLoop_progressDialogs {σ : Type} (env : Env σ) (files : List String)
    (b : Batch σ) :
    progressDialogs (files.foldl (installFile env) b).events = progressDialogs b.events := by
  induction files generalizing b with
  | nil => rfl
  | cons file rest ih => rw [List.foldl_cons, ih, installFile_progressDialogs]

/-- C8: for every list of input files whose chunk counts add up to at most `2^31 - 1`, the
total computed by the pre-scan is the sum over the files of `floor(size / 0x1000)`, the batch
is not aborted: the loop over the files is entered, and the batch is processed unless the run
ends inside the loop at the null dereference of `InstallNSPXCI`, which cannot happen when
every XCI has a secure partition; and exactly one progress dialog is created, with that total
as its maximum. -/
theorem prescan_total_is_chunk_sum {σ : Type} (env : Env σ) (sel : Selection) (w : World σ)
    (hnames : sel.filenames ≠ []) (hacc : sel.accepted = true) (hfiles : sel.files ≠ [])
    (hsum : (sel.files.map (fun file => env.fileSize file / 0x1000)).sum ≤ 2 ^ 31 - 1) :
    preScan env.fileSize sel.files =
        ((sel.files.map (fun file => env.fileSize file / 0x1000)).sum : Nat) ∧
      ((OnMenuInstallToNAND env sel w).status = BatchStatus.processed ∨
        (OnMenuInstallToNAND env sel w).status = BatchStatus.crashed) ∧
      ((∀ f s, env.OpenXCISecurePartitionNSP f s ≠ none) →
        (OnMenuInstallToNAND env sel w).status = BatchStatus.processed) ∧
      progressDialogs (OnMenuInstallToNAND env sel w).events =
        [(((sel.files.map (fun file => env.fileSize file / 0x1000)).sum : Nat) : Int)] := by
  have hpre : preScan env.fileSize sel.files =
      ((sel.files.map (fun file => env.fileSize file / 0x1000)).sum : Nat) := by
    rw [preScan_eq]
    apply toInt32_of_range
    · omega
    · omega
  have h0 : 0 ≤ preScan env.fileSize sel.files := by
    rw [hpre]
    omega
  have hp := installLoop_progressDialogs env sel.files
    ⟨sel.filenames.length, [], [], [],
      [GuiEvent.newProgressDialog (preScan env.fileSize sel.files)], w⟩
  refine ⟨hpre, ?_, fun hx => status_processed_of_partitions env sel w hx hnames hacc hfiles h0,
    ?_⟩
  · unfold OnMenuInstallToNAND
    simp only [List.isEmpty_iff, hnames, hacc, hfiles, Int.not_lt.mpr h0, if_false,
      Bool.not_true, Bool.false_eq_true]
    split_ifs
    · exact Or.inr rfl
    · exact Or.inl rfl
  · unfold OnMenuInstallToNAND
    simp only [List.isEmpty_iff, hnames, hacc, hfiles, Int.not_lt.mpr h0, if_false,
      Bool.not_true, Bool.false_eq_true]
    split_ifs
    · rw [hp, hpre]
      simp [progressDialogs]
    · rw [progressDialogs_append, hp, hpre]
      simp [progressDialogs]

/-- C8 at the sample batch of three files, whose chunk counts are two, zero and one. -/
theorem prescan_total_is_chunk_sum_witness :
    (sampleSelection.filenames ≠ [] ∧ sampleSelection.accepted = true ∧
      sampleSelection.files ≠ [] ∧
      (sampleSelection.files.map (fun file => sampleQuietEnv.fileSize file / 0x1000)).sum ≤
        2 ^ 31 - 1 ∧
      ∀ f s, sampleQuietEnv.OpenXCISecurePartitionNSP f s ≠ none) ∧
    (preScan sampleQuietEnv.fileSize sampleSelection.files =
        ((sampleSelection.files.map
          (fun file => sampleQuietEnv.fileSize file / 0x1000)).sum : Nat) ∧
      (OnMenuInstallToNAND sampleQuietEnv sampleSelection sampleWorld).status =
        BatchStatus.processed ∧
      progressDialogs (OnMenuInstallToNAND sampleQuietEnv sampleSelection sampleWorld).events =
        [(((sampleSelection.files.map
          (fun file => sampleQuietEnv.fileSize file / 0x1000)).sum : Nat) : Int)]) :=
  ⟨⟨by decide, by decide, by decide, by decide, sampleEnv_partitions _ _ _⟩,
    (prescan_total_is_chunk_sum sampleQuietEnv sampleSelection sampleWorld (by decide)
      (by decide) (by decide) (by decide)).1,
    (prescan_total_is_chunk_sum sampleQuietEnv sampleSelection sampleWorld (by decide)
      (by decide) (by decide) (by decide)).2.2.1 (sampleEnv_partitions _ _ _),
    (prescan_total_is_chunk_sum sampleQuietEnv sampleSelection sampleWorld (by decide)
      (by decide) (by decide) (by decide)).2.2.2⟩

/-- C9: install outcomes are reported in input order. In every processed batch the install
routines are called for the files in the order of the input list, and each of the three
outcome lists is a subsequence of the input file names in their original order. -/
theorem outcome_lists_in_input_order {σ : Type} (env : Env σ) (sel : Selection)
    (w : World σ) (h : (OnMenuInstallToNAND env sel w).status = BatchStatus.processed) :
    installCalls (OnMenuInstallToNAND env sel w).events = sel.files ∧
      (OnMenuInstallToNAND env sel w).new_files.Sublist (sel.files.map fileName) ∧
      (OnMenuInstallToNAND env sel w).overwritten_files.Sublist (sel.files.map fileName) ∧
      (OnMenuInstallToNAND env sel w).failed_files.Sublist (sel.files.map fileName) := by
  obtain ⟨b, hb, hn, ho, hf, he, _⟩ := processed_eq env sel w h
  obtain ⟨n, o, f, hn2, ho2, hf2, sn, so, sf, _, hc, _, _⟩ :=
    installLoop_spec env sel.files
      ⟨sel.filenames.length, [], [], [],
        [GuiEvent.newProgressDialog (preScan env.fileSize sel.files)], w⟩
      (processed_not_crashed env sel w h)
  rw [← hb] at hn2 ho2 hf2 hc
  refine ⟨?_, ?_, ?_, ?_⟩
  · rw [he, installCalls_append, hc]
    simp [installCalls]
  · rw [hn, hn2]
    simpa using sn
  · rw [ho, ho2]
    simpa using so
  · rw [hf, hf2]
    simpa using sf

/-- C9 at the sample batch of three files: the list of installed names skips the second
file and keeps the order of the two others. -/
theorem outcome_lists_in_input_order_witness :
    (OnMenuInstallToNAND sampleQuietEnv sampleSelection sampleWorld).status =
        BatchStatus.processed ∧
      (installCalls (OnMenuInstallToNAND sampleQuietEnv sampleSelection sampleWorld).events =
          sampleSelection.files ∧
        (OnMenuInstallToNAND sampleQuietEnv sampleSelection sampleWorld).new_files.Sublist
          (sampleSelection.files.map fileName) ∧
        (OnMenuInstallToNAND sampleQuietEnv sampleSelection
          sampleWorld).overwritten_files.Sublist (sampleSelection.files.map fileName) ∧
        (OnMenuInstallToNAND sampleQuietEnv sampleSelection sampleWorld).failed_files.Sublist
          (sampleSelection.files.map fileName)) ∧
      (OnMenuInstallToNAND sampleQuietEnv sampleSelection sampleWorld).new_files =
        ["a.nca", "c.nca"] :=
  ⟨sample_processed,
    outcome_lists_in_input_order sampleQuietEnv sampleSelection sampleWorld sample_processed,
    sample_quiet_batch.2.1⟩

/-- C6 as amended, at the sample batch in which the user cancels during the first file: the
install routine is called for both files. -/
theorem cancel_checked_per_chunk_only_witness :
    (OnMenuInstallToNAND { cancelEnv with wasCanceled := cancelAfterTwo } cancelSelection
        sampleWorld).status = BatchStatus.processed ∧
      installCalls (OnMenuInstallToNAND { cancelEnv with wasCanceled := cancelAfterTwo }
        cancelSelection sampleWorld).events = cancelSelection.files :=
  ⟨status_processed_of_partitions _ _ _ (sampleEnv_partitions _ _ _) (by decide) (by decide)
      (by decide) (by decide),
    cancel_checked_per_chunk_only cancelEnv cancelAfterTwo cancelSelection sampleWorld
      (status_processed_of_partitions _ _ _ (sampleEnv_partitions _ _ _) (by decide)
        (by decide) (by decide) (by decide))⟩

/-- C3, evaluated at one package of `0x1200` bytes installed without cancellation: the
pre-scan gives the progress dialog the maximum `1`, which is `floor(0x1200 / 0x1000)`, the
package is recorded as newly installed, and its copy has emitted two
`UpdateInstallProgress` signals. -/
theorem odd_size_exceeds_total :
    progressDialogs (OnMenuInstallToNAND oddSizeEnv oddSizeSelection sampleWorld).events =
        [1] ∧
      (OnMenuInstallToNAND oddSizeEnv oddSizeSelection sampleWorld).new_files =
        ["game.nca"] ∧
      signals (OnMenuInstallToNAND oddSizeEnv oddSizeSelection sampleWorld).world.trace =
        2 := by
  have hs : (OnMenuInstallToNAND oddSizeEnv oddSizeSelection sampleWorld).status =
      BatchStatus.processed :=
    status_processed_of_partitions _ _ _ (sampleEnv_partitions _ _ _) (by decide) (by decide)
      (by decide) (by decide)
  obtain ⟨b, hb, hn, _, _, he, hw⟩ := processed_eq oddSizeEnv oddSizeSelection sampleWorld hs
  have hpre : preScan oddSizeEnv.fileSize oddSizeSelection.files = 1 := by decide
  have hk : (endsWithCaseInsensitive "/roms/game.nca" "xci" ||
      endsWithCaseInsensitive "/roms/game.nca" "nsp") = false := by decide
  have hname : fileName "/roms/game.nca" = "game.nca" := by decide
  have h1 := installFile_sample_ok [⟨"/roms/game.nca", 0x1200, ResultStatus.Success⟩]
    (fun _ => false) ⟨1, [], [], [], [GuiEvent.newProgressDialog 1], sampleWorld⟩
    "/roms/game.nca" "game.nca" 0x1200 _ hk rfl hname rfl (sampleInstall_quiet _ _) rfl
  have hfiles : oddSizeSelection.files = ["/roms/game.nca"] := rfl
  have hlen : ((oddSizeSelection.filenames.length : Nat) : Int) = 1 := rfl
  have henv : oddSizeEnv = sampleEnv [⟨"/roms/game.nca", 0x1200, ResultStatus.Success⟩]
    (fun _ => false) "游戏" := rfl
  rw [hpre, hfiles, hlen, henv, List.foldl_cons, List.foldl_nil, h1] at hb
  have hbn : b.new_files = ["game.nca"] := by rw [hb]; rfl
  have hbe : progressDialogs b.events = [1] := by rw [hb]; rfl
  have hbw : signals b.world.trace = 2 := by
    rw [hb]
    show signals (copyChunks _ _ _ _ _).trace = 2
    rw [copyChunks_signals]
    rfl
  refine ⟨?_, ?_, ?_⟩
  · rw [he, progressDialogs_append, hbe]
    rfl
  · rw [hn, hbn]
  · rw [hw, hbw]

/-! ## Properties of the chunked copy -/

/-- C7 refuted: a source of `0x1800` bytes whose reads return no byte, and a destination whose
writes store no byte, are both copied with the result `true`. -/
theorem short_transfer_reported_as_success :
    ((failingSrc.Read 0x1000 0).length < min 0x1000 failingSrc.GetSize ∧
      (qt_raw_copy (fun _ => false) (some failingSrc) (some sampleDest) 0x1000
        sampleWorld).1 = true) ∧
    ((failingDest.Write [7, 7, 7] 0 0).1 < [7, 7, 7].length ∧
      (qt_raw_copy (fun _ => false) (some (sampleSrc 0x1800)) (some failingDest) 0x1000
        sampleWorld).1 = true) := by
  refine ⟨⟨by decide, ?_⟩, ⟨by decide, ?_⟩⟩
  · rw [qt_raw_copy_clear _ _ _ _ _ rfl (fun _ _ => rfl)]
  · rw [qt_raw_copy_clear _ _ _ _ _ rfl (fun _ _ => rfl)]

/-- C7 as amended: the copy does not look at the counts that `Read` and `Write` return. For
every source and destination, whatever their reads and writes transfer, the copy returns
`true` exactly when the first resize succeeds and the cancellation flag reads clear before
every chunk; and it returns `false` when the source or the destination is null. -/
theorem copy_result_ignores_transfers {σ : Type} (wasCanceled : Nat → Bool) (src : SrcFile)
    (dest : DestFile σ) (block_size : Nat) (w : World σ) :
    ((qt_raw_copy wasCanceled (some src) (some dest) block_size w).1 = true ↔
        (dest.Resize src.GetSize w.ext).1 = true ∧
          ∀ k, k * 0x1000 < src.GetSize → wasCanceled (w.polls + k) = false) ∧
      (qt_raw_copy wasCanceled none (some dest) block_size w).1 = false ∧
      (qt_raw_copy wasCanceled (some src) none block_size w).1 = false := by
  refine ⟨?_, rfl, rfl⟩
  unfold qt_raw_copy
  cases hr : (dest.Resize src.GetSize w.ext).1 with
  | false => simp [hr]
  | true =>
    simp only [hr, Bool.not_true, Bool.false_eq_true, if_false, true_and]
    rw [qt_raw_copy_loop_true_iff]
    simp

/-! ## Properties of the calibration dialog -/

/-- While the dialog runs, only the completion callback changes the flag and the bounds. -/
theorem exec_without_data (events : List DialogEvent)
    (dialog : CalibrationConfigurationDialog)
    (h : ∀ e ∈ events, ∀ a b c d, e ≠ DialogEvent.data a b c d) :
    (dialog.exec events).completed = dialog.completed ∧
      (dialog.exec events).min_x = dialog.min_x ∧
      (dialog.exec events).min_y = dialog.min_y ∧
      (dialog.exec events).max_x = dialog.max_x ∧
      (dialog.exec events).max_y = dialog.max_y := by
  induction events generalizing dialog with
  | nil => simp [CalibrationConfigurationDialog.exec]
  | cons e rest ih =>
    have hrest : ∀ e ∈ rest, ∀ a b c d, e ≠ DialogEvent.data a b c d :=
      fun e he => h e (List.mem_cons_of_mem _ he)
    cases e with
    | status s =>
      rw [CalibrationConfigurationDialog.exec]
      obtain ⟨h1, h2, h3, h4, h5⟩ := ih _ hrest
      rw [h1, h2, h3, h4, h5]
      cases s <;>
        simp [CalibrationConfigurationDialog.statusCallback,
          CalibrationConfigurationDialog.deliver]
    | data a b c d => exact absurd rfl (h _ (List.mem_cons_self _ _) a b c d)
    | cancelClicked =>
      rw [CalibrationConfigurationDialog.exec]
      cases hc : dialog.completed <;>
        simp [CalibrationConfigurationDialog.onCancelClicked, hc]
    | rejected => simp [CalibrationConfigurationDialog.exec]

/-- Status callbacks that come first only lead to another state of the dialog. -/
theorem exec_status_prefix (events rest : List DialogEvent)
    (dialog : CalibrationConfigurationDialog)
    (h : ∀ e ∈ events, ∃ s, e = DialogEvent.status s) :
    ∃ reached : CalibrationConfigurationDialog,
      dialog.exec (events ++ rest) = reached.exec rest := by
  induction events generalizing dialog with
  | nil => exact ⟨dialog, rfl⟩
  | cons e t ih =>
    obtain ⟨s, hs⟩ := h e (List.mem_cons_self _ _)
    subst hs
    rw [List.cons_append, CalibrationConfigurationDialog.exec]
    exact ih _ (fun e he => h e (List.mem_cons_of_mem _ he))

/-- C10: for every four bound values `(a, b, c, d)` that the completion callback of the
calibration job delivers, the calibration dialog becomes completed with
`(min_x, min_y, max_x, max_y) = (a, b, c, d)`, and when the delivery comes after status
callbacks only and is followed by no other delivery, `OnConfigureTouchCalibration` sets the
bounds of the configuration dialog to exactly `(a, b, c, d)`. -/
theorem calibration_bounds_delivered (a b c d : Nat) (ha : a < 2 ^ 16) (hb : b < 2 ^ 16)
    (hc : c < 2 ^ 16) (hd : d < 2 ^ 16) (before after : List DialogEvent)
    (hbefore : ∀ e ∈ before, ∃ s, e = DialogEvent.status s)
    (hafter : ∀ e ∈ after, ∀ a' b' c' d', e ≠ DialogEvent.data a' b' c' d')
    (dialog : CalibrationConfigurationDialog) (self : ConfigureMotionTouch) :
    ((dialog.dataCallback a b c d).1.completed = true ∧
      (dialog.dataCallback a b c d).1.min_x = a ∧
      (dialog.dataCallback a b c d).1.min_y = b ∧
      (dialog.dataCallback a b c d).1.max_x = c ∧
      (dialog.dataCallback a b c d).1.max_y = d) ∧
    ((self.OnConfigureTouchCalibration (before ++ DialogEvent.data a b c d :: after)).min_x =
        a ∧
      (self.OnConfigureTouchCalibration (before ++ DialogEvent.data a b c d :: after)).min_y =
        b ∧
      (self.OnConfigureTouchCalibration (before ++ DialogEvent.data a b c d :: after)).max_x =
        c ∧
      (self.OnConfigureTouchCalibration (before ++ DialogEvent.data a b c d :: after)).max_y =
        d) := by
  have ha' : a % 2 ^ 16 = a := Nat.mod_eq_of_lt ha
  have hb' : b % 2 ^ 16 = b := Nat.mod_eq_of_lt hb
  have hc' : c % 2 ^ 16 = c := Nat.mod_eq_of_lt hc
  have hd' : d % 2 ^ 16 = d := Nat.mod_eq_of_lt hd
  constructor
  · simp only [CalibrationConfigurationDialog.dataCallback, ha', hb', hc', hd', and_self]
  · obtain ⟨reached, hreached⟩ :=
      exec_status_prefix before (DialogEvent.data a b c d :: after)
        CalibrationConfigurationDialog.new hbefore
    obtain ⟨h1, h2, h3, h4, h5⟩ :=
      exec_without_data after
        (List.foldl CalibrationConfigurationDialog.deliver (reached.dataCallback a b c d).1
          (reached.dataCallback a b c d).2) hafter
    have hexec : CalibrationConfigurationDialog.new.exec
        (before ++ DialogEvent.data a b c d :: after) =
        (List.foldl CalibrationConfigurationDialog.deliver (reached.dataCallback a b c d).1
          (reached.dataCallback a b c d).2).exec after := by
      rw [hreached, CalibrationConfigurationDialog.exec]
    simp only [CalibrationConfigurationDialog.dataCallback, List.foldl_nil, ha', hb', hc',
      hd'] at h1 h2 h3 h4 h5 hexec
    unfold ConfigureMotionTouch.OnConfigureTouchCalibration
    simp [hexec, h1, h2, h3, h4, h5]

/-- C10 at the scenario of the specification: the job reports the points `(100, 50)` and
`(1800, 850)`, its callbacks are a status, a status and the delivery of
`(100, 50, 1800, 850)`, the user then clicks the button, and the configuration dialog ends
with these four bounds. -/
theorem calibration_bounds_delivered_witness :
    (CalibrationConfigurationJob.run JobStage.Ready [(100, 50), (1800, 850)] ++
        [DialogEvent.cancelClicked] =
      [DialogEvent.status Status.Stage1Completed, DialogEvent.status Status.Completed] ++
        DialogEvent.data 100 50 1800 850 :: [DialogEvent.cancelClicked]) ∧
    ((CalibrationConfigurationDialog.new.dataCallback 100 50 1800 850).1.completed = true ∧
      (CalibrationConfigurationDialog.new.dataCallback 100 50 1800 850).1.min_x = 100 ∧
      (CalibrationConfigurationDialog.new.dataCallback 100 50 1800 850).1.min_y = 50 ∧
      (CalibrationConfigurationDialog.new.dataCallback 100 50 1800 850).1.max_x = 1800 ∧
      (CalibrationConfigurationDialog.new.dataCallback 100 50 1800 850).1.max_y = 850) ∧
    ((ConfigureMotionTouch.OnConfigureTouchCalibration
        ([DialogEvent.status Status.Stage1Completed, DialogEvent.status Status.Completed] ++
          DialogEvent.data 100 50 1800 850 :: [DialogEvent.cancelClicked])
        ⟨0, 0, 0, 0, true, "设置"⟩).min_x = (100 : Nat) ∧
      (ConfigureMotionTouch.OnConfigureTouchCalibration
        ([DialogEvent.status Status.Stage1Completed, DialogEvent.status Status.Completed] ++
          DialogEvent.data 100 50 1800 850 :: [DialogEvent.cancelClicked])
        ⟨0, 0, 0, 0, true, "设置"⟩).min_y = (50 : Nat) ∧
      (ConfigureMotionTouch.OnConfigureTouchCalibration
        ([DialogEvent.status Status.Stage1Completed, DialogEvent.status Status.Completed] ++
          DialogEvent.data 100 50 1800 850 :: [DialogEvent.cancelClicked])
        ⟨0, 0, 0, 0, true, "设置"⟩).max_x = (1800 : Nat) ∧
      (ConfigureMotionTouch.OnConfigureTouchCalibration
        ([DialogEvent.status Status.Stage1Completed, DialogEvent.status Status.Completed] ++
          DialogEvent.data 100 50 1800 850 :: [DialogEvent.cancelClicked])
        ⟨0, 0, 0, 0, true, "设置"⟩).max_y = (850 : Nat)) :=
  ⟨by decide,
    calibration_bounds_delivered 100 50 1800 850 (by decide) (by decide) (by decide)
      (by decide)
      [DialogEvent.status Status.Stage1Completed, DialogEvent.status Status.Completed]
      [DialogEvent.cancelClicked] (by simp) (by simp)
      CalibrationConfigurationDialog.new ⟨0, 0, 0, 0, true, "设置"⟩⟩

/-- A session that is completed or stopped delivers nothing more. -/
theorem run_finished (stage : JobStage) (points : List (Nat × Nat))
    (h : stage = JobStage.Completed ∨ stage = JobStage.Stopped) :
    CalibrationConfigurationJob.run stage points = [] := by
  induction points with
  | nil => cases stage <;> rfl
  | cons p rest ih =>
    rcases h with h | h <;> subst h <;>
      simpa [CalibrationConfigurationJob.run, CalibrationConfigurationJob.onReport] using ih

/-- When the dialog is not completed at the end of `exec()`, the bounds of the configuration
dialog are left as they were. -/
theorem bounds_kept_when_not_completed (events : List DialogEvent)
    (self : ConfigureMotionTouch)
    (h : (CalibrationConfigurationDialog.new.exec events).completed = false) :
    (self.OnConfigureTouchCalibration events).min_x = self.min_x ∧
      (self.OnConfigureTouchCalibration events).min_y = self.min_y ∧
      (self.OnConfigureTouchCalibration events).max_x = self.max_x ∧
      (self.OnConfigureTouchCalibration events).max_y = self.max_y := by
  unfold ConfigureMotionTouch.OnConfigureTouchCalibration
  simp [h]

/-- C12: if the calibration dialog ends without the completion callback having fired, it is
not completed and `OnConfigureTouchCalibration` leaves `min_x`, `min_y`, `max_x` and `max_y`
of the configuration dialog unchanged (while the button is enabled again with its idle
text). -/
theorem bounds_unchanged_without_completion (events : List DialogEvent)
    (self : ConfigureMotionTouch)
    (h : ∀ e ∈ events, ∀ a b c d, e ≠ DialogEvent.data a b c d) :
    (CalibrationConfigurationDialog.new.exec events).completed = false ∧
      (self.OnConfigureTouchCalibration events).min_x = self.min_x ∧
      (self.OnConfigureTouchCalibration events).min_y = self.min_y ∧
      (self.OnConfigureTouchCalibration events).max_x = self.max_x ∧
      (self.OnConfigureTouchCalibration events).max_y = self.max_y ∧
      (self.OnConfigureTouchCalibration events).touch_calibration_config_enabled = true ∧
      (self.OnConfigureTouchCalibration events).touch_calibration_config_text = "设置" := by
  have hc : (CalibrationConfigurationDialog.new.exec events).completed = false :=
    (exec_without_data events CalibrationConfigurationDialog.new h).1
  obtain ⟨h1, h2, h3, h4⟩ := bounds_kept_when_not_completed events self hc
  refine ⟨hc, h1, h2, h3, h4, ?_, ?_⟩ <;>
    · unfold ConfigureMotionTouch.OnConfigureTouchCalibration
      simp [hc]

/-- C12 at a session that reaches the first stage and is then closed by its button. -/
theorem bounds_unchanged_without_completion_witness :
    (∀ e ∈ [DialogEvent.status Status.Ready, DialogEvent.status Status.Stage1Completed,
          DialogEvent.cancelClicked],
        ∀ a b c d, e ≠ DialogEvent.data a b c d) ∧
      ((CalibrationConfigurationDialog.new.exec
          [DialogEvent.status Status.Ready, DialogEvent.status Status.Stage1Completed,
            DialogEvent.cancelClicked]).completed = false ∧
        (ConfigureMotionTouch.OnConfigureTouchCalibration
          [DialogEvent.status Status.Ready, DialogEvent.status Status.Stage1Completed,
            DialogEvent.cancelClicked] ⟨100, 50, 1800, 850, true, "设置"⟩).min_x = 100 ∧
        (ConfigureMotionTouch.OnConfigureTouchCalibration
          [DialogEvent.status Status.Ready, DialogEvent.status Status.Stage1Completed,
            DialogEvent.cancelClicked] ⟨100, 50, 1800, 850, true, "设置"⟩).min_y = 50 ∧
        (ConfigureMotionTouch.OnConfigureTouchCalibration
          [DialogEvent.status Status.Ready, DialogEvent.status Status.Stage1Completed,
            DialogEvent.cancelClicked] ⟨100, 50, 1800, 850, true, "设置"⟩).max_x = 1800 ∧
        (ConfigureMotionTouch.OnConfigureTouchCalibration
          [DialogEvent.status Status.Ready, DialogEvent.status Status.Stage1Completed,
            DialogEvent.cancelClicked] ⟨100, 50, 1800, 850, true, "设置"⟩).max_y = 850 ∧
        (ConfigureMotionTouch.OnConfigureTouchCalibration
          [DialogEvent.status Status.Ready, DialogEvent.status Status.Stage1Completed,
            DialogEvent.cancelClicked]
          ⟨100, 50, 1800, 850, true, "设置"⟩).touch_calibration_config_enabled = true ∧
        (ConfigureMotionTouch.OnConfigureTouchCalibration
          [DialogEvent.status Status.Ready, DialogEvent.status Status.Stage1Completed,
            DialogEvent.cancelClicked]
          ⟨100, 50, 1800, 850, true, "设置"⟩).touch_calibration_config_text = "设置") :=
  ⟨by simp,
    bounds_unchanged_without_completion
      [DialogEvent.status Status.Ready, DialogEvent.status Status.Stage1Completed,
        DialogEvent.cancelClicked] ⟨100, 50, 1800, 850, true, "设置"⟩ (by simp)⟩

/-- The calls of `job->Stop()` that the dialog makes itself. When the user closes the window
before the session has completed, `exec()` ends by `reject()`, the dialog is not completed
and its own code has not called `job->Stop()`; the same holds after the job has reported
that it is ready. A click on the button at the same moment does call `job->Stop()`, and a
click after completion does not. What the destructor of the job does when the dialog is
destroyed is outside the two source files. -/
theorem window_close_does_not_stop :
    ((CalibrationConfigurationDialog.new.exec [DialogEvent.rejected]).closed = some false ∧
      (CalibrationConfigurationDialog.new.exec [DialogEvent.rejected]).completed = false ∧
      (CalibrationConfigurationDialog.new.exec [DialogEvent.rejected]).job_stopped = false) ∧
    ((CalibrationConfigurationDialog.new.exec
        [DialogEvent.status Status.Ready, DialogEvent.rejected]).completed = false ∧
      (CalibrationConfigurationDialog.new.exec
        [DialogEvent.status Status.Ready, DialogEvent.rejected]).job_stopped = false) ∧
    ((CalibrationConfigurationDialog.new.exec [DialogEvent.cancelClicked]).closed = some true ∧
      (CalibrationConfigurationDialog.new.exec [DialogEvent.cancelClicked]).job_stopped =
        true) ∧
    (CalibrationConfigurationDialog.new.exec
      [DialogEvent.data 100 50 1800 850, DialogEvent.cancelClicked]).job_stopped = false := by
  decide

/-- A report that reaches a stopped job changes neither the job nor the dialog. -/
theorem report_stopped (dialog : CalibrationConfigurationDialog) (p : Nat × Nat) :
    CalibrationSession.report ⟨dialog, JobStage.Stopped⟩ p = ⟨dialog, JobStage.Stopped⟩ := by
  simp [CalibrationSession.report, CalibrationConfigurationJob.onReport]

theorem reports_stopped (dialog : CalibrationConfigurationDialog)
    (points : List (Nat × Nat)) :
    points.foldl CalibrationSession.report ⟨dialog, JobStage.Stopped⟩ =
      ⟨dialog, JobStage.Stopped⟩ := by
  induction points with
  | nil => rfl
  | cons p rest ih => rw [List.foldl_cons, report_stopped, ih]

/-- C14: calling `Stop()` on the calibration session before it reaches `Completed` stops it;
whatever points the device reports afterwards, the job delivers no callback, so that the
dialog, its `completed` flag and its bounds included, stays as it was. The click on the
button of a dialog that is not completed is such a call. -/
theorem no_delivery_after_stop (dialog : CalibrationConfigurationDialog) (stage : JobStage)
    (points : List (Nat × Nat)) (hstage : stage ≠ JobStage.Completed) :
    CalibrationConfigurationJob.Stop stage = JobStage.Stopped ∧
      CalibrationConfigurationJob.run (CalibrationConfigurationJob.Stop stage) points = [] ∧
      (points.foldl CalibrationSession.report
        ⟨dialog, CalibrationConfigurationJob.Stop stage⟩).dialog = dialog ∧
      (dialog.completed = false →
        (CalibrationSession.cancelClicked ⟨dialog, stage⟩).job = JobStage.Stopped ∧
        (points.foldl CalibrationSession.report
          (CalibrationSession.cancelClicked ⟨dialog, stage⟩)).dialog =
          dialog.onCancelClicked) := by
  have hstop : CalibrationConfigurationJob.Stop stage = JobStage.Stopped := by
    cases stage <;> first | rfl | exact absurd rfl hstage
  refine ⟨hstop, ?_, ?_, ?_⟩
  · rw [hstop]
    exact run_finished _ _ (Or.inr rfl)
  · rw [hstop, reports_stopped]
  · intro hopen
    have hs : CalibrationSession.cancelClicked ⟨dialog, stage⟩ =
        ⟨dialog.onCancelClicked, JobStage.Stopped⟩ := by
      simp [CalibrationSession.cancelClicked, hopen, hstop]
    rw [hs, reports_stopped]
    exact ⟨rfl, rfl⟩

/-- C14 at a session stopped after its first point: the second point delivers nothing. -/
theorem no_delivery_after_stop_witness :
    JobStage.Stage1Completed 100 50 ≠ JobStage.Completed ∧
      (CalibrationConfigurationJob.Stop (JobStage.Stage1Completed 100 50) =
          JobStage.Stopped ∧
        CalibrationConfigurationJob.run
          (CalibrationConfigurationJob.Stop (JobStage.Stage1Completed 100 50))
          [(1800, 850)] = [] ∧
        ([(1800, 850)].foldl CalibrationSession.report
          ⟨CalibrationConfigurationDialog.new,
            CalibrationConfigurationJob.Stop (JobStage.Stage1Completed 100 50)⟩).dialog =
          CalibrationConfigurationDialog.new ∧
        (CalibrationConfigurationDialog.new.completed = false →
          (CalibrationSession.cancelClicked
            ⟨CalibrationConfigurationDialog.new, JobStage.Stage1Completed 100 50⟩).job =
            JobStage.Stopped ∧
          ([(1800, 850)].foldl CalibrationSession.report
            (CalibrationSession.cancelClicked
              ⟨CalibrationConfigurationDialog.new, JobStage.Stage1Completed 100 50⟩)).dialog =
            CalibrationConfigurationDialog.new.onCancelClicked)) :=
  ⟨by decide,
    no_delivery_after_stop CalibrationConfigurationDialog.new (JobStage.Stage1Completed 100 50)
      [(1800, 850)] (by decide)⟩

/-- C19, evaluated at a delivery of `(100, 50, 1800, 850)`: the completion callback queues no
call and returns the dialog with `completed` and the four bounds written, whereas the status
callback leaves the dialog as it is and queues its calls. -/
theorem completion_callback_writes_directly :
    ((CalibrationConfigurationDialog.new.dataCallback 100 50 1800 850).2 = [] ∧
      (CalibrationConfigurationDialog.new.dataCallback 100 50 1800 850).1 ≠
        CalibrationConfigurationDialog.new ∧
      (CalibrationConfigurationDialog.new.dataCallback 100 50 1800 850).1 =
        { CalibrationConfigurationDialog.new with
          completed := true, min_x := 100, min_y := 50, max_x := 1800, max_y := 850 }) ∧
    ((CalibrationConfigurationDialog.new.statusCallback Status.Completed).1 =
        CalibrationConfigurationDialog.new ∧
      (CalibrationConfigurationDialog.new.statusCallback Status.Completed).2 =
        [Invocation.UpdateLabelText "配置完成！", Invocation.UpdateButtonText "OK"]) := by
  decide

/-- The status callback never writes the dialog: for every status it returns the dialog
as it was, with at least one queued call. -/
theorem statusCallback_only_queues (dialog : CalibrationConfigurationDialog) (s : Status) :
    (dialog.statusCallback s).1 = dialog ∧ (dialog.statusCallback s).2 ≠ [] := by
  cases s <;> simp [CalibrationConfigurationDialog.statusCallback]

/-! ## Properties of the UDP test -/

/-- C15: `OnCemuhookUDPTest` disables the test button, gives it its in-progress label and
sets `udp_test_in_progress`; for either result `ShowUDPTestResult` clears
`udp_test_in_progress`, enables the button again and gives it back its idle label; the
success callback queues `ShowUDPTestResult(true)` and the failure callback
`ShowUDPTestResult(false)`, so that the delivery of either brings a started test back to
idle. -/
theorem udp_test_button_cycle (self : ConfigureMotionTouchUdp) (result : Bool) :
    (self.OnCemuhookUDPTest.udp_test_enabled = false ∧
      self.OnCemuhookUDPTest.udp_test_text = "测试中" ∧
      self.OnCemuhookUDPTest.udp_test_in_progress = true) ∧
    ((self.ShowUDPTestResult result).udp_test_in_progress = false ∧
      (self.ShowUDPTestResult result).udp_test_enabled = true ∧
      (self.ShowUDPTestResult result).udp_test_text = "测试") ∧
    (ConfigureMotionTouchUdp.successCallback = [UdpInvocation.ShowUDPTestResult true] ∧
      ConfigureMotionTouchUdp.failureCallback = [UdpInvocation.ShowUDPTestResult false]) ∧
    ((ConfigureMotionTouchUdp.successCallback.foldl ConfigureMotionTouchUdp.deliver
        self.OnCemuhookUDPTest).udp_test_in_progress = false ∧
      (ConfigureMotionTouchUdp.successCallback.foldl ConfigureMotionTouchUdp.deliver
        self.OnCemuhookUDPTest).udp_test_enabled = true ∧
      (ConfigureMotionTouchUdp.successCallback.foldl ConfigureMotionTouchUdp.deliver
        self.OnCemuhookUDPTest).udp_test_text = "测试" ∧
      (ConfigureMotionTouchUdp.failureCallback.foldl ConfigureMotionTouchUdp.deliver
        self.OnCemuhookUDPTest).udp_test_in_progress = false ∧
      (ConfigureMotionTouchUdp.failureCallback.foldl ConfigureMotionTouchUdp.deliver
        self.OnCemuhookUDPTest).udp_test_enabled = true ∧
      (ConfigureMotionTouchUdp.failureCallback.foldl ConfigureMotionTouchUdp.deliver
        self.OnCemuhookUDPTest).udp_test_text = "测试") := by
  refine ⟨⟨rfl, rfl, rfl⟩, ⟨rfl, rfl, rfl⟩, ⟨rfl, rfl⟩, ⟨rfl, rfl, rfl, rfl, rfl, rfl⟩⟩

/-! ## Properties of the install routines -/

/-- The three cases of the mapping of the registry's result. -/
theorem toInstallResult_cases (res : FileSys.InstallResult) :
    (res = FileSys.InstallResult.Success → toInstallResult res = InstallResult.Success) ∧
      (res = FileSys.InstallResult.OverwriteExisting →
        toInstallResult res = InstallResult.Overwrite) ∧
      (res ≠ FileSys.InstallResult.Success → res ≠ FileSys.InstallResult.OverwriteExisting →
        toInstallResult res = InstallResult.Failure) := by
  cases res <;> simp [toInstallResult]

/-- The end of `InstallNSPXCI` for an NSP whose status is `Success`: one call of
`InstallEntry`. -/
theorem InstallNSPXCI_install_ok {σ : Type} (env : Env σ) (nsp : NSP) (w : World σ)
    (hs : nsp.GetStatus = ResultStatus.Success) :
    InstallNSPXCI.install env nsp w =
      ⟨toInstallResult (env.InstallEntryNSP nsp true (qt_raw_copy env.wasCanceled) w).1,
        [GuiEvent.installEntryNSP nsp.path true],
        (env.InstallEntryNSP nsp true (qt_raw_copy env.wasCanceled) w).2⟩ := by
  unfold InstallNSPXCI.install
  rw [if_neg (by simp [hs])]

/-- The end of `InstallNSPXCI` for an NSP whose status is not `Success`. -/
theorem InstallNSPXCI_install_bad {σ : Type} (env : Env σ) (nsp : NSP) (w : World σ)
    (hs : nsp.GetStatus ≠ ResultStatus.Success) :
    InstallNSPXCI.install env nsp w = ⟨InstallResult.Failure, [], w⟩ := by
  unfold InstallNSPXCI.install
  rw [if_pos hs]

/-- C16: `InstallNSPXCI` and `InstallNCA` map the result of the registry in the same way.
When `InstallNSPXCI` has an NSP that passes its tests (opened from a file whose name ends in
`nsp` and not of extracted type, or taken from the secure partition of an XCI, with status
`Success`), it returns after exactly one call of `InstallEntry`, for that NSP, on the world
as it was, and leaves the world as that call left it. When `InstallNCA` has an NCA whose
status is `Success` or `ErrorMissingBKTRBaseRomFS` and the prompt was confirmed with one of
the options, it returns after the prompt and exactly one call of `InstallEntry`, for that
NCA and the title type computed from the chosen option, on the world as the prompt left it.
In both routines the value returned is `Success` when that call returned `Success`,
`Overwrite` when it returned `OverwriteExisting` and `Failure` when it returned anything
else. -/
theorem registry_result_mapping {σ : Type} (env : Env σ) (filename : String) (w : World σ) :
    (∀ nsp : NSP,
      ((endsWithCaseInsensitive filename "nsp" = true ∧ env.OpenNSP filename w.ext = nsp ∧
          nsp.IsExtractedType = false) ∨
        (endsWithCaseInsensitive filename "nsp" = false ∧
          env.OpenXCISecurePartitionNSP filename w.ext = some nsp)) →
      nsp.GetStatus = ResultStatus.Success →
      ∃ r, InstallNSPXCI env filename w = some r ∧
        r.events = [GuiEvent.installEntryNSP nsp.path true] ∧
        r.world = (env.InstallEntryNSP nsp true (qt_raw_copy env.wasCanceled) w).2 ∧
        ((env.InstallEntryNSP nsp true (qt_raw_copy env.wasCanceled) w).1 =
            FileSys.InstallResult.Success → r.result = InstallResult.Success) ∧
        ((env.InstallEntryNSP nsp true (qt_raw_copy env.wasCanceled) w).1 =
            FileSys.InstallResult.OverwriteExisting → r.result = InstallResult.Overwrite) ∧
        ((env.InstallEntryNSP nsp true (qt_raw_copy env.wasCanceled) w).1 ≠
            FileSys.InstallResult.Success →
          (env.InstallEntryNSP nsp true (qt_raw_copy env.wasCanceled) w).1 ≠
            FileSys.InstallResult.OverwriteExisting → r.result = InstallResult.Failure)) ∧
    (∀ (index : Int) (w1 : World σ),
      ((env.OpenNCA filename w.ext).GetStatus = ResultStatus.Success ∨
        (env.OpenNCA filename w.ext).GetStatus = ResultStatus.ErrorMissingBKTRBaseRomFS) →
      (env.getItem tt_options 5 w.ext).1.2 = true →
      indexOf tt_options (env.getItem tt_options 5 w.ext).1.1 ≠ -1 →
      index = (if indexOf tt_options (env.getItem tt_options 5 w.ext).1.1 ≥ 5 then
          toInt32 (indexOf tt_options (env.getItem tt_options 5 w.ext).1.1 +
            ((env.TitleType_Application : Int) - env.TitleType_FirmwarePackageB))
        else indexOf tt_options (env.getItem tt_options 5 w.ext).1.1) →
      w1 = ⟨(env.getItem tt_options 5 w.ext).2, w.polls, w.trace⟩ →
      (InstallNCA env filename w).events =
          [GuiEvent.promptTitleType,
            GuiEvent.installEntryNCA (decide (index ≥ (env.TitleType_Application : Int)))
              (env.OpenNCA filename w.ext).path (index % 256).toNat true] ∧
        (InstallNCA env filename w).world =
          (env.InstallEntryNCA (decide (index ≥ (env.TitleType_Application : Int)))
            (env.OpenNCA filename w.ext) (index % 256).toNat true
            (qt_raw_copy env.wasCanceled) w1).2 ∧
        ((env.InstallEntryNCA (decide (index ≥ (env.TitleType_Application : Int)))
            (env.OpenNCA filename w.ext) (index % 256).toNat true
            (qt_raw_copy env.wasCanceled) w1).1 = FileSys.InstallResult.Success →
          (InstallNCA env filename w).result = InstallResult.Success) ∧
        ((env.InstallEntryNCA (decide (index ≥ (env.TitleType_Application : Int)))
            (env.OpenNCA filename w.ext) (index % 256).toNat true
            (qt_raw_copy env.wasCanceled) w1).1 = FileSys.InstallResult.OverwriteExisting →
          (InstallNCA env filename w).result = InstallResult.Overwrite) ∧
        ((env.InstallEntryNCA (decide (index ≥ (env.TitleType_Application : Int)))
            (env.OpenNCA filename w.ext) (index % 256).toNat true
            (qt_raw_copy env.wasCanceled) w1).1 ≠ FileSys.InstallResult.Success →
          (env.InstallEntryNCA (decide (index ≥ (env.TitleType_Application : Int)))
            (env.OpenNCA filename w.ext) (index % 256).toNat true
            (qt_raw_copy env.wasCanceled) w1).1 ≠ FileSys.InstallResult.OverwriteExisting →
          (InstallNCA env filename w).result = InstallResult.Failure)) := by
  constructor
  · intro nsp hcond hs
    have h : InstallNSPXCI env filename w = some (InstallNSPXCI.install env nsp w) := by
      unfold InstallNSPXCI
      rcases hcond with ⟨hk, ho, hx⟩ | ⟨hk, ho⟩
      · subst ho
        simp only [hk, hx, if_true, Bool.false_eq_true, if_false]
      · simp only [hk, ho, Bool.false_eq_true, if_false]
    rw [InstallNSPXCI_install_ok env nsp w hs] at h
    exact ⟨_, h, rfl, rfl, toInstallResult_cases _⟩
  · intro index w1 hst hok hidx hindex hw1
    have hstat : ¬ ((env.OpenNCA filename w.ext).GetStatus ≠ ResultStatus.Success ∧
        (env.OpenNCA filename w.ext).GetStatus ≠ ResultStatus.ErrorMissingBKTRBaseRomFS) := by
      rintro ⟨h1, h2⟩
      rcases hst with h | h
      · exact h1 h
      · exact h2 h
    have hprompt : (!(env.getItem tt_options 5 w.ext).1.2 ||
        indexOf tt_options (env.getItem tt_options 5 w.ext).1.1 == -1) = false := by
      simp [hok, hidx]
    have h : InstallNCA env filename w =
        ⟨toInstallResult
            (env.InstallEntryNCA (decide (index ≥ (env.TitleType_Application : Int)))
              (env.OpenNCA filename w.ext) (index % 256).toNat true
              (qt_raw_copy env.wasCanceled) w1).1,
          [GuiEvent.promptTitleType,
            GuiEvent.installEntryNCA (decide (index ≥ (env.TitleType_Application : Int)))
              (env.OpenNCA filename w.ext).path (index % 256).toNat true],
          (env.InstallEntryNCA (decide (index ≥ (env.TitleType_Application : Int)))
            (env.OpenNCA filename w.ext) (index % 256).toNat true
            (qt_raw_copy env.wasCanceled) w1).2⟩ := by
      unfold InstallNCA
      simp only [if_neg hstat, hprompt, Bool.false_eq_true, if_false]
      rw [hindex, hw1]
    rw [h]
    exact ⟨rfl, rfl, toInstallResult_cases _⟩

/-- C16 at the sample collaborators: the NSP file, the XCI file and the NCA file of the
sample table pass the tests, and the prompt is confirmed with the option at index 5, which
gives the title type `0x80`. -/
theorem registry_result_mapping_witness :
    ((endsWithCaseInsensitive "/roms/a.nca" "nsp" = false ∧
        sampleQuietEnv.OpenXCISecurePartitionNSP "/roms/a.nca" sampleWorld.ext =
          some ⟨"/roms/a.nca", false, ResultStatus.Success⟩) ∧
      (sampleQuietEnv.OpenNCA "/roms/a.nca" sampleWorld.ext).GetStatus =
        ResultStatus.Success ∧
      (sampleQuietEnv.getItem tt_options 5 sampleWorld.ext).1.2 = true ∧
      indexOf tt_options (sampleQuietEnv.getItem tt_options 5 sampleWorld.ext).1.1 ≠ -1) ∧
    (∃ r, InstallNSPXCI sampleQuietEnv "/roms/a.nca" sampleWorld = some r ∧
      r.events = [GuiEvent.installEntryNSP "/roms/a.nca" true]) ∧
    (InstallNCA sampleQuietEnv "/roms/a.nca" sampleWorld).events =
      [GuiEvent.promptTitleType, GuiEvent.installEntryNCA true "/roms/a.nca" 0x80 true] :=
  ⟨⟨⟨by decide, by decide⟩, by decide, by decide, by decide⟩,
    (((registry_result_mapping sampleQuietEnv "/roms/a.nca" sampleWorld).1
      ⟨"/roms/a.nca", false, ResultStatus.Success⟩ (Or.inr ⟨by decide, by decide⟩) rfl).imp
      (fun _ h => ⟨h.1, h.2.1⟩)),
    ((registry_result_mapping sampleQuietEnv "/roms/a.nca" sampleWorld).2 0x80 sampleWorld
      (Or.inl (by decide)) (by decide) (by decide) (by decide) rfl).1⟩

/-- C17 refuted: for an XCI whose secure partition is an NSP of extracted type that reports
no error, `InstallNSPXCI` calls `InstallEntry` and, with the sample registry, returns
`Success`; the test of the extracted type is made for names ending in `nsp` only. -/
theorem extracted_xci_is_installed :
    (extractedEnv.OpenXCISecurePartitionNSP "/roms/a.xci" sampleWorld.ext).map
        NSP.IsExtractedType = some true ∧
      (InstallNSPXCI extractedEnv "/roms/a.xci" sampleWorld).map InstallReturn.events =
        some [GuiEvent.installEntryNSP "/roms/a.xci" true] ∧
      (InstallNSPXCI extractedEnv "/roms/a.xci" sampleWorld).map InstallReturn.result =
        some InstallResult.Success := by
  have hk : endsWithCaseInsensitive "/roms/a.xci" "nsp" = false := by decide
  have hx : extractedEnv.OpenXCISecurePartitionNSP "/roms/a.xci" sampleWorld.ext =
      some ⟨"/roms/a.xci", true, ResultStatus.Success⟩ := rfl
  have h : InstallNSPXCI extractedEnv "/roms/a.xci" sampleWorld =
      some ⟨toInstallResult (sampleInstall 0 (qt_raw_copy (fun _ => false)) sampleWorld).1,
        [GuiEvent.installEntryNSP "/roms/a.xci" true],
        (sampleInstall 0 (qt_raw_copy (fun _ => false)) sampleWorld).2⟩ := by
    unfold InstallNSPXCI
    simp only [hk, hx, Bool.false_eq_true, if_false]
    rw [InstallNSPXCI_install_ok _ _ _ rfl]
    rfl
  rw [h, hx, sampleInstall_quiet]
  exact ⟨rfl, rfl, rfl⟩

/-- C17 as amended: a malformed package that the routine can ask for its status is recorded
as failed and skipped without touching the registry. `InstallNSPXCI` returns `Failure` with
no event and an unchanged world when the name ends in `nsp` and the NSP is of extracted type,
when the name ends in `nsp` and the status of the NSP opened from the file is not `Success`,
and when the name does not end in `nsp`, the secure partition of the XCI gives an NSP and
the status of that NSP is not `Success`; `InstallNCA` does so, without a prompt, when the
status of the NCA is neither `Success` nor `ErrorMissingBKTRBaseRomFS`. -/
theorem malformed_package_skipped {σ : Type} (env : Env σ) (filename : String)
    (w : World σ) :
    (endsWithCaseInsensitive filename "nsp" = true →
        (env.OpenNSP filename w.ext).IsExtractedType = true →
        InstallNSPXCI env filename w = some ⟨InstallResult.Failure, [], w⟩) ∧
      (endsWithCaseInsensitive filename "nsp" = true →
        (env.OpenNSP filename w.ext).GetStatus ≠ ResultStatus.Success →
        InstallNSPXCI env filename w = some ⟨InstallResult.Failure, [], w⟩) ∧
      (∀ nsp : NSP, endsWithCaseInsensitive filename "nsp" = false →
        env.OpenXCISecurePartitionNSP filename w.ext = some nsp →
        nsp.GetStatus ≠ ResultStatus.Success →
        InstallNSPXCI env filename w = some ⟨InstallResult.Failure, [], w⟩) ∧
      ((env.OpenNCA filename w.ext).GetStatus ≠ ResultStatus.Success →
        (env.OpenNCA filename w.ext).GetStatus ≠ ResultStatus.ErrorMissingBKTRBaseRomFS →
        InstallNCA env filename w = ⟨InstallResult.Failure, [], w⟩) := by
  refine ⟨?_, ?_, ?_, ?_⟩
  · intro hk hx
    unfold InstallNSPXCI
    simp only [hk, hx, if_true]
  · intro hk hs
    unfold InstallNSPXCI
    simp only [hk, if_true]
    split_ifs
    · rfl
    · rw [InstallNSPXCI_install_bad env _ w hs]
  · intro nsp hk hx hs
    unfold InstallNSPXCI
    simp only [hk, hx, Bool.false_eq_true, if_false]
    rw [InstallNSPXCI_install_bad env _ w hs]
  · intro h1 h2
    simp [InstallNCA, h1, h2]

/-- C17 as amended, at the sample collaborators: an NSP of extracted type, an NSP file that
cannot be opened, an XCI file whose secure partition gives an NSP that reports an error, and
an NCA file that cannot be opened. -/
theorem malformed_package_skipped_witness :
    (endsWithCaseInsensitive "/roms/a.nsp" "nsp" = true ∧
      (extractedEnv.OpenNSP "/roms/a.nsp" sampleWorld.ext).IsExtractedType = true ∧
      InstallNSPXCI extractedEnv "/roms/a.nsp" sampleWorld =
        some ⟨InstallResult.Failure, [], sampleWorld⟩) ∧
    (endsWithCaseInsensitive "/roms/b.nsp" "nsp" = true ∧
      (sampleQuietEnv.OpenNSP "/roms/b.nsp" sampleWorld.ext).GetStatus ≠
        ResultStatus.Success ∧
      InstallNSPXCI sampleQuietEnv "/roms/b.nsp" sampleWorld =
        some ⟨InstallResult.Failure, [], sampleWorld⟩) ∧
    (endsWithCaseInsensitive "/roms/b.xci" "nsp" = false ∧
      sampleQuietEnv.OpenXCISecurePartitionNSP "/roms/b.xci" sampleWorld.ext =
        some ⟨"/roms/b.xci", false, ResultStatus.Error 1⟩ ∧
      (⟨"/roms/b.xci", false, ResultStatus.Error 1⟩ : NSP).GetStatus ≠
        ResultStatus.Success ∧
      InstallNSPXCI sampleQuietEnv "/roms/b.xci" sampleWorld =
        some ⟨InstallResult.Failure, [], sampleWorld⟩) ∧
    ((sampleQuietEnv.OpenNCA "/roms/b.nca" sampleWorld.ext).GetStatus ≠
        ResultStatus.Success ∧
      (sampleQuietEnv.OpenNCA "/roms/b.nca" sampleWorld.ext).GetStatus ≠
        ResultStatus.ErrorMissingBKTRBaseRomFS ∧
      InstallNCA sampleQuietEnv "/roms/b.nca" sampleWorld =
        ⟨InstallResult.Failure, [], sampleWorld⟩) :=
  ⟨⟨by decide, by decide,
      (malformed_package_skipped extractedEnv "/roms/a.nsp" sampleWorld).1 (by decide)
        (by decide)⟩,
    ⟨by decide, by decide,
      (malformed_package_skipped sampleQuietEnv "/roms/b.nsp" sampleWorld).2.1 (by decide)
        (by decide)⟩,
    ⟨by decide, by decide, by decide,
      (malformed_package_skipped sampleQuietEnv "/roms/b.xci" sampleWorld).2.2.1
        ⟨"/roms/b.xci", false, ResultStatus.Error 1⟩ (by decide)
        (by decide) (by decide)⟩,
    ⟨by decide, by decide,
      (malformed_package_skipped sampleQuietEnv "/roms/b.nca" sampleWorld).2.2.2 (by decide)
        (by decide)⟩⟩

theorem indexOf_eq_neg_one (items : List String) (item : String) :
    (indexOf items item == -1) = true ↔ item ∉ items := by
  unfold indexOf
  by_cases h : item ∈ items
  · simp only [h, if_true, not_true_eq_false, iff_false, beq_iff_eq]
    omega
  · simp [h]

/-- C18: for every NCA package with an acceptable status (`Success` or
`ErrorMissingBKTRBaseRomFS`), `InstallNCA` prompts for the title type exactly once, before
anything else; and if the prompt is not resolved (it is cancelled, or the item returned is
not one of the options) the result is `Failure`, a warning is shown and `InstallEntry` is
not called. -/
theorem title_type_prompted_once {σ : Type} (env : Env σ) (filename : String) (w : World σ)
    (hstatus : (env.OpenNCA filename w.ext).GetStatus = ResultStatus.Success ∨
      (env.OpenNCA filename w.ext).GetStatus = ResultStatus.ErrorMissingBKTRBaseRomFS) :
    prompts (InstallNCA env filename w).events = 1 ∧
      (InstallNCA env filename w).events.head? = some GuiEvent.promptTitleType ∧
      (((env.getItem tt_options 5 w.ext).1.2 = false ∨
          (env.getItem tt_options 5 w.ext).1.1 ∉ tt_options) →
        (InstallNCA env filename w).result = InstallResult.Failure ∧
        (InstallNCA env filename w).events =
          [GuiEvent.promptTitleType, GuiEvent.warnInvalidTitleType] ∧
        installEntries (InstallNCA env filename w).events = [] ∧
        (InstallNCA env filename w).world =
          ⟨(env.getItem tt_options 5 w.ext).2, w.polls, w.trace⟩) := by
  have hacc : ¬ ((env.OpenNCA filename w.ext).GetStatus ≠ ResultStatus.Success ∧
      (env.OpenNCA filename w.ext).GetStatus ≠ ResultStatus.ErrorMissingBKTRBaseRomFS) := by
    rcases hstatus with h | h <;> simp [h]
  by_cases hun : (!(env.getItem tt_options 5 w.ext).1.2 ||
      indexOf tt_options (env.getItem tt_options 5 w.ext).1.1 == -1) = true
  · have hev : InstallNCA env filename w =
        ⟨InstallResult.Failure, [GuiEvent.promptTitleType, GuiEvent.warnInvalidTitleType],
          ⟨(env.getItem tt_options 5 w.ext).2, w.polls, w.trace⟩⟩ := by
      unfold InstallNCA
      simp only [hacc, if_false, hun, if_true]
    rw [hev]
    exact ⟨by simp [prompts], rfl, fun _ => ⟨rfl, rfl, rfl, rfl⟩⟩
  · have hres : ¬ ((env.getItem tt_options 5 w.ext).1.2 = false ∨
        (env.getItem tt_options 5 w.ext).1.1 ∉ tt_options) := by
      intro h
      apply hun
      rcases h with h | h
      · simp [h]
      · simp [(indexOf_eq_neg_one _ _).mpr h]
    unfold InstallNCA
    simp only [hacc, if_false, hun]
    exact ⟨by simp [prompts], rfl, fun h => absurd h hres⟩

/-- C18 at the sample file `/roms/a.nca` with a user who leaves the prompt with an item that
is not among the options. -/
theorem title_type_prompted_once_witness :
    ((undecidedEnv.OpenNCA "/roms/a.nca" sampleWorld.ext).GetStatus = ResultStatus.Success ∨
      (undecidedEnv.OpenNCA "/roms/a.nca" sampleWorld.ext).GetStatus =
        ResultStatus.ErrorMissingBKTRBaseRomFS) ∧
    (prompts (InstallNCA undecidedEnv "/roms/a.nca" sampleWorld).events = 1 ∧
      (InstallNCA undecidedEnv "/roms/a.nca" sampleWorld).events.head? =
        some GuiEvent.promptTitleType ∧
      (((undecidedEnv.getItem tt_options 5 sampleWorld.ext).1.2 = false ∨
          (undecidedEnv.getItem tt_options 5 sampleWorld.ext).1.1 ∉ tt_options) →
        (InstallNCA undecidedEnv "/roms/a.nca" sampleWorld).result = InstallResult.Failure ∧
        (InstallNCA undecidedEnv "/roms/a.nca" sampleWorld).events =
          [GuiEvent.promptTitleType, GuiEvent.warnInvalidTitleType] ∧
        installEntries (InstallNCA undecidedEnv "/roms/a.nca" sampleWorld).events = [] ∧
        (InstallNCA undecidedEnv "/roms/a.nca" sampleWorld).world =
          ⟨(undecidedEnv.getItem tt_options 5 sampleWorld.ext).2, sampleWorld.polls,
            sampleWorld.trace⟩)) ∧
    ((undecidedEnv.getItem tt_options 5 sampleWorld.ext).1.2 = false ∨
      (undecidedEnv.getItem tt_options 5 sampleWorld.ext).1.1 ∉ tt_options) :=
  ⟨Or.inl (by decide),
    title_type_prompted_once undecidedEnv "/roms/a.nca" sampleWorld (Or.inl (by decide)),
    Or.inr (by decide)⟩

/-! ## The copy of a file without fault -/

theorem chunk_take (bytes c : List Nat) (i : Nat) (hlen : c.length = bytes.length)
    (htake : c.take i = bytes.take i) :
    (c.take i ++ (bytes.drop i).take 0x1000 ++
        c.drop (i + ((bytes.drop i).take 0x1000).length)).take (i + 0x1000) =
      bytes.take (i + 0x1000) := by
  rw [show bytes.take (i + 0x1000) = bytes.take i ++ (bytes.drop i).take 0x1000 from
    List.take_add _ _ _, htake, List.take_append_eq_append_take]
  have h1 : (bytes.take i ++ (bytes.drop i).take 0x1000).length ≤ i + 0x1000 := by
    simp
    omega
  rw [List.take_of_length_le h1]
  have h2 : (c.drop (i + ((bytes.drop i).take 0x1000).length)).take
      (i + 0x1000 - (bytes.take i ++ (bytes.drop i).take 0x1000).length) = [] := by
    by_cases h : bytes.length - i < 0x1000
    · have hnil : c.drop (i + ((bytes.drop i).take 0x1000).length) = [] := by
        apply List.drop_eq_nil_of_le
        simp
        omega
      rw [hnil]
      simp
    · have h0 : i + 0x1000 - (bytes.take i ++ (bytes.drop i).take 0x1000).length = 0 := by
        simp
        omega
      rw [h0]
      simp
  rw [h2]
  simp

theorem chunk_length (bytes c : List Nat) (i : Nat) (hlen : c.length = bytes.length)
    (hi : i < bytes.length) :
    (c.take i ++ (bytes.drop i).take 0x1000 ++
        c.drop (i + ((bytes.drop i).take 0x1000).length)).length = bytes.length := by
  simp
  omega

/-- One chunk written to a destination that stores what it is given brings the first
`i + 0x1000` bytes of the destination in line with the source. -/
theorem copyChunk_contents {σ : Type} (bytes : List Nat) (dest : DestFile σ)
    (contents : σ → List Nat)
    (hwrite : ∀ data off s, off + data.length ≤ (contents s).length →
      (dest.Write data off s).1 = data.length ∧
      contents (dest.Write data off s).2 =
        (contents s).take off ++ data ++ (contents s).drop (off + data.length))
    (i : Nat) (w : World σ) (hlen : (contents w.ext).length = bytes.length)
    (hi : i < bytes.length) (htake : (contents w.ext).take i = bytes.take i) :
    (contents (copyChunk (memSrc bytes) dest i w).ext).length = bytes.length ∧
      (contents (copyChunk (memSrc bytes) dest i w).ext).take (i + 0x1000) =
        bytes.take (i + 0x1000) := by
  have hext : (copyChunk (memSrc bytes) dest i w).ext =
      (dest.Write ((bytes.drop i).take 0x1000) i w.ext).2 := rfl
  have hin : i + ((bytes.drop i).take 0x1000).length ≤ (contents w.ext).length := by
    rw [hlen, List.length_take, List.length_drop]
    omega
  rw [hext, (hwrite _ _ _ hin).2]
  exact ⟨chunk_length bytes _ i hlen hi, chunk_take bytes _ i hlen htake⟩

/-- After `k` chunks from index `i` the destination has the length of the source and agrees
with it on the first `i + k * 0x1000` bytes. -/
theorem copyChunks_contents {σ : Type} (bytes : List Nat) (dest : DestFile σ)
    (contents : σ → List Nat)
    (hwrite : ∀ data off s, off + data.length ≤ (contents s).length →
      (dest.Write data off s).1 = data.length ∧
      contents (dest.Write data off s).2 =
        (contents s).take off ++ data ++ (contents s).drop (off + data.length))
    (k i : Nat) (w : World σ) (hlen : (contents w.ext).length = bytes.length)
    (htake : (contents w.ext).take i = bytes.take i)
    (hk : k = 0 ∨ i + (k - 1) * 0x1000 < bytes.length) :
    (contents (copyChunks (memSrc bytes) dest k i w).ext).length = bytes.length ∧
      (contents (copyChunks (memSrc bytes) dest k i w).ext).take (i + k * 0x1000) =
        bytes.take (i + k * 0x1000) := by
  induction k generalizing i w with
  | zero =>
    rw [copyChunks, Nat.zero_mul, Nat.add_zero]
    exact ⟨hlen, htake⟩
  | succ k ih =>
    have hi : i < bytes.length := by
      rcases hk with hk | hk
      · omega
      · omega
    obtain ⟨h1, h2⟩ := copyChunk_contents bytes dest contents hwrite i w hlen hi htake
    have hk2 : k = 0 ∨ i + 0x1000 + (k - 1) * 0x1000 < bytes.length := by
      rcases hk with hk | hk
      · omega
      · rcases Nat.eq_zero_or_pos k with h0 | h0
        · exact Or.inl h0
        · right
          have : k + 1 - 1 = (k - 1) + 1 := by omega
          rw [this] at hk
          omega
    have h3 := ih (i + 0x1000) (copyChunk (memSrc bytes) dest i w) h1 h2 hk2
    rw [copyChunks, show i + (k + 1) * 0x1000 = i + 0x1000 + k * 0x1000 by omega]
    exact h3

/-- C20, counterexample: a source of three bytes and a destination of two bytes that refuses
to change its length. Cancellation is never requested, every read returns the bytes of its
window and every write stores all its bytes, yet the copy returns `false` after the refused
`Resize`, writes nothing, and the destination keeps its two bytes. -/
theorem refused_resize_stops_honest_copy :
    (∀ len off, (memSrc [1, 2, 3]).Read len off = ([1, 2, 3].drop off).take len) ∧
      (∀ data off bytes, (fixedDest.Write data off bytes).1 = data.length) ∧
      (qt_raw_copy (fun _ => false) (some (memSrc [1, 2, 3])) (some fixedDest) 0x1000
        ⟨[0, 0], 0, []⟩).1 = false ∧
      (qt_raw_copy (fun _ => false) (some (memSrc [1, 2, 3])) (some fixedDest) 0x1000
        ⟨[0, 0], 0, []⟩).2.ext = [0, 0] ∧
      writes (qt_raw_copy (fun _ => false) (some (memSrc [1, 2, 3])) (some fixedDest) 0x1000
        ⟨[0, 0], 0, []⟩).2.trace = [] :=
  ⟨fun _ _ => rfl, fun _ _ _ => rfl, rfl, rfl, rfl⟩

/-- C20 as amended: for every source that returns the bytes of the window asked for and every
destination whose first `Resize` succeeds and gives it the length of the source, and whose
in-range writes store all their bytes in place, when the cancellation flag reads clear before
every chunk the copy returns `true`, leaves the destination with exactly the bytes of the
source, writes chunk `j` of `0x1000` bytes at offset `j * 0x1000` for every
`j < ⌈size / 0x1000⌉` and nothing else, and does the same for every value of `block_size`. -/
theorem honest_copy_is_faithful {σ : Type} (wasCanceled : Nat → Bool) (bytes : List Nat)
    (dest : DestFile σ) (contents : σ → List Nat) (block_size : Nat) (w : World σ)
    (hresize : (dest.Resize bytes.length w.ext).1 = true ∧
      (contents (dest.Resize bytes.length w.ext).2).length = bytes.length)
    (hwrite : ∀ data off s, off + data.length ≤ (contents s).length →
      (dest.Write data off s).1 = data.length ∧
      contents (dest.Write data off s).2 =
        (contents s).take off ++ data ++ (contents s).drop (off + data.length))
    (hclear : ∀ k, k * 0x1000 < bytes.length → wasCanceled (w.polls + k) = false) :
    (qt_raw_copy wasCanceled (some (memSrc bytes)) (some dest) block_size w).1 = true ∧
      contents (qt_raw_copy wasCanceled (some (memSrc bytes)) (some dest) block_size w).2.ext =
        bytes ∧
      writes (qt_raw_copy wasCanceled (some (memSrc bytes)) (some dest) block_size w).2.trace =
        writes w.trace ++
          (List.range ((bytes.length + 0xFFF) / 0x1000)).map
            (fun j => (j * 0x1000, (bytes.drop (j * 0x1000)).take 0x1000)) ∧
      ∀ other_block_size,
        qt_raw_copy wasCanceled (some (memSrc bytes)) (some dest) other_block_size w =
          qt_raw_copy wasCanceled (some (memSrc bytes)) (some dest) block_size w := by
  have hcopy := qt_raw_copy_clear wasCanceled (memSrc bytes) dest block_size w hresize.1 hclear
  have hsize : (memSrc bytes).GetSize = bytes.length := rfl
  rw [hsize] at hcopy
  rw [hcopy]
  refine ⟨rfl, ?_, ?_, ?_⟩
  · have hk : (bytes.length + 0xFFF) / 0x1000 = 0 ∨
        0 + ((bytes.length + 0xFFF) / 0x1000 - 1) * 0x1000 < bytes.length := by
      omega
    obtain ⟨h1, h2⟩ := copyChunks_contents bytes dest contents hwrite
      ((bytes.length + 0xFFF) / 0x1000) 0
      ⟨(dest.Resize bytes.length w.ext).2, w.polls,
        w.trace ++ [CopyEvent.resize bytes.length true]⟩ hresize.2 rfl hk
    have h3 : bytes.length ≤ 0 + (bytes.length + 0xFFF) / 0x1000 * 0x1000 := by
      omega
    rw [List.take_of_length_le h3, List.take_of_length_le (by rw [h1]; exact h3)] at h2
    exact h2
  · rw [copyChunks_writes, writes_append]
    simp [writes, memSrc]
  · intro other_block_size
    rw [← hcopy]
    rfl

/-- C20 as amended, at a source of three bytes copied over a destination in memory that
held five other bytes: the copy returns `true` and the destination holds the three bytes. -/
theorem honest_copy_is_faithful_witness :
    ((memDest.Resize [1, 2, 3].length [9, 9, 9, 9, 9]).1 = true ∧
        (memDest.Resize [1, 2, 3].length [9, 9, 9, 9, 9]).2.length = [1, 2, 3].length) ∧
      (qt_raw_copy (fun _ => false) (some (memSrc [1, 2, 3])) (some memDest) 0x1000
        ⟨[9, 9, 9, 9, 9], 0, []⟩).1 = true ∧
      (qt_raw_copy (fun _ => false) (some (memSrc [1, 2, 3])) (some memDest) 0x1000
        ⟨[9, 9, 9, 9, 9], 0, []⟩).2.ext = [1, 2, 3] ∧
      writes (qt_raw_copy (fun _ => false) (some (memSrc [1, 2, 3])) (some memDest) 0x1000
        ⟨[9, 9, 9, 9, 9], 0, []⟩).2.trace = [(0, [1, 2, 3])] := by
  have h := honest_copy_is_faithful (fun _ => false) [1, 2, 3] memDest id 0x1000
    ⟨[9, 9, 9, 9, 9], 0, []⟩ ⟨rfl, rfl⟩
    (by
      intro data off s hoff
      refine ⟨rfl, ?_⟩
      have h0 : off - s.length = 0 := by
        have : off + data.length ≤ s.length := hoff
        omega
      simp only [memDest, id, h0, List.replicate_zero, List.append_nil])
    (fun _ _ => rfl)
  exact ⟨⟨rfl, rfl⟩, h.1, h.2.1, h.2.2.1⟩

/-! ## The kind of a package -/

/-- The sample XCI `/roms/game.XCI`, which is not in the table: its secure partition gives
an NSP that reports an error, and `InstallNSPXCI` returns `Failure`. -/
theorem sample_game_xci :
    InstallNSPXCI sampleQuietEnv "/roms/game.XCI" sampleWorld =
      some ⟨InstallResult.Failure, [], sampleWorld⟩ := by
  have hk : endsWithCaseInsensitive "/roms/game.XCI" "nsp" = false := by decide
  have hx : sampleQuietEnv.OpenXCISecurePartitionNSP "/roms/game.XCI" sampleWorld.ext =
      some ⟨"/roms/game.XCI", false, ResultStatus.Error 1⟩ := by decide
  unfold InstallNSPXCI
  simp only [hk, hx, Bool.false_eq_true, if_false]
  rw [InstallNSPXCI_install_bad _ _ _ (by decide)]

/-- C21: `OnMenuInstallToNAND` determines the kind of a package from the name of the file.
In a turn of its loop (there is none once the run has ended at the null dereference) the
file is handed to `InstallNSPXCI` when its name ends, without regard to case, in `xci` or in
`nsp`, and to `InstallNCA` otherwise, and the outcome recorded is the result of that routine;
when `InstallNSPXCI` does not return, the run ends after its call. Within `InstallNSPXCI` a
name ending in `nsp` is opened as an NSP, whatever the XCI reader would give, and any other
name is opened as an XCI whose secure-partition NSP, when there is one, is tested and
installed, whatever the NSP reader would give; without one the routine does not return. -/
theorem package_kind_from_name {σ : Type} (env : Env σ) (b : Batch σ) (file : String)
    (w : World σ) :
    (b.crashed = true → installFile env b file = b) ∧
      ((endsWithCaseInsensitive file "xci" = true ∨
          endsWithCaseInsensitive file "nsp" = true) → b.crashed = false →
        (∀ r, InstallNSPXCI env file b.world = some r →
          (installFile env b file).events =
            b.events ++
              [GuiEvent.setWindowTitle b.remaining, GuiEvent.setLabelText (fileName file),
                GuiEvent.callInstallNSPXCI file] ++
              r.events ++ [GuiEvent.recordOutcome r.result (fileName file)] ∧
          (installFile env b file).world = r.world) ∧
        (InstallNSPXCI env file b.world = none →
          (installFile env b file).events =
            b.events ++
              [GuiEvent.setWindowTitle b.remaining, GuiEvent.setLabelText (fileName file),
                GuiEvent.callInstallNSPXCI file, GuiEvent.nullDereference] ∧
          (installFile env b file).world = b.world)) ∧
      (¬ (endsWithCaseInsensitive file "xci" = true ∨
          endsWithCaseInsensitive file "nsp" = true) → b.crashed = false →
        (installFile env b file).events =
          b.events ++
            [GuiEvent.setWindowTitle b.remaining, GuiEvent.setLabelText (fileName file),
              GuiEvent.callInstallNCA file] ++
            (InstallNCA env file b.world).events ++
            [GuiEvent.recordOutcome (InstallNCA env file b.world).result (fileName file)] ∧
        (installFile env b file).world = (InstallNCA env file b.world).world) ∧
      (endsWithCaseInsensitive file "nsp" = true →
        (∀ other, InstallNSPXCI { env with OpenXCISecurePartitionNSP := other } file w =
          InstallNSPXCI env file w) ∧
        ((env.OpenNSP file w.ext).IsExtractedType = false →
          (env.OpenNSP file w.ext).GetStatus = ResultStatus.Success →
          InstallNSPXCI env file w =
            some ⟨toInstallResult
                (env.InstallEntryNSP (env.OpenNSP file w.ext) true
                  (qt_raw_copy env.wasCanceled) w).1,
              [GuiEvent.installEntryNSP (env.OpenNSP file w.ext).path true],
              (env.InstallEntryNSP (env.OpenNSP file w.ext) true
                (qt_raw_copy env.wasCanceled) w).2⟩)) ∧
      (endsWithCaseInsensitive file "nsp" = false →
        (∀ other, InstallNSPXCI { env with OpenNSP := other } file w =
          InstallNSPXCI env file w) ∧
        (∀ nsp : NSP, env.OpenXCISecurePartitionNSP file w.ext = some nsp →
          nsp.GetStatus = ResultStatus.Success →
          InstallNSPXCI env file w =
            some ⟨toInstallResult
                (env.InstallEntryNSP nsp true (qt_raw_copy env.wasCanceled) w).1,
              [GuiEvent.installEntryNSP nsp.path true],
              (env.InstallEntryNSP nsp true (qt_raw_copy env.wasCanceled) w).2⟩) ∧
        (env.OpenXCISecurePartitionNSP file w.ext = none →
          InstallNSPXCI env file w = none)) := by
  refine ⟨fun hb => installFile_of_crashed env b file hb, ?_, ?_, ?_, ?_⟩
  · intro h hb
    have hc : (endsWithCaseInsensitive file "xci" || endsWithCaseInsensitive file "nsp") =
        true := by
      rcases h with h | h <;> simp [h]
    refine ⟨fun r hr => ?_, fun hr => ?_⟩
    · rw [installFile_eq env b file r (by rw [if_pos hc, hr]) hb]
      simp [hc]
    · rw [installFile_crash env b file hc hr hb]
      simp
  · intro h hb
    have hc : ¬ (endsWithCaseInsensitive file "xci" || endsWithCaseInsensitive file "nsp") =
        true := by
      intro hc
      apply h
      simpa using hc
    rw [installFile_eq env b file (InstallNCA env file b.world) (by rw [if_neg hc]) hb]
    simp [hc]
  · intro h
    refine ⟨fun other => ?_, fun hx hs => ?_⟩
    · unfold InstallNSPXCI
      simp only [h, if_true]
      rfl
    · unfold InstallNSPXCI
      simp only [h, hx, if_true, Bool.false_eq_true, if_false]
      rw [InstallNSPXCI_install_ok env _ w hs]
  · intro h
    refine ⟨fun other => ?_, fun nsp hx hs => ?_, fun hx => ?_⟩
    · unfold InstallNSPXCI
      simp only [h, Bool.false_eq_true, if_false]
      rfl
    · unfold InstallNSPXCI
      simp only [h, hx, Bool.false_eq_true, if_false]
      rw [InstallNSPXCI_install_ok env _ w hs]
    · unfold InstallNSPXCI
      simp only [h, hx, Bool.false_eq_true, if_false]

/-- C21 at a batch about to install `/roms/game.XCI`: the name ends in `xci` without regard
to case, so the file goes to `InstallNSPXCI`, whose result `Failure` is recorded. -/
theorem package_kind_from_name_witness :
    ((endsWithCaseInsensitive "/roms/game.XCI" "xci" = true ∨
        endsWithCaseInsensitive "/roms/game.XCI" "nsp" = true) ∧
      (⟨1, [], [], [], [], sampleWorld⟩ : Batch Nat).crashed = false ∧
      InstallNSPXCI sampleQuietEnv "/roms/game.XCI" sampleWorld =
        some ⟨InstallResult.Failure, [], sampleWorld⟩) ∧
      (installFile sampleQuietEnv ⟨1, [], [], [], [], sampleWorld⟩ "/roms/game.XCI").events =
        [] ++
          [GuiEvent.setWindowTitle 1, GuiEvent.setLabelText (fileName "/roms/game.XCI"),
            GuiEvent.callInstallNSPXCI "/roms/game.XCI"] ++
          [] ++ [GuiEvent.recordOutcome InstallResult.Failure (fileName "/roms/game.XCI")] :=
  ⟨⟨Or.inl (by decide), rfl, sample_game_xci⟩,
    ((((package_kind_from_name sampleQuietEnv ⟨1, [], [], [], [], sampleWorld⟩
      "/roms/game.XCI" sampleWorld).2.1 (Or.inl (by decide)) rfl).1
        ⟨InstallResult.Failure, [], sampleWorld⟩ sample_game_xci).1)⟩

/-! ## The progress of a RomFS dump -/

/-- A file loop that succeeds advances the dialog once per file. -/
theorem RomFSRawCopy_files_advances {σ D F : Type} (env : DumpEnv σ D F) (dest : D)
    (block_size : Nat) (files : List String) (w : DumpWorld σ)
    (h : (RomFSRawCopy.files env dest block_size files w).1 = true) :
    (RomFSRawCopy.files env dest block_size files w).2.advances =
      w.advances + files.length := by
  induction files generalizing w with
  | nil => rfl
  | cons file rest ih =>
    rw [RomFSRawCopy.files] at h ⊢
    split_ifs at h ⊢ with h1 h2
    rw [ih _ h]
    simp only [List.length_cons]
    omega

mutual
/-- A copy of a directory that succeeds advances the dialog as often as
`CalculateRomFSEntrySize` counts. -/
theorem RomFSRawCopy_dir_advances {σ D F : Type} (env : DumpEnv σ D F) (block_size : Nat)
    (full : Bool) :
    ∀ (src : VfsDir) (dest : Option D) (w : DumpWorld σ),
      (RomFSRawCopy.dir env block_size full src dest w).1 = true →
      (RomFSRawCopy.dir env block_size full src dest w).2.advances =
        w.advances + CalculateRomFSEntrySize src full
  | VfsDir.mk _ _ _ _, none, w, h => by
    rw [RomFSRawCopy.dir] at h
    exact absurd h (by simp)
  | VfsDir.mk _ readable files subdirs, some dest, w, h => by
    rw [RomFSRawCopy.dir] at h ⊢
    rw [CalculateRomFSEntrySize]
    by_cases h1 : (!readable || !env.IsWritable dest w.fs) = true
    · rw [if_pos h1] at h
      exact absurd h (by simp)
    · rw [if_neg h1] at h ⊢
      by_cases h2 : env.wasCanceled w.polls = true
      · rw [if_pos h2] at h
        exact absurd h (by simp)
      · rw [if_neg h2] at h ⊢
        cases full with
        | false =>
          simp only [Bool.false_eq_true, if_false, Bool.not_true] at h ⊢
          rw [RomFSRawCopy_subdirs_advances env block_size false dest subdirs _ h]
          simp
        | true =>
          simp only [if_true] at h ⊢
          by_cases h3 : (RomFSRawCopy.files env dest block_size files
              ⟨w.fs, w.polls + 1, w.advances⟩).1 = true
          · simp only [h3, Bool.not_true, Bool.false_eq_true, if_false] at h ⊢
            rw [RomFSRawCopy_subdirs_advances env block_size true dest subdirs _ h,
              RomFSRawCopy_files_advances env dest block_size files _ h3]
            simp only []
            omega
          · simp only [h3, Bool.not_false, if_true] at h
            simp at h
/-- A loop over subdirectories that succeeds advances the dialog once per subdirectory, on
top of what the copies of the subdirectories do. -/
theorem RomFSRawCopy_subdirs_advances {σ D F : Type} (env : DumpEnv σ D F) (block_size : Nat)
    (full : Bool) (dest : D) :
    ∀ (subdirs : List VfsDir) (w : DumpWorld σ),
      (RomFSRawCopy.subdirs env block_size full dest subdirs w).1 = true →
      (RomFSRawCopy.subdirs env block_size full dest subdirs w).2.advances =
        w.advances + CalculateRomFSEntrySize.subdirs subdirs full
  | [], w, _ => by
    simp [RomFSRawCopy.subdirs, CalculateRomFSEntrySize.subdirs]
  | dir :: rest, w, h => by
    rw [RomFSRawCopy.subdirs] at h ⊢
    rw [CalculateRomFSEntrySize.subdirs]
    split_ifs at h ⊢ with h1 h2
    rw [RomFSRawCopy_subdirs_advances env block_size full dest rest _ h]
    have := RomFSRawCopy_dir_advances env block_size full dir _ _ (by simpa using h1)
    simp only [this]
    omega
end

mutual
/-- The count of `CalculateRomFSEntrySize` is the number of descendant subdirectories, plus
the number of all files when the dump is full. -/
theorem CalculateRomFSEntrySize_eq (full : Bool) :
    ∀ dir : VfsDir, CalculateRomFSEntrySize dir full =
      dir.descendants + (if full then dir.allFiles else 0)
  | VfsDir.mk _ _ files subdirs => by
    rw [CalculateRomFSEntrySize, VfsDir.descendants, VfsDir.allFiles,
      CalculateRomFSEntrySize_subdirs_eq full subdirs]
    cases full <;> simp
    omega
theorem CalculateRomFSEntrySize_subdirs_eq (full : Bool) :
    ∀ subdirs : List VfsDir, CalculateRomFSEntrySize.subdirs subdirs full =
      VfsDir.descendants.list subdirs + (if full then VfsDir.allFiles.list subdirs else 0)
  | [] => by
    simp [CalculateRomFSEntrySize.subdirs, VfsDir.descendants.list, VfsDir.allFiles.list]
  | dir :: rest => by
    rw [CalculateRomFSEntrySize.subdirs, VfsDir.descendants.list, VfsDir.allFiles.list,
      CalculateRomFSEntrySize_eq full dir, CalculateRomFSEntrySize_subdirs_eq full rest]
    cases full <;> simp
    omega
end

/-- C22: for every directory tree, every destination and either dump mode, a run of
`RomFSRawCopy` that returns `true` has advanced the progress dialog exactly
`CalculateRomFSEntrySize(tree, full)` times, and that number is one per descendant
subdirectory, plus one per file of every directory when `full` is set. -/
theorem dump_advances_entry_size {σ D F : Type} (env : DumpEnv σ D F) (src : VfsDir)
    (dest : Option D) (block_size : Nat) (full : Bool) (w : DumpWorld σ)
    (h : (RomFSRawCopy env (some src) dest block_size full w).1 = true) :
    (RomFSRawCopy env (some src) dest block_size full w).2.advances =
        w.advances + CalculateRomFSEntrySize src full ∧
      CalculateRomFSEntrySize src full = progressUnits src full :=
  ⟨RomFSRawCopy_dir_advances env block_size full src dest w h,
    CalculateRomFSEntrySize_eq full src⟩

/-- C22 at a tree of two subdirectories and three files, dumped in full without a
cancellation and without a failure: the dialog is advanced five times. -/
theorem dump_advances_entry_size_witness :
    (RomFSRawCopy (sampleDumpEnv (fun _ => false)) (some sampleTree) (some ()) 0x400000 true
        ⟨0, 0, 0⟩).1 = true ∧
      (RomFSRawCopy (sampleDumpEnv (fun _ => false)) (some sampleTree) (some ()) 0x400000 true
        ⟨0, 0, 0⟩).2.advances = 0 + CalculateRomFSEntrySize sampleTree true ∧
      CalculateRomFSEntrySize sampleTree true = progressUnits sampleTree true ∧
      CalculateRomFSEntrySize sampleTree true = 5 ∧
      (RomFSRawCopy (sampleDumpEnv (fun _ => false)) (some sampleTree) (some ()) 0x400000 false
        ⟨0, 0, 0⟩).2.advances = 2 :=
  ⟨by decide,
    (dump_advances_entry_size (sampleDumpEnv (fun _ => false)) sampleTree (some ()) 0x400000
      true ⟨0, 0, 0⟩ (by decide)).1,
    (dump_advances_entry_size (sampleDumpEnv (fun _ => false)) sampleTree (some ()) 0x400000
      true ⟨0, 0, 0⟩ (by decide)).2,
    by decide, by decide⟩

/-! ## Saving the settings of the motion and touch dialog -/

/-- C23, evaluated at a dialog whose touch provider is `cemuhookudp` and whose motion
provider is `motion_emu`, with bounds `(10, 20, 30, 40)`, when a moved-from string is empty:
`ApplyConfiguration` saves the two engine names only, neither the bounds nor the
sensitivity, and a later `SetConfiguration` reads the defaults `(100, 50, 1800, 850)` instead
of the bounds of the dialog. Had the strings kept their content, the four bounds would have
been saved and read back. -/
theorem moved_engine_drops_bounds :
    ((sampleForm.ApplyConfiguration (fun _ => "") sampleValues).1.touch_device =
        [("engine", ParamValue.str "cemuhookudp")] ∧
      (sampleForm.ApplyConfiguration (fun _ => "") sampleValues).1.motion_device =
        [("engine", ParamValue.str "motion_emu")] ∧
      (sampleForm.ApplyConfiguration (fun _ => "") sampleValues).2 =
        [FormEvent.ReloadInputDevices, FormEvent.accept]) ∧
    ((sampleForm.SetConfiguration
        (sampleForm.ApplyConfiguration (fun _ => "") sampleValues).1).min_x = 100 ∧
      (sampleForm.SetConfiguration
        (sampleForm.ApplyConfiguration (fun _ => "") sampleValues).1).min_y = 50 ∧
      (sampleForm.SetConfiguration
        (sampleForm.ApplyConfiguration (fun _ => "") sampleValues).1).max_x = 1800 ∧
      (sampleForm.SetConfiguration
        (sampleForm.ApplyConfiguration (fun _ => "") sampleValues).1).max_y = 850 ∧
      (sampleForm.SetConfiguration
        (sampleForm.ApplyConfiguration (fun _ => "") sampleValues).1).touch_provider = 1) ∧
    ((sampleForm.SetConfiguration
        (sampleForm.ApplyConfiguration (fun s => s) sampleValues).1).min_x = 10 ∧
      (sampleForm.SetConfiguration
        (sampleForm.ApplyConfiguration (fun s => s) sampleValues).1).min_y = 20 ∧
      (sampleForm.SetConfiguration
        (sampleForm.ApplyConfiguration (fun s => s) sampleValues).1).max_x = 30 ∧
      (sampleForm.SetConfiguration
        (sampleForm.ApplyConfiguration (fun s => s) sampleValues).1).max_y = 40) := by
  decide

/-- C26: `CanCloseDialog` returns `false` exactly when `udp_test_in_progress` is set; in that
case `ApplyConfiguration` shows the warning and leaves every setting as it was, does not
reload the input devices and does not accept the dialog, and otherwise it does both. -/
theorem apply_blocked_during_udp_test (moved : String → String)
    (self : ConfigureMotionTouchForm) (values : SettingsValues) :
    (self.CanCloseDialog.1 = false ↔ self.udp_test_in_progress = true) ∧
      (self.udp_test_in_progress = true →
        self.ApplyConfiguration moved values = (values, [FormEvent.warning])) ∧
      (self.udp_test_in_progress = false →
        (self.ApplyConfiguration moved values).2 =
          [FormEvent.ReloadInputDevices, FormEvent.accept]) := by
  refine ⟨?_, ?_, ?_⟩
  · cases h : self.udp_test_in_progress <;>
      simp [ConfigureMotionTouchForm.CanCloseDialog, h]
  · intro h
    simp [ConfigureMotionTouchForm.ApplyConfiguration,
      ConfigureMotionTouchForm.CanCloseDialog, h]
  · intro h
    simp [ConfigureMotionTouchForm.ApplyConfiguration,
      ConfigureMotionTouchForm.CanCloseDialog, h]

/-- C26 at the sample dialog while a UDP test runs: nothing is saved. -/
theorem apply_blocked_during_udp_test_witness :
    ({ sampleForm with udp_test_in_progress := true } :
        ConfigureMotionTouchForm).udp_test_in_progress = true ∧
      ConfigureMotionTouchForm.ApplyConfiguration (fun _ => "")
        { sampleForm with udp_test_in_progress := true } sampleValues =
        (sampleValues, [FormEvent.warning]) :=
  ⟨rfl,
    (apply_blocked_during_udp_test (fun _ => "")
      { sampleForm with udp_test_in_progress := true } sampleValues).2.1 rfl⟩

/-! ## The title type handed to the registry -/

/-- C24, evaluated at the sample file `/roms/a.nca`. Whatever the numeric values of
`TitleType::Application` and `TitleType::FirmwarePackageB`, the fifth option, Firmware
Package (B), hands the title type `4` to the registry and the first option, System
Application, the title type `0`. With the values `0x80` and `0x05`, for which the sixth
option, Game, gives `0x80`, Firmware Package (B) therefore gives `4` and not `0x05`; and were
`TitleType::FirmwarePackageB` equal to `4`, Game would give `0x81` and not `0x80`. -/
theorem firmware_b_option_passes_index :
    (∀ application firmwarePackageB : Nat,
      (InstallNCA (titleTypeEnv application firmwarePackageB "固件包（B型）") "/roms/a.nca"
          sampleWorld).events =
        [GuiEvent.promptTitleType,
          GuiEvent.installEntryNCA (decide ((4 : Int) ≥ application)) "/roms/a.nca" 4 true] ∧
      (InstallNCA (titleTypeEnv application firmwarePackageB "系统中的应用") "/roms/a.nca"
          sampleWorld).events =
        [GuiEvent.promptTitleType,
          GuiEvent.installEntryNCA (decide ((0 : Int) ≥ application)) "/roms/a.nca" 0
            true]) ∧
      (titleTypeEnv 0x80 0x05 "固件包（B型）").TitleType_FirmwarePackageB = 0x05 ∧
      (InstallNCA (titleTypeEnv 0x80 0x05 "固件包（B型）") "/roms/a.nca" sampleWorld).events =
        [GuiEvent.promptTitleType, GuiEvent.installEntryNCA false "/roms/a.nca" 4 true] ∧
      (InstallNCA (titleTypeEnv 0x80 0x05 "游戏") "/roms/a.nca" sampleWorld).events =
        [GuiEvent.promptTitleType, GuiEvent.installEntryNCA true "/roms/a.nca" 0x80 true] ∧
      (InstallNCA (titleTypeEnv 0x80 4 "游戏") "/roms/a.nca" sampleWorld).events =
        [GuiEvent.promptTitleType, GuiEvent.installEntryNCA true "/roms/a.nca" 0x81 true] := by
  have hs : (sampleLookup sampleTable "/roms/a.nca").status = ResultStatus.Success := by
    decide
  refine ⟨fun application firmwarePackageB => ⟨?_, ?_⟩, rfl, ?_, ?_, ?_⟩
  · simp [InstallNCA, titleTypeEnv, sampleEnv, hs, indexOf, tt_options]
  · simp [InstallNCA, titleTypeEnv, sampleEnv, hs, indexOf, tt_options]
  · simp [InstallNCA, titleTypeEnv, sampleEnv, hs, indexOf, tt_options]
  · simp [InstallNCA, titleTypeEnv, sampleEnv, hs, indexOf, tt_options, toInt32]
  · simp [InstallNCA, titleTypeEnv, sampleEnv, hs, indexOf, tt_options, toInt32]

/-! ## The remaining-files count -/

theorem windowTitles_append (t u : List GuiEvent) :
    windowTitles (t ++ u) = windowTitles t ++ windowTitles u := by
  induction t with
  | nil => simp [windowTitles]
  | cons e t ih => cases e <;> simp [windowTitles, ih]

/-- Neither install routine touches the title of the progress dialog. -/
theorem install_routines_keep_title {σ : Type} (env : Env σ) (file : String) (w : World σ) :
    (∀ r, InstallNSPXCI env file w = some r → windowTitles r.events = []) ∧
      windowTitles (InstallNCA env file w).events = [] := by
  constructor
  · intro r hr
    have hinstall : ∀ nsp, windowTitles (InstallNSPXCI.install env nsp w).events = [] := by
      intro nsp
      unfold InstallNSPXCI.install
      split_ifs <;> simp [windowTitles]
    unfold InstallNSPXCI at hr
    by_cases h1 : endsWithCaseInsensitive file "nsp" = true
    · rw [if_pos h1] at hr
      by_cases h2 : (env.OpenNSP file w.ext).IsExtractedType = true
      · simp only [h2, if_true, Option.some.injEq] at hr
        rw [← hr]
        rfl
      · simp only [h2, Bool.false_eq_true, if_false, Option.some.injEq] at hr
        rw [← hr]
        exact hinstall _
    · rw [if_neg h1] at hr
      cases hx : env.OpenXCISecurePartitionNSP file w.ext with
      | none => simp [hx] at hr
      | some nsp =>
        simp only [hx, Option.some.injEq] at hr
        rw [← hr]
        exact hinstall _
  · unfold InstallNCA
    simp only []
    split_ifs <;> simp [windowTitles]

/-- One turn of the loop that does not end the run shows the current count once and then
decrements it. -/
theorem installFile_titles {σ : Type} (env : Env σ) (b : Batch σ) (file : String)
    (h : (installFile env b file).crashed = false) :
    windowTitles (installFile env b file).events = windowTitles b.events ++ [b.remaining] ∧
      (installFile env b file).remaining = b.remaining - 1 := by
  obtain ⟨hb, r, hr⟩ := installFile_returned env b file h
  rw [installFile_eq env b file r hr hb]
  refine ⟨?_, rfl⟩
  simp only [windowTitles_append]
  by_cases hk : (endsWithCaseInsensitive file "xci" || endsWithCaseInsensitive file "nsp") =
      true
  · rw [if_pos hk] at hr
    simp [hk, windowTitles, (install_routines_keep_title env file b.world).1 r hr]
  · rw [if_neg hk] at hr
    cases hr
    simp [hk, windowTitles, (install_routines_keep_title env file b.world).2]

/-- The counts shown by the loop over the files, when it runs to its end, start at the
initial value of `remaining` and go down by one per file. -/
theorem installLoop_titles {σ : Type} (env : Env σ) (files : List String) (b : Batch σ)
    (h : (files.foldl (installFile env) b).crashed = false) :
    windowTitles (files.foldl (installFile env) b).events =
      windowTitles b.events ++
        (List.range files.length).map (fun (i : Nat) => b.remaining - (i : Int)) := by
  induction files generalizing b with
  | nil => simp
  | cons file rest ih =>
    have h1 := installLoop_head env file rest b h
    rw [List.foldl_cons] at h
    rw [List.foldl_cons, ih _ h, (installFile_titles env b file h1).1,
      (installFile_titles env b file h1).2, List.length_cons, List.range_succ_eq_map,
      List.map_cons, List.map_map, List.append_assoc]
    congr 2
    simp
    intro i _
    omega

/-- The counts shown by a processed batch: the `i`-th file starts under the count
`filenames.size() - i`, where `filenames` is the list returned by the file dialog. -/
theorem batch_titles {σ : Type} (env : Env σ) (sel : Selection) (w : World σ)
    (h : (OnMenuInstallToNAND env sel w).status = BatchStatus.processed) :
    windowTitles (OnMenuInstallToNAND env sel w).events =
      (List.range sel.files.length).map
        (fun (i : Nat) => (sel.filenames.length : Int) - (i : Int)) := by
  obtain ⟨b, hb, _, _, _, he, _⟩ := processed_eq env sel w h
  rw [he, hb, windowTitles_append, installLoop_titles _ _ _ (processed_not_crashed env sel w h)]
  simp [windowTitles]

/-- C25, evaluated at three files chosen in the file dialog of which the install dialog
returns only the last: `n = 1` file is installed, and the count shown when it starts is `3`,
the length of the list of the file dialog, not `1`. -/
theorem remaining_counts_file_dialog_list :
    uncheckedSelection.files = ["/roms/c.nca"] ∧
      (OnMenuInstallToNAND sampleQuietEnv uncheckedSelection sampleWorld).status =
        BatchStatus.processed ∧
      installCalls (OnMenuInstallToNAND sampleQuietEnv uncheckedSelection sampleWorld).events =
        ["/roms/c.nca"] ∧
      windowTitles (OnMenuInstallToNAND sampleQuietEnv uncheckedSelection sampleWorld).events =
        [3] := by
  have hp : (OnMenuInstallToNAND sampleQuietEnv uncheckedSelection sampleWorld).status =
      BatchStatus.processed :=
    status_processed_of_partitions _ _ _ (sampleEnv_partitions _ _ _) (by decide) (by decide)
      (by decide) (by decide)
  refine ⟨rfl, hp, ?_, ?_⟩
  · obtain ⟨b, hb, _, _, _, he, _⟩ := processed_eq _ _ _ hp
    obtain ⟨_, _, _, _, _, _, _, _, _, _, hcalls, _, _⟩ := installLoop_spec sampleQuietEnv
      uncheckedSelection.files
      ⟨uncheckedSelection.filenames.length, [], [], [],
        [GuiEvent.newProgressDialog (preScan sampleQuietEnv.fileSize uncheckedSelection.files)],
        sampleWorld⟩ (processed_not_crashed _ _ _ hp)
    rw [he, hb, installCalls_append, hcalls]
    rfl
  · rw [batch_titles _ _ _ hp]
    rfl

/-! ## Removal of installed entries -/

theorem removalTargets_append (t u : List RemoveEvent) :
    removalTargets (t ++ u) = removalTargets t ++ removalTargets u := by
  induction t with
  | nil => simp [removalTargets]
  | cons e t ih =>
    cases e with
    | RemoveExistingEntry registry title_id result =>
      cases registry <;> simp [removalTargets, ih]
    | _ => simp [removalTargets, ih]

theorem removed_append (t u : List RemoveEvent) :
    removed (t ++ u) = removed t ++ removed u := by
  induction t with
  | nil => simp [removed]
  | cons e t ih =>
    cases e with
    | RemoveExistingEntry registry title_id result =>
      cases result <;> simp [removed, ih]
    | _ => simp [removed, ih]

/-- One removal tries the user NAND contents first, tries one title id only, and removes it
at most once. -/
theorem removeFromRegistries_events {σ : Type} (env : RemoveEnv σ) (title_id : Nat) (s : σ) :
    removalTargets (removeFromRegistries env title_id s).2.2 = [title_id] ∧
      removed (removeFromRegistries env title_id s).2.2 =
        (if (removeFromRegistries env title_id s).1 then [title_id] else []) := by
  unfold removeFromRegistries
  cases h1 : (env.RemoveExistingEntry Registry.UserNAND title_id s).1 with
  | true => simp [removalTargets, removed, h1]
  | false =>
    cases h2 : (env.RemoveExistingEntry Registry.SDMC title_id
      (env.RemoveExistingEntry Registry.UserNAND title_id s).2).1 <;>
      simp [removalTargets, removed, h1, h2]

/-- The loop of `RemoveAddOnContent` tries exactly the entries whose masked title id is
`program_id`, in their order, and counts those that were removed. -/
theorem RemoveAddOnContent_loop_spec {σ : Type} (env : RemoveEnv σ) (program_id : Nat)
    (entries : List Nat) (count : Nat) (s : σ) (events : List RemoveEvent)
    (hcount : count + entries.length < 2 ^ 32) :
    removalTargets (RemoveAddOnContent.loop env program_id entries (count, s, events)).2.2 =
        removalTargets events ++
          entries.filter (fun t => t &&& DLC_BASE_TITLE_ID_MASK = program_id) ∧
      ∃ gone : List Nat,
        removed (RemoveAddOnContent.loop env program_id entries (count, s, events)).2.2 =
          removed events ++ gone ∧
        gone.Sublist (entries.filter (fun t => t &&& DLC_BASE_TITLE_ID_MASK = program_id)) ∧
        (RemoveAddOnContent.loop env program_id entries (count, s, events)).1 =
          count + gone.length := by
  induction entries generalizing count s events with
  | nil => exact ⟨by simp [RemoveAddOnContent.loop], [], by simp [RemoveAddOnContent.loop]⟩
  | cons title_id rest ih =>
    rw [List.length_cons] at hcount
    rw [RemoveAddOnContent.loop]
    by_cases hm : title_id &&& DLC_BASE_TITLE_ID_MASK = program_id
    · rw [if_pos hm]
      obtain ⟨ht, hr⟩ := removeFromRegistries_events env title_id s
      cases hres : (removeFromRegistries env title_id s).1 with
      | true =>
        rw [hres, if_pos rfl] at hr
        have hmod : (count + 1) % 2 ^ 32 = count + 1 := Nat.mod_eq_of_lt (by omega)
        simp only [hres, if_true, hmod]
        obtain ⟨h1, gone, h2, h3, h4⟩ := ih (count + 1) (removeFromRegistries env title_id s).2.1
          (events ++ (removeFromRegistries env title_id s).2.2) (by omega)
        refine ⟨?_, title_id :: gone, ?_, ?_, ?_⟩
        · rw [h1, removalTargets_append, ht]
          simp [hm]
        · rw [h2, removed_append, hr]
          simp
        · simp only [hm, decide_True, List.filter_cons_of_pos]
          exact h3.cons₂ _
        · rw [h4, List.length_cons]
          omega
      | false =>
        rw [hres, if_neg Bool.false_ne_true] at hr
        simp only [hres, Bool.false_eq_true, if_false]
        obtain ⟨h1, gone, h2, h3, h4⟩ := ih count (removeFromRegistries env title_id s).2.1
          (events ++ (removeFromRegistries env title_id s).2.2) (by omega)
        refine ⟨?_, gone, ?_, ?_, h4⟩
        · rw [h1, removalTargets_append, ht]
          simp [hm]
        · rw [h2, removed_append, hr]
          simp
        · simp only [hm, decide_True, List.filter_cons_of_pos]
          exact h3.cons _
    · rw [if_neg hm]
      obtain ⟨h1, gone, h2, h3, h4⟩ := ih count s events (by omega)
      refine ⟨?_, gone, h2, ?_, h4⟩
      · rw [h1]
        simp [hm]
      · simpa [hm] using h3

/-- The loop of `RemoveAddOnContent` tries exactly the entries whose masked title id is
`program_id`, in their order. -/
theorem RemoveAddOnContent_loop_targets {σ : Type} (env : RemoveEnv σ) (program_id : Nat)
    (entries : List Nat) (count : Nat) (s : σ) (events : List RemoveEvent) :
    removalTargets (RemoveAddOnContent.loop env program_id entries (count, s, events)).2.2 =
      removalTargets events ++
        entries.filter (fun t => t &&& DLC_BASE_TITLE_ID_MASK = program_id) := by
  induction entries generalizing count s events with
  | nil => simp [RemoveAddOnContent.loop]
  | cons title_id rest ih =>
    rw [RemoveAddOnContent.loop]
    by_cases hm : title_id &&& DLC_BASE_TITLE_ID_MASK = program_id
    · rw [if_pos hm, ih, removalTargets_append,
        (removeFromRegistries_events env title_id s).1]
      simp [hm]
    · rw [if_neg hm, ih]
      simp [hm]

/-- C27: once the question is answered with `Yes`, `OnGameListRemoveInstalledEntry` removes
by entry type. For `Game` it runs the removal of the base content, then that of the update,
then that of the add-on content; for `Update` only the removal of the update; for
`AddOnContent` only the removal of the add-on content. The base removal tries `program_id`,
the update removal `program_id | 0x800`, and the add-on removal tries exactly the entries
whose title id masked with `0xFFFFFFFFFFFFE000` is `program_id`, in the order of the list,
and ends with the count of those it removed, shown in a warning when it is zero. -/
theorem removal_by_entry_type {σ : Type} (env : RemoveEnv σ) (program_id : Nat) (s : σ)
    (hyes : env.question s = true) :
    ((OnGameListRemoveInstalledEntry env program_id InstalledEntryType.Game s).2 =
        (RemoveBaseContent env program_id s).2 ++
          (RemoveUpdateContent env program_id (RemoveBaseContent env program_id s).1).2 ++
          (RemoveAddOnContent env program_id
            (RemoveUpdateContent env program_id (RemoveBaseContent env program_id s).1).1).2 ++
          [RemoveEvent.DeleteDirRecursively, RemoveEvent.PopulateAsync] ∧
      (OnGameListRemoveInstalledEntry env program_id InstalledEntryType.Update s).2 =
        (RemoveUpdateContent env program_id s).2 ++
          [RemoveEvent.DeleteDirRecursively, RemoveEvent.PopulateAsync] ∧
      (OnGameListRemoveInstalledEntry env program_id InstalledEntryType.AddOnContent s).2 =
        (RemoveAddOnContent env program_id s).2 ++
          [RemoveEvent.DeleteDirRecursively, RemoveEvent.PopulateAsync]) ∧
    ∀ t : σ,
      removalTargets (RemoveBaseContent env program_id t).2 = [program_id] ∧
      removalTargets (RemoveUpdateContent env program_id t).2 = [program_id ||| 0x800] ∧
      removalTargets (RemoveAddOnContent env program_id t).2 =
        (env.ListEntriesFilter t).filter (fun id => id &&& 0xFFFFFFFFFFFFE000 = program_id) ∧
      ((env.ListEntriesFilter t).length < 2 ^ 32 →
        (removed (RemoveAddOnContent env program_id t).2).Sublist
          ((env.ListEntriesFilter t).filter
            (fun id => id &&& 0xFFFFFFFFFFFFE000 = program_id)) ∧
        (RemoveAddOnContent env program_id t).2.getLast? =
          some (if (removed (RemoveAddOnContent env program_id t).2).length = 0 then
            RemoveEvent.warning
          else
            RemoveEvent.informationCount
              (removed (RemoveAddOnContent env program_id t).2).length)) := by
  refine ⟨⟨?_, ?_, ?_⟩, fun t => ⟨?_, ?_, ?_, ?_⟩⟩
  · simp [OnGameListRemoveInstalledEntry, hyes]
  · simp [OnGameListRemoveInstalledEntry, hyes]
  · simp [OnGameListRemoveInstalledEntry, hyes]
  · rw [RemoveBaseContent, removalTargets_append,
      (removeFromRegistries_events env program_id t).1]
    split_ifs <;> rfl
  · rw [RemoveUpdateContent, removalTargets_append,
      (removeFromRegistries_events env (program_id ||| 0x800) t).1]
    split_ifs <;> rfl
  · have h1 := RemoveAddOnContent_loop_targets env program_id (env.ListEntriesFilter t) 0 t []
    unfold RemoveAddOnContent
    simp only []
    split_ifs <;> rw [removalTargets_append, h1] <;> simp [removalTargets, DLC_BASE_TITLE_ID_MASK]
  · intro hlen
    obtain ⟨_, gone, h2, h3, h4⟩ := RemoveAddOnContent_loop_spec env program_id
      (env.ListEntriesFilter t) 0 t [] (by omega)
    have hgone : removed (RemoveAddOnContent env program_id t).2 = gone := by
      unfold RemoveAddOnContent
      simp only []
      split_ifs <;> rw [removed_append, h2] <;> simp [removed]
    rw [hgone]
    refine ⟨by simpa [DLC_BASE_TITLE_ID_MASK] using h3, ?_⟩
    unfold RemoveAddOnContent
    simp only [h4, Nat.zero_add]
    split_ifs <;> simp

/-- C27 at the sample registries, for the program `0x0100000000010000`: the removal of the
game tries the program, its update and its two add-on entries, in this order, and not the
add-on entry of the other program; the removal of the add-on content alone removes the two
entries and shows the count `2`. -/
theorem removal_by_entry_type_witness :
    sampleRemoveEnv.question sampleRegistries = true ∧
      (OnGameListRemoveInstalledEntry sampleRemoveEnv 0x0100000000010000
          InstalledEntryType.Update sampleRegistries).2 =
        (RemoveUpdateContent sampleRemoveEnv 0x0100000000010000 sampleRegistries).2 ++
          [RemoveEvent.DeleteDirRecursively, RemoveEvent.PopulateAsync] ∧
      removalTargets (OnGameListRemoveInstalledEntry sampleRemoveEnv 0x0100000000010000
          InstalledEntryType.Game sampleRegistries).2 =
        [0x0100000000010000, 0x0100000000010800, 0x0100000000011001, 0x0100000000011002] ∧
      removalTargets (OnGameListRemoveInstalledEntry sampleRemoveEnv 0x0100000000010000
          InstalledEntryType.Update sampleRegistries).2 = [0x0100000000010800] ∧
      (OnGameListRemoveInstalledEntry sampleRemoveEnv 0x0100000000010000
          InstalledEntryType.AddOnContent sampleRegistries) =
        (([0x0100000000010000, 0x0100000000010800], [0x0100000000021001]),
          [RemoveEvent.RemoveExistingEntry Registry.UserNAND 0x0100000000011001 true,
            RemoveEvent.RemoveExistingEntry Registry.UserNAND 0x0100000000011002 false,
            RemoveEvent.RemoveExistingEntry Registry.SDMC 0x0100000000011002 true,
            RemoveEvent.informationCount 2, RemoveEvent.DeleteDirRecursively,
            RemoveEvent.PopulateAsync]) ∧
      (sampleRemoveEnv.ListEntriesFilter sampleRegistries).length < 2 ^ 32 ∧
      (RemoveAddOnContent sampleRemoveEnv 0x0100000000010000 sampleRegistries).2.getLast? =
        some (if (removed (RemoveAddOnContent sampleRemoveEnv 0x0100000000010000
            sampleRegistries).2).length = 0 then
          RemoveEvent.warning
        else
          RemoveEvent.informationCount
            (removed (RemoveAddOnContent sampleRemoveEnv 0x0100000000010000
              sampleRegistries).2).length) :=
  ⟨rfl,
    (removal_by_entry_type sampleRemoveEnv 0x0100000000010000 sampleRegistries rfl).1.2.1,
    by decide, by decide, by decide, by decide,
    (((removal_by_entry_type sampleRemoveEnv 0x0100000000010000 sampleRegistries rfl).2
      sampleRegistries).2.2.2 (by decide)).2⟩

/-! ## The list of recent files -/

/-- The truncation loop keeps the first `max_recent_files_item` entries. -/
theorem truncate_eq_take (max_recent_files_item : Nat) (recent_files : List String) :
    StoreRecentFile.truncate max_recent_files_item recent_files =
      recent_files.take max_recent_files_item := by
  generalize hn : recent_files.length = n
  induction n generalizing recent_files with
  | zero =>
    rw [StoreRecentFile.truncate, if_neg (by omega)]
    rw [List.length_eq_zero] at hn
    simp [hn]
  | succ n ih =>
    rw [StoreRecentFile.truncate]
    by_cases h : max_recent_files_item < recent_files.length
    · rw [if_pos h, ih _ (by rw [List.length_dropLast]; omega), List.dropLast_eq_take,
        List.take_take]
      congr 1
      omega
    · rw [if_neg h, List.take_of_length_le (by omega)]

/-- The loop of `removeDuplicates` returns a sublist of its input without repetitions, none
of whose entries was met before; it keeps every entry that was not met before. -/
theorem removeDuplicates_loop_spec (seen list : List String) :
    (removeDuplicates.loop seen list).Sublist list ∧
      (removeDuplicates.loop seen list).Nodup ∧
      (∀ s ∈ removeDuplicates.loop seen list, s ∉ seen) ∧
      (∀ s ∈ list, s ∉ seen → s ∈ removeDuplicates.loop seen list) := by
  induction list generalizing seen with
  | nil => simp [removeDuplicates.loop]
  | cons x rest ih =>
    rw [removeDuplicates.loop]
    by_cases hx : x ∈ seen
    · rw [if_pos hx]
      obtain ⟨h1, h2, h3, h4⟩ := ih seen
      refine ⟨h1.cons _, h2, h3, ?_⟩
      intro s hs hns
      rcases List.mem_cons.mp hs with rfl | hs
      · exact absurd hx hns
      · exact h4 s hs hns
    · rw [if_neg hx]
      obtain ⟨h1, h2, h3, h4⟩ := ih (x :: seen)
      refine ⟨h1.cons₂ _, ?_, ?_, ?_⟩
      · rw [List.nodup_cons]
        exact ⟨fun hm => h3 x hm (List.mem_cons_self _ _), h2⟩
      · intro s hs
        rcases List.mem_cons.mp hs with rfl | hs
        · exact hx
        · exact fun hm => h3 s hs (List.mem_cons_of_mem _ hm)
      · intro s hs hns
        rcases List.mem_cons.mp hs with rfl | hs
        · exact List.mem_cons_self _ _
        · by_cases hsx : s = x
          · rw [hsx]
            exact List.mem_cons_self _ _
          · refine List.mem_cons_of_mem _ (h4 s hs ?_)
            intro hm
            rcases List.mem_cons.mp hm with h | h
            · exact hsx h
            · exact hns h

/-- With room for at least one entry, the list stored is the file name followed by the
first `max_recent_files_item - 1` other entries, each at its first occurrence. -/
theorem StoreRecentFile_eq (max_recent_files_item : Nat) (recent_files : List String)
    (filename : String) (hmax : 0 < max_recent_files_item) :
    StoreRecentFile max_recent_files_item recent_files filename =
      filename ::
        (removeDuplicates.loop [filename] recent_files).take (max_recent_files_item - 1) := by
  obtain ⟨m, rfl⟩ : ∃ m, max_recent_files_item = m + 1 := ⟨max_recent_files_item - 1, by omega⟩
  rw [StoreRecentFile, truncate_eq_take, removeDuplicates, removeDuplicates.loop,
    if_neg (List.not_mem_nil _), List.take_succ_cons, Nat.add_sub_cancel]

/-- C28: for every list of recent files and every file name, when `max_recent_files_item`
is at least one, the list after `StoreRecentFile(filename)` has `filename` as its first
element, has no duplicates and at most `max_recent_files_item` entries; its other entries
are entries of the previous list, other than `filename`, in their previous relative order;
and no previous entry is lost when the names fit into `max_recent_files_item` entries. -/
theorem recent_file_stored_first (max_recent_files_item : Nat) (recent_files : List String)
    (filename : String) (hmax : 0 < max_recent_files_item) :
    (StoreRecentFile max_recent_files_item recent_files filename).head? = some filename ∧
      (StoreRecentFile max_recent_files_item recent_files filename).Nodup ∧
      (StoreRecentFile max_recent_files_item recent_files filename).length ≤
        max_recent_files_item ∧
      (StoreRecentFile max_recent_files_item recent_files filename).tail.Sublist
        (recent_files.filter (fun s => s ≠ filename)) ∧
      ((removeDuplicates (filename :: recent_files)).length ≤ max_recent_files_item →
        ∀ s ∈ recent_files,
          s ∈ StoreRecentFile max_recent_files_item recent_files filename) := by
  obtain ⟨h1, h2, h3, h4⟩ := removeDuplicates_loop_spec [filename] recent_files
  have htake : ((removeDuplicates.loop [filename] recent_files).take
      (max_recent_files_item - 1)).Sublist (removeDuplicates.loop [filename] recent_files) :=
    List.take_sublist _ _
  rw [StoreRecentFile_eq _ _ _ hmax]
  refine ⟨rfl, ?_, ?_, ?_, ?_⟩
  · rw [List.nodup_cons]
    refine ⟨fun hm => h3 filename (htake.subset hm) (List.mem_singleton_self _),
      h2.sublist htake⟩
  · rw [List.length_cons]
    have := List.length_take_le (max_recent_files_item - 1)
      (removeDuplicates.loop [filename] recent_files)
    omega
  · rw [List.tail_cons]
    have hfilter : (removeDuplicates.loop [filename] recent_files).filter
        (fun s => s ≠ filename) = removeDuplicates.loop [filename] recent_files := by
      rw [List.filter_eq_self]
      intro s hs
      have := h3 s hs
      simpa using this
    have hsub := h1.filter (fun s => decide (s ≠ filename))
    rw [hfilter] at hsub
    exact htake.trans hsub
  · intro hlen s hs
    rw [removeDuplicates, removeDuplicates.loop, if_neg (List.not_mem_nil _),
      List.length_cons] at hlen
    rw [List.take_of_length_le (by omega)]
    by_cases hsf : s = filename
    · rw [hsf]
      exact List.mem_cons_self _ _
    · exact List.mem_cons_of_mem _ (h4 s hs (by simpa using hsf))

/-- C28 at a list of three names of which the second is opened again, with room for three
entries and with room for two. -/
theorem recent_file_stored_first_witness :
    (0 < 3 ∧
        (StoreRecentFile 3 ["b.nsp", "a.nsp", "c.nsp"] "a.nsp").head? = some "a.nsp" ∧
        (StoreRecentFile 3 ["b.nsp", "a.nsp", "c.nsp"] "a.nsp").Nodup ∧
        (StoreRecentFile 3 ["b.nsp", "a.nsp", "c.nsp"] "a.nsp").length ≤ 3) ∧
      StoreRecentFile 3 ["b.nsp", "a.nsp", "c.nsp"] "a.nsp" = ["a.nsp", "b.nsp", "c.nsp"] ∧
      StoreRecentFile 2 ["b.nsp", "a.nsp", "c.nsp"] "a.nsp" = ["a.nsp", "b.nsp"] := by
  have h := recent_file_stored_first 3 ["b.nsp", "a.nsp", "c.nsp"] "a.nsp" (by decide)
  refine ⟨⟨by decide, h.1, h.2.1, h.2.2.1⟩, ?_, ?_⟩
  · rw [StoreRecentFile_eq _ _ _ (by decide)]
    decide
  · rw [StoreRecentFile_eq _ _ _ (by decide)]
    decide

/-! ## The target of a RomFS dump -/

/-- C29, counterexample: the program `0x0100000000010000` has the add-on entries
`0x0100000000011001` and `0x0100000000011801`, which both get the label `DLC 1`. When the
user picks the third item of the list, the one generated from `0x0100000000011801`, the
function returns `0x0100000000011001`, the title id of the second item. -/
theorem same_label_returns_first_entry :
    romfs_tids (sampleDumpTargetEnv 2) 0x0100000000010000 =
        [0x0100000000010000, 0x0100000000011001, 0x0100000000011801] ∧
      dumpTargetLabels (romfs_tids (sampleDumpTargetEnv 2) 0x0100000000010000) =
        ["Base", "DLC 1", "DLC 1"] ∧
      (sampleDumpTargetEnv 2).getItem ["Base", "DLC 1", "DLC 1"] = ("DLC 1", true) ∧
      SelectRomFSDumpTarget (sampleDumpTargetEnv 2) 0x0100000000010000 =
        (DumpTarget.title 0x0100000000011001, some ["Base", "DLC 1", "DLC 1"]) := by
  decide

/-- C29 as amended: `SelectRomFSDumpTarget` returns `program_id` without a prompt when no
add-on entry that opens without error matches the program. Otherwise it offers the list
`Base`, `DLC n`, .. and returns no value when the prompt is cancelled; when the user picks an
item of the list, it returns the title id of the first entry that carries the label of that
item, which is the entry picked whenever the labels offered are pairwise distinct. -/
theorem dump_target_first_with_label (env : DumpTargetEnv) (program_id : Nat) :
    ((romfs_tids env program_id).tail = [] →
        SelectRomFSDumpTarget env program_id = (DumpTarget.title program_id, none)) ∧
      ((romfs_tids env program_id).tail ≠ [] →
        ((env.getItem (dumpTargetLabels (romfs_tids env program_id))).2 = false →
          SelectRomFSDumpTarget env program_id =
            (DumpTarget.nothing, some (dumpTargetLabels (romfs_tids env program_id)))) ∧
        ∀ (k : Nat) (label : String) (title_id : Nat),
          (dumpTargetLabels (romfs_tids env program_id)).get? k = some label →
          (romfs_tids env program_id).get? k = some title_id →
          env.getItem (dumpTargetLabels (romfs_tids env program_id)) = (label, true) →
          (∃ first,
            (romfs_tids env program_id).get?
              (List.indexOf label (dumpTargetLabels (romfs_tids env program_id))) =
              some first ∧
            SelectRomFSDumpTarget env program_id =
              (DumpTarget.title first,
                some (dumpTargetLabels (romfs_tids env program_id)))) ∧
          ((dumpTargetLabels (romfs_tids env program_id)).Nodup →
            SelectRomFSDumpTarget env program_id =
              (DumpTarget.title title_id,
                some (dumpTargetLabels (romfs_tids env program_id))))) := by
  have hlen : (dumpTargetLabels (romfs_tids env program_id)).length =
      (romfs_tids env program_id).length := by
    simp [dumpTargetLabels, romfs_tids]
  have hsize : (romfs_tids env program_id).length =
      (romfs_tids env program_id).tail.length + 1 := by
    simp [romfs_tids]
  refine ⟨fun h => ?_, fun h => ⟨fun hcancel => ?_, fun k label title_id hl ht hpick => ?_⟩⟩
  · have h1 : ¬ (romfs_tids env program_id).length > 1 := by
      rw [hsize, h]
      simp
    unfold SelectRomFSDumpTarget
    simp only [h1, if_false]
  · have h1 : (romfs_tids env program_id).length > 1 := by
      rw [hsize]
      have := List.length_pos.mpr h
      omega
    unfold SelectRomFSDumpTarget
    simp only [h1, if_true, hcancel, Bool.not_false]
  · have h1 : (romfs_tids env program_id).length > 1 := by
      rw [hsize]
      have := List.length_pos.mpr h
      omega
    have hmem : label ∈ dumpTargetLabels (romfs_tids env program_id) :=
      List.get?_mem hl
    have hidx : List.indexOf label (dumpTargetLabels (romfs_tids env program_id)) <
        (romfs_tids env program_id).length := by
      rw [← hlen]
      exact List.indexOf_lt_length.mpr hmem
    have hsel : SelectRomFSDumpTarget env program_id =
        (DumpTarget.title ((romfs_tids env program_id).get
            ⟨List.indexOf label (dumpTargetLabels (romfs_tids env program_id)), hidx⟩),
          some (dumpTargetLabels (romfs_tids env program_id))) := by
      unfold SelectRomFSDumpTarget
      simp only [h1, if_true, hpick, Bool.not_true, Bool.false_eq_true, if_false, indexOf,
        hmem, Int.natCast_nonneg, Int.toNat_ofNat, List.get?_eq_get hidx]
    refine ⟨⟨_, List.get?_eq_get hidx, hsel⟩, fun hnodup => ?_⟩
    rw [hsel]
    obtain ⟨hk, hget⟩ := List.get?_eq_some.mp hl
    have hkth : List.indexOf label (dumpTargetLabels (romfs_tids env program_id)) = k := by
      rw [← hget]
      exact List.get_indexOf hnodup ⟨k, hk⟩
    obtain ⟨hk2, hget2⟩ := List.get?_eq_some.mp ht
    simp only [hkth, hget2]

/-- C29 as amended, at a program with two add-on entries of distinct labels: the user picks
the third item, `DLC 2`, and the title id of the second add-on entry is returned. -/
theorem dump_target_first_with_label_witness :
    (romfs_tids (distinctDumpTargetEnv 2) 0x0100000000010000).tail ≠ [] ∧
      (dumpTargetLabels (romfs_tids (distinctDumpTargetEnv 2) 0x0100000000010000)).get? 2 =
        some "DLC 2" ∧
      (romfs_tids (distinctDumpTargetEnv 2) 0x0100000000010000).get? 2 =
        some 0x0100000000011002 ∧
      (distinctDumpTargetEnv 2).getItem
          (dumpTargetLabels (romfs_tids (distinctDumpTargetEnv 2) 0x0100000000010000)) =
        ("DLC 2", true) ∧
      (dumpTargetLabels (romfs_tids (distinctDumpTargetEnv 2) 0x0100000000010000)).Nodup ∧
      SelectRomFSDumpTarget (distinctDumpTargetEnv 2) 0x0100000000010000 =
        (DumpTarget.title 0x0100000000011002,
          some (dumpTargetLabels (romfs_tids (distinctDumpTargetEnv 2) 0x0100000000010000))) :=
  ⟨by decide, by decide, by decide, by decide, by decide,
    ((((dump_target_first_with_label (distinctDumpTargetEnv 2) 0x0100000000010000).2
      (by decide)).2 2 "DLC 2" 0x0100000000011002 (by decide) (by decide) (by decide)).2
      (by decide))⟩

end Yuzu
